import Mathlib

/-!
wifi_broadway_sign: the orchestration core of `main/main.c`

A shallow embedding of the effect selection, persistence, MQTT command
handling and touch polling of `main.c`, followed by theorems about it.

Conventions of the embedding

* The C globals, the NVS partition and the FreeRTOS render tasks are one
  explicit state, `SignState`; every C function that mutates them is a
  function on that state.
* `uint8_t` and `uint16_t` arithmetic is done on `Nat` with explicit
  `% 256` and `% 65536`.
* A region of memory read through a `char *` is a `List Char`; the end of
  the list is read as a NUL byte.
* Undefined behaviour of the C code (a NULL pointer handed to `atoi`, a
  write past the eight bytes of `led_palette`) is an explicit `Fault`.
-/

namespace BroadwaySign

/-! ## C strings -/

/-- The byte that terminates a C string. -/
def NUL : Char := Char.ofNat 0

/-- The C string found at the head of a memory region: the bytes before the
first NUL. -/
def cstr (m : List Char) : List Char := m.takeWhile (fun c => c ≠ NUL)

/-- `strlen` of the C string at the head of `m`. -/
def strlen (m : List Char) : Nat := (cstr m).length

/-- `strncmp(a, b, n) == 0`: at most `n` bytes are compared and the
comparison stops after a NUL common to both. -/
def strncmp_eq : List Char → List Char → Nat → Bool
  | _, _, 0 => true
  | a, b, n + 1 =>
    if a.headD NUL ≠ b.headD NUL then false
    else if a.headD NUL = NUL then true
    else strncmp_eq a.tail b.tail n

/-- `strcmp(a, b) == 0`. -/
def strcmp_eq (a b : List Char) : Bool := cstr a == cstr b

/-- `substring` (main.c 186-191): NULL (`none`) when the string is empty or
shorter than `begin` or `begin + len`, else `strndup(str + begin, len)`. -/
def substring (str : List Char) (b len : Nat) : Option (List Char) :=
  if strlen str = 0 ∨ strlen str < b ∨ strlen str < b + len then none
  else some (((cstr str).drop b).take len)

/-- `isspace` of the C locale. -/
def isspace (c : Char) : Bool := c.toNat = 32 || (9 ≤ c.toNat && c.toNat ≤ 13)

/-- `isdigit`. -/
def isdigit (c : Char) : Bool := 48 ≤ c.toNat && c.toNat ≤ 57

/-- The value of the leading run of decimal digits, accumulated left to
right. -/
def digits_value (acc : Nat) : List Char → Nat
  | [] => acc
  | c :: cs => if isdigit c then digits_value (acc * 10 + (c.toNat - 48)) cs else acc

/-- `atoi` as `(int) strtol(s, NULL, 10)` on a 32-bit `long`: leading white
space, an optional sign, the leading decimal digits (none gives 0), saturated
to the range of `long`. -/
def atoi (m : List Char) : Int :=
  match m.dropWhile isspace with
  | [] => 0
  | c :: r =>
    if c = Char.ofNat 45 then max (-(digits_value 0 r : Int)) (-2147483648)
    else if c = Char.ofNat 43 then min (digits_value 0 r : Int) 2147483647
    else min (digits_value 0 (c :: r) : Int) 2147483647

/-! ## Constants of main.c -/

/-- `enum led_effect` (main.c 95-103), by ordinal. The variable
`current_effect` is held as a number because the code increments it and
loads it from a stored byte. -/
abbrev led_effect := Nat

def OFF : led_effect := 0
def COLOR : led_effect := 1
def RAINBOW : led_effect := 2
def ENUMERATE : led_effect := 3
def MARQUEE : led_effect := 4
def TWINKLE : led_effect := 5
def RAINBOW_MARQUEE : led_effect := 6

def TOUCH_THRESHOLD : Nat := 500
def LONG_PRESS_THRESHOLD : Nat := 10000

/-- The local `delay` of `tp_read_task`: milliseconds between two polls. -/
def delay : Nat := 200

/-- The task functions handed to `xTaskCreate` by `showtime`. -/
inductive TaskFn
  | led_blank
  | led_color
  | led_rainbow
  | led_enumerate
  | led_marquee
  | led_twinkle
  | led_rainbow_marquee
  deriving DecidableEq, Repr

/-! ## Non-volatile storage -/

/-- What a read of one NVS key returns: `ESP_ERR_NVS_NOT_FOUND`, `ESP_OK`
with a value, or any other error code. -/
inductive NvsEntry (α : Type)
  | absent
  | value (v : α)
  | unreadable
  deriving DecidableEq, Repr

/-- The NVS namespace `iot_lights`. `ro_opens` and `rw_opens` say whether
`nvs_open` succeeds in the two modes; `commits` counts the `nvs_set_*` +
`nvs_commit` pairs performed; `junk` is the content of the uninitialised
buffer that `store_palette` compares against when the key is absent (`none`
when `malloc` returned NULL). -/
structure Nvs where
  ro_opens : Bool
  rw_opens : Bool
  palette : NvsEntry (List Char)
  speed : NvsEntry Nat
  brightness : NvsEntry Nat
  effect : NvsEntry Nat
  commits : Nat
  junk : Option (List Char)
  deriving DecidableEq, Repr

/-! ## Program state -/

/-- The globals of main.c (106-118), `strip.max_cc_val`, the render tasks
alive in the scheduler (handle and task function), the NVS namespace, and
the number of `wifi_manager_disconnect_async` calls made. `led_palette` is
the eight bytes of the array. -/
structure SignState where
  current_effect : led_effect
  prev_effect : led_effect
  led_palette : List Char
  effect_speed_delay : Nat
  led_brightness : Nat
  led_brightness_up : Bool
  strip_max_cc_val : Nat
  led_task_handle : Option Nat
  tasks : List (Nat × TaskFn)
  next_handle : Nat
  nvs : Nvs
  wifi_resets : Nat
  deriving DecidableEq, Repr

/-- Undefined behaviour reached by the C code. -/
inductive Fault
  | null_deref
  | palette_overflow
  | palette_unterminated
  deriving DecidableEq, Repr

/-- A namespace with no key stored. -/
def empty_nvs (ro rw : Bool) (junk : Option (List Char)) : Nvs :=
  { ro_opens := ro, rw_opens := rw, palette := .absent, speed := .absent,
    brightness := .absent, effect := .absent, commits := 0, junk := junk }

/-- The state at entry of `app_main`: the initialisers of main.c 106-118
(`strip.max_cc_val` as set by `dled_strip_create` from `led_brightness`),
no render task, over the given NVS content. -/
def boot_state (nvs : Nvs) : SignState :=
  { current_effect := RAINBOW, prev_effect := OFF,
    led_palette := "#ff8200".toList ++ [NUL],
    effect_speed_delay := 100, led_brightness := 64, led_brightness_up := true,
    strip_max_cc_val := 64, led_task_handle := none, tasks := [], next_handle := 0,
    nvs := nvs, wifi_resets := 0 }

/-! ## Persistence (main.c 492-694) -/

/-- `strcpy(led_palette, src)`: the string and its NUL over the head of the
array; more than eight bytes is a write past the array. -/
def strcpy_palette (src : List Char) (s : SignState) : Except Fault SignState :=
  if 8 < strlen src + 1 then .error .palette_overflow
  else .ok { s with led_palette := cstr src ++ [NUL] ++ s.led_palette.drop (strlen src + 1) }

/-- `strncpy(led_palette, src, n)`: exactly `n` bytes are written, the
string followed by NUL padding when it is shorter than `n`, and no NUL when
it is not. -/
def strncpy_palette (src : List Char) (n : Nat) (s : SignState) : Except Fault SignState :=
  if 8 < n then .error .palette_overflow
  else
    let written := (cstr src).take n ++ List.replicate (n - strlen src) NUL
    .ok { s with led_palette := written ++ s.led_palette.drop n }

/-- `read_flash_settings` (main.c 492-559). -/
def read_flash_settings (s : SignState) : Except Fault SignState :=
  if s.nvs.ro_opens = false then .ok s
  else
    let afterPalette : Except Fault SignState :=
      match s.nvs.palette with
      | .value p => strcpy_palette p s
      | _ => .ok s
    afterPalette.map fun s1 =>
      let s2 := match s1.nvs.speed with
        | .value v => { s1 with effect_speed_delay := v % 256 }
        | _ => s1
      let s3 := match s2.nvs.brightness with
        | .value v => { s2 with led_brightness := v % 256 }
        | _ => s2
      match s3.nvs.effect with
      | .value v => { s3 with current_effect := v % 256 }
      | _ => s3

/-- `store_palette` (main.c 561-595). With the key absent `palette_val` is
the uninitialised buffer `junk`. -/
def store_palette (s : SignState) : Except Fault SignState :=
  if s.nvs.rw_opens = false then .ok s
  else
    let write : SignState :=
      { s with nvs := { s.nvs with palette := .value (cstr s.led_palette),
                                   commits := s.nvs.commits + 1 } }
    match s.nvs.palette with
    | .unreadable => .ok s
    | .value p =>
      if strlen s.led_palette ≥ 8 then .error .palette_unterminated
      else if strcmp_eq s.led_palette p then .ok s else .ok write
    | .absent =>
      match s.nvs.junk with
      | none => .error .null_deref
      | some j =>
        if strlen s.led_palette ≥ 8 then .error .palette_unterminated
        else if strcmp_eq s.led_palette j then .ok s else .ok write

/-- `store_speed` (main.c 597-628). With the key absent `speed_val` keeps
its initial 0. -/
def store_speed (s : SignState) : SignState :=
  if s.nvs.rw_opens = false then s
  else
    let write : SignState :=
      { s with nvs := { s.nvs with speed := .value (s.effect_speed_delay % 256),
                                   commits := s.nvs.commits + 1 } }
    match s.nvs.speed with
    | .unreadable => s
    | .value v => if v ≠ s.effect_speed_delay then write else s
    | .absent => if 0 ≠ s.effect_speed_delay then write else s

/-- `store_brightness` (main.c 630-661). -/
def store_brightness (s : SignState) : SignState :=
  if s.nvs.rw_opens = false then s
  else
    let write : SignState :=
      { s with nvs := { s.nvs with brightness := .value (s.led_brightness % 256),
                                   commits := s.nvs.commits + 1 } }
    match s.nvs.brightness with
    | .unreadable => s
    | .value v => if v ≠ s.led_brightness then write else s
    | .absent => if 0 ≠ s.led_brightness then write else s

/-- `store_effect` (main.c 663-694). -/
def store_effect (s : SignState) : SignState :=
  if s.nvs.rw_opens = false then s
  else
    let write : SignState :=
      { s with nvs := { s.nvs with effect := .value (s.current_effect % 256),
                                   commits := s.nvs.commits + 1 } }
    match s.nvs.effect with
    | .unreadable => s
    | .value v => if v ≠ s.current_effect then write else s
    | .absent => if 0 ≠ s.current_effect then write else s

/-! ## The render task (main.c 696-730) -/

/-- `vTaskDelete(h)`: the task with handle `h` leaves the scheduler. -/
def vTaskDelete (h : Nat) (s : SignState) : SignState :=
  { s with tasks := s.tasks.filter (fun t => t.1 ≠ h) }

/-- `xTaskCreate(f, ..., &led_task_handle)`: a new task running `f` enters
the scheduler and its fresh handle is stored in `led_task_handle`. The
creation is taken to succeed; main.c does not test its result. -/
def xTaskCreate (f : TaskFn) (s : SignState) : SignState :=
  { s with tasks := s.tasks ++ [(s.next_handle, f)],
           led_task_handle := some s.next_handle,
           next_handle := s.next_handle + 1 }

/-- The block `if (led_task_handle) { vTaskDelete(...); led_task_handle = NULL; }`
of main.c 699-703 and 750-754. -/
def end_running_task (s : SignState) : SignState :=
  match s.led_task_handle with
  | some h => { vTaskDelete h s with led_task_handle := none }
  | none => s

/-- `showtime` (main.c 696-730). -/
def showtime (s : SignState) : SignState :=
  let s1 := end_running_task s
  let s2 :=
    if s1.current_effect = OFF then xTaskCreate .led_blank s1
    else if s1.current_effect = ENUMERATE then xTaskCreate .led_enumerate s1
    else if s1.current_effect = COLOR then xTaskCreate .led_color s1
    else if s1.current_effect = RAINBOW then xTaskCreate .led_rainbow s1
    else if s1.current_effect = TWINKLE then xTaskCreate .led_twinkle s1
    else if s1.current_effect = MARQUEE then xTaskCreate .led_marquee s1
    else if s1.current_effect = RAINBOW_MARQUEE then xTaskCreate .led_rainbow_marquee s1
    else s1
  if s2.current_effect ≠ OFF then { s2 with prev_effect := s2.current_effect } else s2

/-! ## MQTT commands (main.c 732-831) -/

/-- The event ids the handler switches on. -/
inductive esp_mqtt_event_id_t
  | MQTT_EVENT_ERROR
  | MQTT_EVENT_CONNECTED
  | MQTT_EVENT_DISCONNECTED
  | MQTT_EVENT_SUBSCRIBED
  | MQTT_EVENT_UNSUBSCRIBED
  | MQTT_EVENT_PUBLISHED
  | MQTT_EVENT_DATA
  deriving DecidableEq, Repr

/-- The fields of `esp_mqtt_event_t` the handler reads. `topic` and `data`
are the memory at the two pointers: the `data_len` bytes of the payload come
first in `data` and are not NUL-terminated by the client. -/
structure esp_mqtt_event_t where
  event_id : esp_mqtt_event_id_t
  topic : List Char
  data : List Char
  data_len : Nat
  deriving DecidableEq, Repr

/-- The five topic strings of the build configuration (`sdkconfig`), which
is not part of main.c. -/
structure MqttTopics where
  CONFIG_MQTT_TOPIC_CONTROL : List Char
  CONFIG_MQTT_TOPIC_COLOR : List Char
  CONFIG_MQTT_TOPIC_MODE : List Char
  CONFIG_MQTT_TOPIC_SPEED : List Char
  CONFIG_MQTT_TOPIC_BRIGHTNESS : List Char
  deriving DecidableEq, Repr

/-- The branch of the `if / else if` chain of main.c 769-811. -/
inductive Topic
  | mode
  | control
  | color
  | speed
  | brightness
  deriving DecidableEq, Repr

/-- The chain of `strncmp(event->topic, CONFIG_..., strlen(CONFIG_...)) == 0`
tests of main.c 769, 787, 795, 799 and 811, in that order: the first
configured topic that starts the event topic selects the branch. -/
def topic_of (cfg : MqttTopics) (topic : List Char) : Option Topic :=
  if strncmp_eq topic cfg.CONFIG_MQTT_TOPIC_MODE (strlen cfg.CONFIG_MQTT_TOPIC_MODE) then
    some .mode
  else if strncmp_eq topic cfg.CONFIG_MQTT_TOPIC_CONTROL (strlen cfg.CONFIG_MQTT_TOPIC_CONTROL) then
    some .control
  else if strncmp_eq topic cfg.CONFIG_MQTT_TOPIC_COLOR (strlen cfg.CONFIG_MQTT_TOPIC_COLOR) then
    some .color
  else if strncmp_eq topic cfg.CONFIG_MQTT_TOPIC_SPEED (strlen cfg.CONFIG_MQTT_TOPIC_SPEED) then
    some .speed
  else if strncmp_eq topic cfg.CONFIG_MQTT_TOPIC_BRIGHTNESS (strlen cfg.CONFIG_MQTT_TOPIC_BRIGHTNESS) then
    some .brightness
  else none

/-- The mode branch, main.c 771-783. -/
def set_mode (data : List Char) (s : SignState) : SignState :=
  if strncmp_eq data "rainbow".toList 7 then { s with current_effect := RAINBOW }
  else if strncmp_eq data "color".toList 5 then { s with current_effect := COLOR }
  else if strncmp_eq data "enumerate".toList 4 then { s with current_effect := ENUMERATE }
  else if strncmp_eq data "twinkle".toList 7 then { s with current_effect := TWINKLE }
  else if strncmp_eq data "marquee".toList 7 then { s with current_effect := MARQUEE }
  else if strncmp_eq data "rmarquee".toList 8 then { s with current_effect := RAINBOW_MARQUEE }
  else s

/-- The control branch, main.c 788-792. -/
def set_control (data : List Char) (s : SignState) : SignState :=
  if strncmp_eq data "OFF".toList 3 then { s with current_effect := OFF }
  else if strncmp_eq data "ON".toList 2 then { s with current_effect := s.prev_effect }
  else s

/-- The speed branch, main.c 800-808. -/
def set_speed (data : List Char) (s : SignState) : SignState :=
  let i := atoi data
  if 0 ≤ i ∧ i ≤ 255 then
    let j := 255 - i
    if j = 0 then { s with effect_speed_delay := 10 }
    else { s with effect_speed_delay := j.toNat }
  else s

/-- The brightness branch after `substring`, main.c 813-818. -/
def set_brightness (temp : List Char) (s : SignState) : SignState :=
  let i := atoi temp
  if 0 < i ∧ i ≤ 255 then
    { s with led_brightness := i.toNat, strip_max_cc_val := i.toNat }
  else s

/-- `mqtt_event_handler` (main.c 732-831). `showtime` runs when `new_effect`
was set: on a subscription and on a data event of one of the five topics. -/
def mqtt_event_handler (cfg : MqttTopics) (ev : esp_mqtt_event_t) (s : SignState) :
    Except Fault SignState :=
  match ev.event_id with
  | .MQTT_EVENT_SUBSCRIBED => .ok (showtime (end_running_task s))
  | .MQTT_EVENT_DATA =>
    match topic_of cfg ev.topic with
    | some .mode => .ok (showtime (store_effect (set_mode ev.data s)))
    | some .control => .ok (showtime (store_effect (set_control ev.data s)))
    | some .color =>
      match strncpy_palette ev.data ev.data_len s with
      | .error f => .error f
      | .ok s1 =>
        match store_palette s1 with
        | .error f => .error f
        | .ok s2 => .ok (showtime s2)
    | some .speed => .ok (showtime (store_speed (set_speed ev.data s)))
    | some .brightness =>
      match substring ev.data 0 ev.data_len with
      | none => .error .null_deref
      | some temp => .ok (showtime (store_brightness (set_brightness temp s)))
    | none => .ok s
  | _ => .ok s

/-! ## Touch polling (main.c 890-983) -/

/-- The raw values read from the three pads in one pass of the loop. -/
structure TouchSample where
  touch0 : Nat
  touch2 : Nat
  touch3 : Nat
  deriving DecidableEq, Repr

/-- The locals of `tp_read_task` that live across passes, and three
counters that are not in the C code: they count how often the body of the
power press (main.c 907-918), of the cycle press (929-938) and of the long
press (971-976) has been executed. -/
structure TpLocal where
  touched : Bool
  long_press0 : Nat
  long_press2 : Nat
  long_press3 : Nat
  power_presses : Nat
  cycle_presses : Nat
  long_presses : Nat
  deriving DecidableEq, Repr

/-- The locals at entry of `tp_read_task` (main.c 892-896). -/
def tp_entry : TpLocal :=
  { touched := false, long_press0 := 0, long_press2 := 0, long_press3 := 0,
    power_presses := 0, cycle_presses := 0, long_presses := 0 }

/-- The test `touch_value && touch_value < TOUCH_THRESHOLD`. -/
def is_touched (v : Nat) : Bool := v ≠ 0 && v < TOUCH_THRESHOLD

/-- The toggle of main.c 908-917. -/
def power_toggle (s : SignState) : SignState :=
  if s.current_effect = OFF then
    { s with current_effect := (if s.prev_effect = OFF then RAINBOW else s.prev_effect),
             prev_effect := OFF }
  else
    { s with prev_effect := s.current_effect, current_effect := OFF }

/-- The step of main.c 930-937: increment, skip ENUMERATE, wrap past 6. -/
def cycle_effect (e : led_effect) : led_effect :=
  let e1 := e + 1
  let e2 := if e1 = ENUMERATE then e1 + 1 else e1
  if e2 > 6 then 1 else e2

/-- TOUCH0, main.c 899-922. -/
def touch0_poll (v : Nat) (l : TpLocal) (s : SignState) : TpLocal × SignState :=
  if is_touched v then
    let lp := (l.long_press0 + delay) % 65536
    if lp < delay * 2 then
      ({ l with long_press0 := lp, touched := true, power_presses := l.power_presses + 1 },
        store_effect (power_toggle s))
    else ({ l with long_press0 := lp }, s)
  else ({ l with long_press0 := 0 }, s)

/-- TOUCH2, main.c 923-942. -/
def touch2_poll (v : Nat) (l : TpLocal) (s : SignState) : TpLocal × SignState :=
  if is_touched v then
    let lp := (l.long_press2 + delay) % 65536
    if lp < delay * 2 then
      ({ l with long_press2 := lp, touched := true, cycle_presses := l.cycle_presses + 1 },
        store_effect { s with current_effect := cycle_effect s.current_effect })
    else ({ l with long_press2 := lp }, s)
  else ({ l with long_press2 := 0 }, s)

/-- The brightness ramp of main.c 950-962 on the `uint8_t` brightness. -/
def ramp_brightness (s : SignState) : SignState :=
  if s.led_brightness_up then
    let b := (s.led_brightness + 10) % 256
    if b > 245 then { s with led_brightness := 255, led_brightness_up := false }
    else { s with led_brightness := b }
  else
    let b := (s.led_brightness + 256 - 10) % 256
    if b < 10 then { s with led_brightness := 10, led_brightness_up := true }
    else { s with led_brightness := b }

/-- TOUCH3, main.c 943-968. -/
def touch3_poll (v : Nat) (l : TpLocal) (s : SignState) : TpLocal × SignState :=
  if is_touched v then
    ({ l with touched := true, long_press3 := (l.long_press3 + delay) % 65536 },
      ramp_brightness s)
  else
    ({ l with long_press3 := 0 }, if l.long_press3 ≠ 0 then store_brightness s else s)

/-- The end of the pass, main.c 969-980: the long press, else `showtime`
when a pad was acted on. -/
def long_press_check (l : TpLocal) (s : SignState) : TpLocal × SignState :=
  if l.long_press0 > LONG_PRESS_THRESHOLD ∧ l.long_press0 < LONG_PRESS_THRESHOLD + delay * 2 then
    ({ l with long_press0 := LONG_PRESS_THRESHOLD + delay * 2 + 1,
              long_presses := l.long_presses + 1 },
      showtime { s with wifi_resets := s.wifi_resets + 1,
                        led_palette := "#FF0000".toList ++ [NUL] ++ s.led_palette.drop 8,
                        current_effect := ENUMERATE })
  else if l.touched then ({ l with touched := false }, showtime s)
  else (l, s)

/-- One pass of the `while (true)` loop of `tp_read_task`. -/
def tp_read_tick (inp : TouchSample) (l : TpLocal) (s : SignState) : TpLocal × SignState :=
  let r0 := touch0_poll inp.touch0 l s
  let r2 := touch2_poll inp.touch2 r0.1 r0.2
  let r3 := touch3_poll inp.touch3 r2.1 r2.2
  long_press_check r3.1 r3.2

/-- The loop of `tp_read_task` over a finite run of samples, one per pass. -/
def tp_read_task : List TouchSample → TpLocal → SignState → TpLocal × SignState
  | [], l, s => (l, s)
  | inp :: rest, l, s => tp_read_task rest (tp_read_tick inp l s).1 (tp_read_tick inp l s).2

/-- `initialize_leds` (main.c 231-244) as far as the state is concerned:
`dled_strip_create` is handed `led_brightness` for the `max_cc_val` of the
strip. -/
def initialize_leds (s : SignState) : SignState :=
  { s with strip_max_cc_val := s.led_brightness }

/-- `app_main` as far as the core is concerned (main.c 1057, 1084 and 1087):
load the settings, set up the strip, then start the show. -/
def app_main (nvs : Nvs) : Except Fault SignState :=
  (read_flash_settings (boot_state nvs)).map fun s => showtime (initialize_leds s)

/-! ## Vocabulary of the statements -/

/-- The event is a data message that the handler routes to branch `t`. -/
def on_topic (cfg : MqttTopics) (t : Topic) (ev : esp_mqtt_event_t) : Prop :=
  ev.event_id = .MQTT_EVENT_DATA ∧ topic_of cfg ev.topic = some t

instance (cfg : MqttTopics) (t : Topic) (ev : esp_mqtt_event_t) : Decidable (on_topic cfg t ev) := by
  unfold on_topic
  infer_instance

/-- A configuration used for concrete runs: the five topics under `sign/`. -/
def sample_topics : MqttTopics :=
  { CONFIG_MQTT_TOPIC_CONTROL := "sign/control".toList,
    CONFIG_MQTT_TOPIC_COLOR := "sign/color".toList,
    CONFIG_MQTT_TOPIC_MODE := "sign/mode".toList,
    CONFIG_MQTT_TOPIC_SPEED := "sign/speed".toList,
    CONFIG_MQTT_TOPIC_BRIGHTNESS := "sign/brightness".toList }

/-- A data message with the given topic and payload, each followed by
nothing but the end of the buffer. -/
def data_event (topic payload : String) : esp_mqtt_event_t :=
  { event_id := .MQTT_EVENT_DATA, topic := topic.toList, data := payload.toList,
    data_len := payload.length }


/-- One input to the core: an MQTT event, or one pass of the touch loop with
the given samples and loop locals. -/
inductive Command
  | mqtt (ev : esp_mqtt_event_t)
  | touch (inp : TouchSample) (l : TpLocal)

/-- The state after the input has been handled, `showtime` included. -/
def Command.apply (cfg : MqttTopics) : Command → SignState → Except Fault SignState
  | .mqtt ev, s => mqtt_event_handler cfg ev s
  | .touch inp l, s => .ok (tp_read_tick inp l s).2

/-- A debounced press on the power pad alone: the pad is touched, its
accumulator is 0 (the pad was released before), the cycle pad is not
touched. The brightness pad is free. -/
def power_press (inp : TouchSample) (l : TpLocal) : Prop :=
  is_touched inp.touch0 = true ∧ l.long_press0 = 0 ∧ is_touched inp.touch2 = false

/-- A debounced press on the cycle pad alone. -/
def cycle_press (inp : TouchSample) (l : TpLocal) : Prop :=
  is_touched inp.touch0 = false ∧ is_touched inp.touch2 = true ∧ l.long_press2 = 0

/-- A pass with the power and the cycle pad released. -/
def pads_released (inp : TouchSample) : Prop :=
  is_touched inp.touch0 = false ∧ is_touched inp.touch2 = false

/-- The input is a power-off command: a control message starting with
"OFF", or a press on the power pad. -/
def is_power_off (cfg : MqttTopics) : Command → Prop
  | .mqtt ev => on_topic cfg .control ev ∧ strncmp_eq ev.data "OFF".toList 3 = true
  | .touch inp l => power_press inp l

/-- The input is a power-on command: a control message starting with "ON",
or a press on the power pad. -/
def is_power_on (cfg : MqttTopics) : Command → Prop
  | .mqtt ev => on_topic cfg .control ev ∧ strncmp_eq ev.data "ON".toList 2 = true
  | .touch inp l => power_press inp l

/-- What `showtime` leaves behind: a running effect is also the recorded
previous effect. -/
def Settled (s : SignState) : Prop :=
  s.current_effect ≠ OFF → s.prev_effect = s.current_effect

/-- The fixed cyclic order of the cycle command, in the words of the
specification. -/
def cycle_order : List led_effect := [COLOR, RAINBOW, MARQUEE, TWINKLE, RAINBOW_MARQUEE]

/-- The effects shown after each of `n` successive cycle presses, each press
followed by a release of the pad: the samples alternate between `press` and
`release`. -/
def effects_after_presses (press release : TouchSample) :
    Nat → TpLocal → SignState → List led_effect
  | 0, _, _ => []
  | n + 1, l, s =>
    let r1 := tp_read_tick press l s
    let r2 := tp_read_tick release r1.1 r1.2
    r1.2.current_effect :: effects_after_presses press release n r2.1 r2.2

/-- The power channel seen alone: `long_press0` and the number of power
presses after one more touched pass, by main.c 905-906 and 970-972. -/
def power_channel_step (p : Nat × Nat) : Nat × Nat :=
  let lp := (p.1 + delay) % 65536
  (if lp > LONG_PRESS_THRESHOLD ∧ lp < LONG_PRESS_THRESHOLD + delay * 2
      then LONG_PRESS_THRESHOLD + delay * 2 + 1 else lp,
    if lp < delay * 2 then p.2 + 1 else p.2)

/-- The cycle channel seen alone: `long_press2` and the number of cycle
presses after one more touched pass, by main.c 927-928. -/
def cycle_channel_step (p : Nat × Nat) : Nat × Nat :=
  let lp := (p.1 + delay) % 65536
  (lp, if lp < delay * 2 then p.2 + 1 else p.2)

/-- The handle names the live render task: the render tasks alive in the
scheduler are exactly the task of `led_task_handle`, none when it is NULL. -/
def Owned (s : SignState) : Prop :=
  s.tasks.map Prod.fst = s.led_task_handle.toList

/-- The task function of each effect, in the words of the specification. -/
def task_function_of (e : led_effect) : List TaskFn :=
  if e = OFF then [.led_blank]
  else if e = COLOR then [.led_color]
  else if e = RAINBOW then [.led_rainbow]
  else if e = ENUMERATE then [.led_enumerate]
  else if e = MARQUEE then [.led_marquee]
  else if e = TWINKLE then [.led_twinkle]
  else if e = RAINBOW_MARQUEE then [.led_rainbow_marquee]
  else []

/-- The power channel seen alone, with the long press: `long_press0` and the
number of long presses after one more touched pass, by main.c 905 and
970-972. -/
def long_press_channel_step (p : Nat × Nat) : Nat × Nat :=
  let lp := (p.1 + delay) % 65536
  if lp > LONG_PRESS_THRESHOLD ∧ lp < LONG_PRESS_THRESHOLD + delay * 2
    then (LONG_PRESS_THRESHOLD + delay * 2 + 1, p.2 + 1) else (lp, p.2)

/-- The payload of the event, its first `data_len` bytes, is exactly the
text `kw`. What follows the payload in the buffer is free. -/
def payload_is (ev : esp_mqtt_event_t) (kw : String) : Prop :=
  ev.data_len = kw.length ∧ ev.data.take ev.data_len = kw.toList

/-- The value of a hexadecimal digit, `none` for any other byte. -/
def hex_value (c : Char) : Option Nat :=
  if 48 ≤ c.toNat ∧ c.toNat ≤ 57 then some (c.toNat - 48)
  else if 97 ≤ c.toNat ∧ c.toNat ≤ 102 then some (c.toNat - 87)
  else if 65 ≤ c.toNat ∧ c.toNat ≤ 70 then some (c.toNat - 55)
  else none

/-- `sscanf(nohash, "%02x%02x%02x", &r, &g, &b)` (main.c 340, 363, 411, 434)
on a string that starts with six hexadecimal digits: three bytes of two
digits each. On any other string a conversion stops short and leaves its
variable uninitialised, which is `none` here. -/
def sscanf_rgb : List Char → Option (Nat × Nat × Nat)
  | a :: b :: c :: d :: e :: f :: _ =>
    match hex_value a, hex_value b, hex_value c, hex_value d, hex_value e, hex_value f with
    | some va, some vb, some vc, some vd, some ve, some vf =>
      some (16 * va + vb, 16 * vc + vd, 16 * ve + vf)
    | _, _, _, _, _, _ => none
  | _ => none

/-- The colour `(r, g, b)` that `led_color`, `led_enumerate`, `led_twinkle`
and `led_marquee` read from the palette: `substring(led_palette, 1, 6)`
handed to `sscanf`. A NULL from `substring` is undefined behaviour in
`sscanf` and `none` here. -/
def decode_palette (p : List Char) : Option (Nat × Nat × Nat) :=
  match substring p 1 6 with
  | none => none
  | some nohash => sscanf_rgb nohash

/-- The variables that are bytes in main.c hold bytes (the enumeration is
loaded from a byte and never leaves 0..255). -/
def Bytes (s : SignState) : Prop :=
  s.current_effect < 256 ∧ s.prev_effect < 256 ∧ s.effect_speed_delay < 256 ∧
    s.led_brightness < 256

/-- Handling a list of inputs in order, each on the state that the one
before has left. -/
def run_commands (cfg : MqttTopics) : List Command → SignState → Except Fault SignState
  | [], s => .ok s
  | c :: cs, s =>
    match c.apply cfg s with
    | .ok s1 => run_commands cfg cs s1
    | .error f => .error f

/-- Where a touch pass stands, relative to the state `s` it started from,
before its final `showtime`: either a press has set `touched` and left an
effect or a previous effect other than OFF (as far as `s` had one), or the
two variables are as in `s`. -/
def PassInv (s : SignState) (l : TpLocal) (x : SignState) : Prop :=
  (l.touched = true ∧
      (s.prev_effect ≠ OFF → x.current_effect ≠ OFF ∨ x.prev_effect ≠ OFF)) ∨
    (x.current_effect = s.current_effect ∧ x.prev_effect = s.prev_effect)

/-- Modelled from the spec: `pixel_t` is declared in esp32_rmt_dled.h, which
is not part of main.c; a colour has three channels of 0..255 each. -/
structure pixel_t where
  r : Nat
  g : Nat
  b : Nat
  deriving DecidableEq, Repr

/-- The arithmetic of the C types `float` and `double` on exact values:
`f32` gives the `float` that a `float` operation or a conversion to `float`
delivers for the exact result, `f64` the `double` of a `double` operation. -/
structure FloatArith where
  f32 : ℚ → ℚ
  f64 : ℚ → ℚ

/-- Exact arithmetic: no rounding at all. -/
def exact_arith : FloatArith := { f32 := fun x => x, f64 := fun x => x }

/-- The standard model of rounding to nearest, on the values that
`led_set_brightness` meets: for 0 and for every value between 1/512 and 512
the delivered number is off by at most the relative error 2^-24 for `float`
and 2^-53 for `double`. IEEE-754 binary32 and binary64 satisfy it, and so
does exact arithmetic. -/
def FloatArith.rounds_to_nearest (fa : FloatArith) : Prop :=
  (∀ x : ℚ, x = 0 ∨ (1 / 512 ≤ x ∧ x ≤ 512) → |fa.f32 x - x| ≤ x / 2 ^ 24) ∧
  (∀ x : ℚ, x = 0 ∨ (1 / 512 ≤ x ∧ x ≤ 512) → |fa.f64 x - x| ≤ x / 2 ^ 53)

/-- The conversion `(int)x`: truncation toward zero. -/
def int_of_float (x : ℚ) : Int := if 0 ≤ x then ⌊x⌋ else ⌈x⌉

/-- `FLOAT_TO_INT(x)` (main.c 78) for a `float` expression `x`: the constant
0.5 is a `double`, so the sum and the difference are `double` operations. -/
def FLOAT_TO_INT (fa : FloatArith) (x : ℚ) : Int :=
  if x ≥ 0 then int_of_float (fa.f64 (x + 1 / 2)) else int_of_float (fa.f64 (x - 1 / 2))

/-- One channel of `led_set_brightness`: `(float)channel * percent` is a
`float` product (the conversion of a byte is exact) and the result of
`FLOAT_TO_INT` is stored in a byte. -/
def scale_channel (fa : FloatArith) (channel : Nat) (percent : ℚ) : Nat :=
  (FLOAT_TO_INT fa (fa.f32 ((channel : ℚ) * percent)) % 256).toNat

/-- `led_set_brightness` (main.c 328-334). `percent` is the `double` quotient
`(float)max_cc_val / 255.0` stored in a `float`. -/
def led_set_brightness (fa : FloatArith) (pixel : pixel_t) (max_cc_val : Int) : pixel_t :=
  let percent : ℚ := fa.f32 (fa.f64 ((max_cc_val : ℚ) / 255))
  { r := scale_channel fa pixel.r percent,
    g := scale_channel fa pixel.g percent,
    b := scale_channel fa pixel.b percent }

/-- The scaled channel in the words of the specification: `c * b / 255`
rounded to the nearest integer, halves away from zero, in exact arithmetic. -/
def round_scaled (c b : Nat) : Nat := (2 * (c * b) + 255) / 510

/-- `random` (main.c 181-184) with the library constant `RAND_MAX` and the
value `esp` delivered by `esp_random()` as arguments; all quantities are
non-negative and far below the range of `int` in the calls of main.c. -/
def random (rand_max esp min max : Nat) : Nat :=
  min + esp / (rand_max / (max - min + 1) + 1)

/-- The default of the global `twinkly` (main.c 114), a `uint8_t`. -/
def twinkly_default : Nat := 25

/-- The test `val < twinkly` of `led_twinkle` (main.c 413): when it holds the
pixel is set to the palette colour, otherwise it is turned off. -/
def twinkle_lit (twinkly val : Nat) : Bool := decide (val < twinkly)

/-- The values that `val = random(1, 100)` takes in `led_twinkle`
(main.c 412): the integers 1..100. -/
def twinkle_draws : List Nat := (List.range 100).map (fun k => 1 + k)

/-- The number of draws of `val` among 1..100 for which `led_twinkle` lights
the pixel. -/
def lit_draws (twinkly : Nat) : Nat :=
  (twinkle_draws.filter (twinkle_lit twinkly)).length

/-- The pixel with all channels off, read where the list has no element. -/
def black : pixel_t := { r := 0, g := 0, b := 0 }

/-- The loop of `rotate_pixels` (main.c 202-205) from index `i` down to 1:
`pixels[i] = pixels[i - 1]`. -/
def shift_right : Nat → List pixel_t → List pixel_t
  | 0, pixels => pixels
  | i + 1, pixels => shift_right i (pixels.set (i + 1) ((pixels[i]?).getD black))

/-- `rotate_pixels` (main.c 198-209) on a buffer given as a list. A `length`
of 0 reads `pixels[-1]` and a `length` beyond the buffer reads past its end:
both are undefined behaviour, `none` here. -/
def rotate_pixels (pixels : List pixel_t) (length : Nat) : Option (List pixel_t) :=
  if length = 0 ∨ pixels.length < length then none
  else
    let last := (pixels[length - 1]?).getD black
    some ((shift_right (length - 1) pixels).set 0 last)

/-- The loop of `rotate_pixels_reverse` (main.c 214-217) for `count` more
rounds from index `i` upward: `pixels[i] = pixels[i + 1]`. -/
def shift_left (i : Nat) : Nat → List pixel_t → List pixel_t
  | 0, pixels => pixels
  | count + 1, pixels =>
      shift_left (i + 1) count (pixels.set i ((pixels[i + 1]?).getD black))

/-- `rotate_pixels_reverse` (main.c 210-221) on a buffer given as a list,
with `none` for the undefined behaviour of a `length` of 0 (the store to
`pixels[-1]`) or beyond the buffer. -/
def rotate_pixels_reverse (pixels : List pixel_t) (length : Nat) : Option (List pixel_t) :=
  if length = 0 ∨ pixels.length < length then none
  else
    let first := (pixels[0]?).getD black
    some ((shift_left 0 (length - 1) pixels).set (length - 1) first)

/-- The rotations of `frames` passes of the inner loop of `led_enumerate`
(main.c 374-385, direction by `step_reverse`) and of `led_marquee`
(main.c 446-455, `step_reverse` false) on `strip.pixels`. -/
def sweep (step_reverse : Bool) (length : Nat) : Nat → List pixel_t → Option (List pixel_t)
  | 0, pixels => some pixels
  | frames + 1, pixels =>
      match (if step_reverse then rotate_pixels_reverse pixels length
             else rotate_pixels pixels length) with
      | some rotated => sweep step_reverse length frames rotated
      | none => none

/-- The state in which the buffer that `malloc` hands to the next call of
`store_palette` holds `j`: every call allocates a buffer of its own
(main.c 572), whose content is not that of the call before. -/
def fresh_buffer (j : List Char) (s : SignState) : SignState :=
  { s with nvs := { s.nvs with junk := some j } }

/-! ## Frame lemmas: what the helpers leave alone -/

theorem end_running_task_fields (s : SignState) :
    (end_running_task s).current_effect = s.current_effect ∧
    (end_running_task s).prev_effect = s.prev_effect ∧
    (end_running_task s).led_palette = s.led_palette ∧
    (end_running_task s).effect_speed_delay = s.effect_speed_delay ∧
    (end_running_task s).led_brightness = s.led_brightness ∧
    (end_running_task s).led_brightness_up = s.led_brightness_up ∧
    (end_running_task s).strip_max_cc_val = s.strip_max_cc_val ∧
    (end_running_task s).nvs = s.nvs ∧
    (end_running_task s).wifi_resets = s.wifi_resets := by
  unfold end_running_task vTaskDelete
  cases s.led_task_handle <;> simp

@[simp] theorem showtime_current_effect (s : SignState) :
    (showtime s).current_effect = s.current_effect := by
  have h := end_running_task_fields s
  unfold showtime xTaskCreate
  simp only [h]
  split_ifs <;> simp_all

@[simp] theorem showtime_nvs (s : SignState) : (showtime s).nvs = s.nvs := by
  have h := end_running_task_fields s
  unfold showtime xTaskCreate
  simp only [h]
  split_ifs <;> simp_all

@[simp] theorem showtime_led_palette (s : SignState) :
    (showtime s).led_palette = s.led_palette := by
  have h := end_running_task_fields s
  unfold showtime xTaskCreate
  simp only [h]
  split_ifs <;> simp_all

@[simp] theorem showtime_effect_speed_delay (s : SignState) :
    (showtime s).effect_speed_delay = s.effect_speed_delay := by
  have h := end_running_task_fields s
  unfold showtime xTaskCreate
  simp only [h]
  split_ifs <;> simp_all

@[simp] theorem showtime_led_brightness (s : SignState) :
    (showtime s).led_brightness = s.led_brightness := by
  have h := end_running_task_fields s
  unfold showtime xTaskCreate
  simp only [h]
  split_ifs <;> simp_all

@[simp] theorem showtime_strip_max_cc_val (s : SignState) :
    (showtime s).strip_max_cc_val = s.strip_max_cc_val := by
  have h := end_running_task_fields s
  unfold showtime xTaskCreate
  simp only [h]
  split_ifs <;> simp_all

theorem showtime_prev_effect (s : SignState) :
    (showtime s).prev_effect =
      if s.current_effect = OFF then s.prev_effect else s.current_effect := by
  have h := end_running_task_fields s
  unfold showtime xTaskCreate
  simp only [h]
  split_ifs <;> simp_all

@[simp] theorem store_effect_current_effect (s : SignState) :
    (store_effect s).current_effect = s.current_effect := by
  unfold store_effect
  repeat' split
  all_goals rfl

@[simp] theorem store_effect_prev_effect (s : SignState) :
    (store_effect s).prev_effect = s.prev_effect := by
  unfold store_effect
  repeat' split
  all_goals rfl

@[simp] theorem store_speed_effect_speed_delay (s : SignState) :
    (store_speed s).effect_speed_delay = s.effect_speed_delay := by
  unfold store_speed
  repeat' split
  all_goals rfl

@[simp] theorem store_brightness_led_brightness (s : SignState) :
    (store_brightness s).led_brightness = s.led_brightness := by
  unfold store_brightness
  repeat' split
  all_goals rfl

@[simp] theorem store_brightness_strip_max_cc_val (s : SignState) :
    (store_brightness s).strip_max_cc_val = s.strip_max_cc_val := by
  unfold store_brightness
  repeat' split
  all_goals rfl

/-! ## `strncmp` on the keywords -/

theorem strncmp_eq_succ (a b : List Char) (n : Nat) :
    strncmp_eq a b (n + 1) = true ↔
      a.headD NUL = b.headD NUL ∧ (a.headD NUL = NUL ∨ strncmp_eq a.tail b.tail n = true) := by
  rw [strncmp_eq]
  by_cases h1 : a.headD NUL = b.headD NUL
  · by_cases h2 : a.headD NUL = NUL
    · simp [h1, h2, ← h1]
    · simp [h1, h2, ← h1]
  · simp [h1]

theorem strncmp_eq_of_head_ne (a b : List Char) (n : Nat) (h : a.headD NUL ≠ b.headD NUL) :
    strncmp_eq a b (n + 1) = false := by
  rw [strncmp_eq, if_pos h]



theorem head_of_strncmp {a b : List Char} {n : Nat} (h : strncmp_eq a b (n + 1) = true) :
    a.headD NUL = b.headD NUL := ((strncmp_eq_succ a b n).1 h).1

theorem set_mode_twinkle (d : List Char) (s : SignState)
    (h : strncmp_eq d "twinkle".toList 7 = true) :
    set_mode d s = { s with current_effect := TWINKLE } := by
  have hd : d.headD NUL = 't' := head_of_strncmp h
  have h1 : strncmp_eq d "rainbow".toList 7 = false :=
    strncmp_eq_of_head_ne _ _ _ (by rw [hd]; decide)
  have h2 : strncmp_eq d "color".toList 5 = false :=
    strncmp_eq_of_head_ne _ _ _ (by rw [hd]; decide)
  have h3 : strncmp_eq d "enumerate".toList 4 = false :=
    strncmp_eq_of_head_ne _ _ _ (by rw [hd]; decide)
  simp only [set_mode, h, h1, h2, h3, Bool.false_eq_true, if_false, if_true]

theorem set_control_off (d : List Char) (s : SignState)
    (h : strncmp_eq d "OFF".toList 3 = true) :
    set_control d s = { s with current_effect := OFF } := by
  simp only [set_control, h, if_true]

theorem not_off_of_on (d : List Char) (h : strncmp_eq d "ON".toList 2 = true) :
    strncmp_eq d "OFF".toList 3 = false := by
  have h1 := (strncmp_eq_succ _ _ _).1 h
  have hd : d.headD NUL = 'O' := h1.1
  have h2 : strncmp_eq d.tail "ON".toList.tail 1 = true := by
    rcases h1.2 with h0 | h0
    · rw [hd] at h0; exact absurd h0 (by decide)
    · exact h0
  have hd2 : d.tail.headD NUL = 'N' := head_of_strncmp h2
  rw [strncmp_eq, if_neg (by rw [hd]; decide), if_neg (by rw [hd]; decide)]
  exact strncmp_eq_of_head_ne _ _ _ (by rw [hd2]; decide)

theorem set_control_on (d : List Char) (s : SignState)
    (h : strncmp_eq d "ON".toList 2 = true) :
    set_control d s = { s with current_effect := s.prev_effect } := by
  simp only [set_control, h, not_off_of_on d h, Bool.false_eq_true, if_false, if_true]

theorem read_flash_settings_empty (ro rw : Bool) (junk : Option (List Char)) :
    read_flash_settings (boot_state (empty_nvs ro rw junk)) =
      .ok (boot_state (empty_nvs ro rw junk)) := by
  cases ro <;> rfl

/-- C1. End-to-end scenario. From an empty store (whether or not the
read-only open succeeds) `read_flash_settings` leaves the defaults: effect
RAINBOW, palette "#ff8200", delay 100, brightness 64. After `showtime`, with
a store that opens for writing, a mode message starting with "twinkle" sets
the effect to TWINKLE and the stored effect byte to 5; a control message
starting with "OFF" then sets the effect to OFF and keeps `prev_effect` at
TWINKLE; a control message starting with "ON" then sets the effect back to
TWINKLE. No handler call faults. -/
theorem end_to_end_scenario (cfg : MqttTopics) (ro : Bool) (junk : Option (List Char))
    (evMode evOff evOn : esp_mqtt_event_t)
    (hm : on_topic cfg .mode evMode) (hmd : strncmp_eq evMode.data "twinkle".toList 7 = true)
    (hoff : on_topic cfg .control evOff) (hoffd : strncmp_eq evOff.data "OFF".toList 3 = true)
    (hon : on_topic cfg .control evOn) (hond : strncmp_eq evOn.data "ON".toList 2 = true) :
    ∃ s0 s1 s2 s3 : SignState,
      read_flash_settings (boot_state (empty_nvs ro true junk)) = .ok s0 ∧
      s0.current_effect = RAINBOW ∧ cstr s0.led_palette = "#ff8200".toList ∧
      s0.effect_speed_delay = 100 ∧ s0.led_brightness = 64 ∧
      mqtt_event_handler cfg evMode (showtime s0) = .ok s1 ∧
      s1.current_effect = TWINKLE ∧ s1.nvs.effect = .value 5 ∧
      mqtt_event_handler cfg evOff s1 = .ok s2 ∧
      s2.current_effect = OFF ∧ s2.prev_effect = TWINKLE ∧
      mqtt_event_handler cfg evOn s2 = .ok s3 ∧
      s3.current_effect = TWINKLE := by
  obtain ⟨hm1, hm2⟩ := hm
  obtain ⟨hoff1, hoff2⟩ := hoff
  obtain ⟨hon1, hon2⟩ := hon
  have e1 : ∀ s, mqtt_event_handler cfg evMode s =
      .ok (showtime (store_effect { s with current_effect := TWINKLE })) := fun s => by
    simp only [mqtt_event_handler, hm1, hm2, set_mode_twinkle _ _ hmd]
  have e2 : ∀ s, mqtt_event_handler cfg evOff s =
      .ok (showtime (store_effect { s with current_effect := OFF })) := fun s => by
    simp only [mqtt_event_handler, hoff1, hoff2, set_control_off _ _ hoffd]
  have e3 : ∀ s, mqtt_event_handler cfg evOn s =
      .ok (showtime (store_effect { s with current_effect := s.prev_effect })) := fun s => by
    simp only [mqtt_event_handler, hon1, hon2, set_control_on _ _ hond]
  refine ⟨boot_state (empty_nvs ro true junk), _, _, _, read_flash_settings_empty ro true junk,
    rfl, rfl, rfl, rfl, e1 _, ?_, ?_, e2 _, ?_, ?_, e3 _, ?_⟩
  · simp
  · simp [store_effect, boot_state, empty_nvs, TWINKLE]
  · simp
  · simp [showtime_prev_effect, OFF, TWINKLE]
  · simp [showtime_prev_effect, OFF, TWINKLE]

theorem end_to_end_scenario_witness :
    (on_topic sample_topics .mode (data_event "sign/mode" "twinkle") ∧
      strncmp_eq (data_event "sign/mode" "twinkle").data "twinkle".toList 7 = true ∧
      on_topic sample_topics .control (data_event "sign/control" "OFF") ∧
      strncmp_eq (data_event "sign/control" "OFF").data "OFF".toList 3 = true ∧
      on_topic sample_topics .control (data_event "sign/control" "ON") ∧
      strncmp_eq (data_event "sign/control" "ON").data "ON".toList 2 = true) ∧
    ∃ s0 s1 s2 s3 : SignState,
      read_flash_settings (boot_state (empty_nvs false true none)) = .ok s0 ∧
      s0.current_effect = RAINBOW ∧ cstr s0.led_palette = "#ff8200".toList ∧
      s0.effect_speed_delay = 100 ∧ s0.led_brightness = 64 ∧
      mqtt_event_handler sample_topics (data_event "sign/mode" "twinkle") (showtime s0) = .ok s1 ∧
      s1.current_effect = TWINKLE ∧ s1.nvs.effect = .value 5 ∧
      mqtt_event_handler sample_topics (data_event "sign/control" "OFF") s1 = .ok s2 ∧
      s2.current_effect = OFF ∧ s2.prev_effect = TWINKLE ∧
      mqtt_event_handler sample_topics (data_event "sign/control" "ON") s2 = .ok s3 ∧
      s3.current_effect = TWINKLE :=
  ⟨by decide,
    end_to_end_scenario sample_topics false none _ _ _ (by decide) (by decide) (by decide)
      (by decide) (by decide) (by decide)⟩



/-! ## The touch pass -/

@[simp] theorem store_brightness_current_effect (s : SignState) :
    (store_brightness s).current_effect = s.current_effect := by
  unfold store_brightness
  repeat' split
  all_goals rfl

@[simp] theorem store_brightness_prev_effect (s : SignState) :
    (store_brightness s).prev_effect = s.prev_effect := by
  unfold store_brightness
  repeat' split
  all_goals rfl

@[simp] theorem ramp_brightness_current_effect (s : SignState) :
    (ramp_brightness s).current_effect = s.current_effect := by
  simp only [ramp_brightness]
  split_ifs <;> rfl

@[simp] theorem ramp_brightness_prev_effect (s : SignState) :
    (ramp_brightness s).prev_effect = s.prev_effect := by
  simp only [ramp_brightness]
  split_ifs <;> rfl

@[simp] theorem touch3_poll_current_effect (v : Nat) (l : TpLocal) (s : SignState) :
    (touch3_poll v l s).2.current_effect = s.current_effect := by
  unfold touch3_poll
  repeat' split
  all_goals simp

@[simp] theorem touch3_poll_prev_effect (v : Nat) (l : TpLocal) (s : SignState) :
    (touch3_poll v l s).2.prev_effect = s.prev_effect := by
  unfold touch3_poll
  repeat' split
  all_goals simp

@[simp] theorem touch3_poll_long_press0 (v : Nat) (l : TpLocal) (s : SignState) :
    (touch3_poll v l s).1.long_press0 = l.long_press0 := by
  unfold touch3_poll
  split <;> rfl

@[simp] theorem touch3_poll_long_press2 (v : Nat) (l : TpLocal) (s : SignState) :
    (touch3_poll v l s).1.long_press2 = l.long_press2 := by
  unfold touch3_poll
  split <;> rfl

theorem touch3_poll_touched (v : Nat) (l : TpLocal) (s : SignState) (h : l.touched = true) :
    (touch3_poll v l s).1.touched = true := by
  unfold touch3_poll
  split
  · rfl
  · exact h

/-- Below the long-press window and with `touched` set, the end of the pass
is `showtime`. -/
theorem long_press_check_touched (l : TpLocal) (s : SignState)
    (h0 : l.long_press0 ≤ LONG_PRESS_THRESHOLD) (ht : l.touched = true) :
    (long_press_check l s).2 = showtime s ∧
      (long_press_check l s).1.long_press0 = l.long_press0 ∧
      (long_press_check l s).1.long_press2 = l.long_press2 := by
  unfold long_press_check
  rw [if_neg (by omega), if_pos ht]
  exact ⟨rfl, rfl, rfl⟩

/-- Below the long-press window the end of the pass leaves the effect and
the accumulators alone. -/
theorem long_press_check_idle (l : TpLocal) (s : SignState)
    (h0 : l.long_press0 ≤ LONG_PRESS_THRESHOLD) :
    (long_press_check l s).2.current_effect = s.current_effect ∧
      (long_press_check l s).1.long_press0 = l.long_press0 ∧
      (long_press_check l s).1.long_press2 = l.long_press2 := by
  unfold long_press_check
  rw [if_neg (by omega)]
  split <;> simp

/-- A press on the power pad alone: the pass is the toggle, the store and
`showtime`, up to the brightness fields. -/
theorem tp_read_tick_power_press (inp : TouchSample) (l : TpLocal) (s : SignState)
    (h : power_press inp l) :
    (tp_read_tick inp l s).2.current_effect = (power_toggle s).current_effect ∧
      (tp_read_tick inp l s).2.prev_effect =
        (if (power_toggle s).current_effect = OFF then (power_toggle s).prev_effect
         else (power_toggle s).current_effect) := by
  obtain ⟨h0, hl, h2⟩ := h
  have e0 : touch0_poll inp.touch0 l s =
      ({ l with long_press0 := 200, touched := true, power_presses := l.power_presses + 1 },
        store_effect (power_toggle s)) := by
    simp [touch0_poll, h0, hl, delay]
  have e2 : ∀ l1 s1, touch2_poll inp.touch2 l1 s1 = ({ l1 with long_press2 := 0 }, s1) := by
    intro l1 s1
    simp [touch2_poll, h2]
  have hc := long_press_check_touched
    (touch3_poll inp.touch3 (touch2_poll inp.touch2 (touch0_poll inp.touch0 l s).1
      (touch0_poll inp.touch0 l s).2).1 (touch2_poll inp.touch2 (touch0_poll inp.touch0 l s).1
      (touch0_poll inp.touch0 l s).2).2).1
    (touch3_poll inp.touch3 (touch2_poll inp.touch2 (touch0_poll inp.touch0 l s).1
      (touch0_poll inp.touch0 l s).2).1 (touch2_poll inp.touch2 (touch0_poll inp.touch0 l s).1
      (touch0_poll inp.touch0 l s).2).2).2
    (by simp [e0, e2, LONG_PRESS_THRESHOLD])
    (touch3_poll_touched _ _ _ (by simp [e0, e2]))
  unfold tp_read_tick
  simp only [hc.1]
  simp [e0, e2, showtime_prev_effect]



/-! ## Power commands -/

theorem mqtt_control_off (cfg : MqttTopics) (ev : esp_mqtt_event_t) (s : SignState)
    (h : on_topic cfg .control ev) (hd : strncmp_eq ev.data "OFF".toList 3 = true) :
    mqtt_event_handler cfg ev s =
      .ok (showtime (store_effect { s with current_effect := OFF })) := by
  simp only [mqtt_event_handler, h.1, h.2, set_control_off _ _ hd]

theorem mqtt_control_on (cfg : MqttTopics) (ev : esp_mqtt_event_t) (s : SignState)
    (h : on_topic cfg .control ev) (hd : strncmp_eq ev.data "ON".toList 2 = true) :
    mqtt_event_handler cfg ev s =
      .ok (showtime (store_effect { s with current_effect := s.prev_effect })) := by
  simp only [mqtt_event_handler, h.1, h.2, set_control_on _ _ hd]

theorem showtime_settled (s : SignState) : Settled (showtime s) := by
  intro h
  rw [showtime_prev_effect, showtime_current_effect, if_neg]
  simpa using h

/-- A power-off command on a settled, running state turns the effect off
and leaves the effect that ran in `prev_effect`. -/
theorem power_off_step (cfg : MqttTopics) (s : SignState) (c : Command)
    (hs : Settled s) (he : s.current_effect ≠ OFF) (hc : is_power_off cfg c) :
    ∃ s1, c.apply cfg s = .ok s1 ∧ s1.current_effect = OFF ∧
      s1.prev_effect = s.current_effect := by
  cases c with
  | mqtt ev =>
    refine ⟨_, mqtt_control_off cfg ev s hc.1 hc.2, by simp, ?_⟩
    simp [showtime_prev_effect, hs he]
  | touch inp l =>
    have h := tp_read_tick_power_press inp l s hc
    refine ⟨_, rfl, ?_, ?_⟩
    · rw [h.1]; simp [power_toggle, he]
    · rw [h.2]; simp [power_toggle, he]

/-- A power-on command on a state that is off and has a previous effect
resumes that effect. -/
theorem power_on_step (cfg : MqttTopics) (s : SignState) (c : Command)
    (h0 : s.current_effect = OFF) (hp : s.prev_effect ≠ OFF) (hc : is_power_on cfg c) :
    ∃ s2, c.apply cfg s = .ok s2 ∧ s2.current_effect = s.prev_effect := by
  cases c with
  | mqtt ev => exact ⟨_, mqtt_control_on cfg ev s hc.1 hc.2, by simp⟩
  | touch inp l =>
    have h := tp_read_tick_power_press inp l s hc
    refine ⟨_, rfl, ?_⟩
    rw [h.1]; simp [power_toggle, h0, hp]

/-- C2. Power-cycle round trip. In every state that `showtime` has settled
and whose effect `e` is not OFF, a power-off command followed by a power-on
command, each either an MQTT control message ("OFF", then "ON") or a debounced
press on the power pad, is handled without fault, passes through the effect
OFF and ends with the effect `e` again. -/
theorem power_cycle_round_trip (cfg : MqttTopics) (s : SignState) (cOff cOn : Command)
    (hs : Settled s) (he : s.current_effect ≠ OFF)
    (hoff : is_power_off cfg cOff) (hon : is_power_on cfg cOn) :
    ∃ s1 s2, cOff.apply cfg s = .ok s1 ∧ s1.current_effect = OFF ∧
      cOn.apply cfg s1 = .ok s2 ∧ s2.current_effect = s.current_effect := by
  obtain ⟨s1, e1, h1, h1p⟩ := power_off_step cfg s cOff hs he hoff
  obtain ⟨s2, e2, h2⟩ := power_on_step cfg s1 cOn h1 (by rw [h1p]; exact he) hon
  exact ⟨s1, s2, e1, h1, e2, by rw [h2, h1p]⟩

theorem power_cycle_round_trip_witness :
    (Settled (showtime (boot_state (empty_nvs false true none))) ∧
      (showtime (boot_state (empty_nvs false true none))).current_effect ≠ OFF ∧
      is_power_off sample_topics (.mqtt (data_event "sign/control" "OFF")) ∧
      is_power_on sample_topics (.touch ⟨100, 0, 0⟩ tp_entry)) ∧
    ∃ s1 s2,
      (Command.mqtt (data_event "sign/control" "OFF")).apply sample_topics
        (showtime (boot_state (empty_nvs false true none))) = .ok s1 ∧
      s1.current_effect = OFF ∧
      (Command.touch ⟨100, 0, 0⟩ tp_entry).apply sample_topics s1 = .ok s2 ∧
      s2.current_effect = (showtime (boot_state (empty_nvs false true none))).current_effect :=
  ⟨⟨showtime_settled _, by decide, by unfold is_power_off; decide,
      by unfold is_power_on power_press; decide⟩,
    power_cycle_round_trip sample_topics _ _ _ (showtime_settled _) (by decide)
      (by unfold is_power_off; decide) (by unfold is_power_on power_press; decide)⟩

/-- C3. The MQTT path has no fallback. After a boot with the stored effect
byte 0 both `current_effect` and `prev_effect` are OFF; the control message
"ON" is handled without fault and leaves `current_effect` at OFF, not
RAINBOW, while a press on the power pad in the same state gives RAINBOW. -/
theorem mqtt_on_has_no_rainbow_fallback :
    ∃ s0 s1,
      app_main { empty_nvs true true none with effect := .value 0 } = .ok s0 ∧
      s0.current_effect = OFF ∧ s0.prev_effect = OFF ∧
      mqtt_event_handler sample_topics (data_event "sign/control" "ON") s0 = .ok s1 ∧
      s1.current_effect = OFF ∧ s1.current_effect ≠ RAINBOW ∧
      (tp_read_tick ⟨100, 0, 0⟩ tp_entry s0).2.current_effect = RAINBOW := by
  refine ⟨_, _, rfl, by decide, by decide, rfl, by decide, by decide, by decide⟩



/-! ## The cycle command -/

@[simp] theorem touch2_poll_long_press0 (v : Nat) (l : TpLocal) (s : SignState) :
    (touch2_poll v l s).1.long_press0 = l.long_press0 := by
  simp only [touch2_poll]
  split_ifs <;> rfl

/-- A press on the cycle pad alone: the effect steps by `cycle_effect` and
the accumulators are 0 and `delay`. -/
theorem tp_read_tick_cycle_press (inp : TouchSample) (l : TpLocal) (s : SignState)
    (h : cycle_press inp l) :
    (tp_read_tick inp l s).2.current_effect = cycle_effect s.current_effect := by
  obtain ⟨h0, h2, hl⟩ := h
  have e0 : ∀ l1 s1, touch0_poll inp.touch0 l1 s1 = ({ l1 with long_press0 := 0 }, s1) := by
    intro l1 s1
    simp [touch0_poll, h0]
  have e2 : ∀ s1, touch2_poll inp.touch2 { l with long_press0 := 0 } s1 =
      ({ l with long_press0 := 0, long_press2 := 200, touched := true,
                cycle_presses := l.cycle_presses + 1 },
        store_effect { s1 with current_effect := cycle_effect s1.current_effect }) := by
    intro s1
    simp [touch2_poll, h2, hl, delay]
  have hc := long_press_check_idle
    (touch3_poll inp.touch3 (touch2_poll inp.touch2 (touch0_poll inp.touch0 l s).1
      (touch0_poll inp.touch0 l s).2).1 (touch2_poll inp.touch2 (touch0_poll inp.touch0 l s).1
      (touch0_poll inp.touch0 l s).2).2).1
    (touch3_poll inp.touch3 (touch2_poll inp.touch2 (touch0_poll inp.touch0 l s).1
      (touch0_poll inp.touch0 l s).2).1 (touch2_poll inp.touch2 (touch0_poll inp.touch0 l s).1
      (touch0_poll inp.touch0 l s).2).2).2
    (by simp [e0, LONG_PRESS_THRESHOLD])
  unfold tp_read_tick
  simp only [hc.1]
  simp [e0, e2]

/-- A pass with the power and cycle pads released keeps the effect and
clears both accumulators. -/
theorem tp_read_tick_released (inp : TouchSample) (l : TpLocal) (s : SignState)
    (h : pads_released inp) :
    (tp_read_tick inp l s).2.current_effect = s.current_effect ∧
      (tp_read_tick inp l s).1.long_press0 = 0 ∧
      (tp_read_tick inp l s).1.long_press2 = 0 := by
  obtain ⟨h0, h2⟩ := h
  have e0 : ∀ l1 s1, touch0_poll inp.touch0 l1 s1 = ({ l1 with long_press0 := 0 }, s1) := by
    intro l1 s1
    simp [touch0_poll, h0]
  have e2 : ∀ l1 s1, touch2_poll inp.touch2 l1 s1 = ({ l1 with long_press2 := 0 }, s1) := by
    intro l1 s1
    simp [touch2_poll, h2]
  have hc := long_press_check_idle
    (touch3_poll inp.touch3 (touch2_poll inp.touch2 (touch0_poll inp.touch0 l s).1
      (touch0_poll inp.touch0 l s).2).1 (touch2_poll inp.touch2 (touch0_poll inp.touch0 l s).1
      (touch0_poll inp.touch0 l s).2).2).1
    (touch3_poll inp.touch3 (touch2_poll inp.touch2 (touch0_poll inp.touch0 l s).1
      (touch0_poll inp.touch0 l s).2).1 (touch2_poll inp.touch2 (touch0_poll inp.touch0 l s).1
      (touch0_poll inp.touch0 l s).2).2).2
    (by simp [e0, e2, LONG_PRESS_THRESHOLD])
  unfold tp_read_tick
  simp only [hc.1, hc.2.1, hc.2.2]
  simp [e0, e2]

/-- Presses alternating with releases walk the effect along the iterates of
`cycle_effect`. -/
theorem effects_after_presses_eq (press release : TouchSample)
    (hp : is_touched press.touch0 = false ∧ is_touched press.touch2 = true)
    (hr : pads_released release) (n : Nat) :
    ∀ (l : TpLocal) (s : SignState), l.long_press2 = 0 →
      effects_after_presses press release n l s =
        (List.range n).map (fun k => cycle_effect^[k + 1] s.current_effect) := by
  induction n with
  | zero => intro l s _; rfl
  | succ n ih =>
    intro l s hl
    have h1 := tp_read_tick_cycle_press press l s ⟨hp.1, hp.2, hl⟩
    have h2 := tp_read_tick_released release (tp_read_tick press l s).1 (tp_read_tick press l s).2 hr
    rw [effects_after_presses]
    rw [ih _ _ h2.2.2, h2.1, h1, List.range_succ_eq_map]
    simp [Function.comp_def, Function.iterate_succ_apply]

/-- C4. Cycle command. From each of the seven effects one debounced press
on the cycle pad gives an effect that is neither OFF nor ENUMERATE; from the
effect at position `i` of the order COLOR, RAINBOW, MARQUEE, TWINKLE,
RAINBOW_MARQUEE it gives the effect at the next position, wrapping from
RAINBOW_MARQUEE to COLOR; and from any effect other than OFF, five successive
presses (the pad released in between) show each of the five effects of the
order exactly once. -/
theorem cycle_press_visits_order (press release : TouchSample) (l : TpLocal) (s : SignState)
    (hp : cycle_press press l) (hr : pads_released release) (he : s.current_effect ≤ 6) :
    (tp_read_tick press l s).2.current_effect ≠ OFF ∧
    (tp_read_tick press l s).2.current_effect ≠ ENUMERATE ∧
    (s.current_effect = COLOR → (tp_read_tick press l s).2.current_effect = RAINBOW) ∧
    (s.current_effect = RAINBOW → (tp_read_tick press l s).2.current_effect = MARQUEE) ∧
    (s.current_effect = MARQUEE → (tp_read_tick press l s).2.current_effect = TWINKLE) ∧
    (s.current_effect = TWINKLE →
      (tp_read_tick press l s).2.current_effect = RAINBOW_MARQUEE) ∧
    (s.current_effect = RAINBOW_MARQUEE →
      (tp_read_tick press l s).2.current_effect = COLOR) ∧
    (s.current_effect ≠ OFF →
      (effects_after_presses press release 5 l s).Perm cycle_order) := by
  rw [tp_read_tick_cycle_press press l s hp,
    effects_after_presses_eq press release ⟨hp.1, hp.2.1⟩ hr 5 l s hp.2.2]
  generalize s.current_effect = e at he
  interval_cases e
  all_goals decide

theorem cycle_press_visits_order_witness :
    (cycle_press ⟨0, 100, 0⟩ tp_entry ∧ pads_released ⟨0, 0, 0⟩ ∧
      (showtime (boot_state (empty_nvs false true none))).current_effect ≤ 6) ∧
    (effects_after_presses ⟨0, 100, 0⟩ ⟨0, 0, 0⟩ 5 tp_entry
      (showtime (boot_state (empty_nvs false true none)))).Perm cycle_order :=
  ⟨by unfold cycle_press pads_released; decide,
    (cycle_press_visits_order ⟨0, 100, 0⟩ ⟨0, 0, 0⟩ tp_entry
      (showtime (boot_state (empty_nvs false true none)))
      (by unfold cycle_press; decide) (by unfold pads_released; decide)
      (by decide)).2.2.2.2.2.2.2 (by decide)⟩


/-! ## The debounce accumulators -/

theorem touch0_poll_cycle_channel (v : Nat) (l : TpLocal) (s : SignState) :
    (touch0_poll v l s).1.long_press2 = l.long_press2 ∧
      (touch0_poll v l s).1.cycle_presses = l.cycle_presses := by
  simp only [touch0_poll]
  split_ifs <;> exact ⟨rfl, rfl⟩

theorem touch2_poll_power_channel (v : Nat) (l : TpLocal) (s : SignState) :
    (touch2_poll v l s).1.long_press0 = l.long_press0 ∧
      (touch2_poll v l s).1.power_presses = l.power_presses := by
  simp only [touch2_poll]
  split_ifs <;> exact ⟨rfl, rfl⟩

theorem touch3_poll_channels (v : Nat) (l : TpLocal) (s : SignState) :
    (touch3_poll v l s).1.long_press0 = l.long_press0 ∧
      (touch3_poll v l s).1.power_presses = l.power_presses ∧
      (touch3_poll v l s).1.long_press2 = l.long_press2 ∧
      (touch3_poll v l s).1.cycle_presses = l.cycle_presses := by
  simp only [touch3_poll]
  split_ifs <;> exact ⟨rfl, rfl, rfl, rfl⟩

theorem long_press_check_channels (l : TpLocal) (s : SignState) :
    (long_press_check l s).1.long_press0 =
        (if l.long_press0 > LONG_PRESS_THRESHOLD ∧
            l.long_press0 < LONG_PRESS_THRESHOLD + delay * 2
          then LONG_PRESS_THRESHOLD + delay * 2 + 1 else l.long_press0) ∧
      (long_press_check l s).1.power_presses = l.power_presses ∧
      (long_press_check l s).1.long_press2 = l.long_press2 ∧
      (long_press_check l s).1.cycle_presses = l.cycle_presses := by
  simp only [long_press_check]
  split_ifs <;> exact ⟨rfl, rfl, rfl, rfl⟩

/-- One touched pass acts on the power accumulator and press count as
`power_channel_step`, whatever the rest of the state. -/
theorem tp_read_tick_power_channel (inp : TouchSample) (l : TpLocal) (s : SignState)
    (h : is_touched inp.touch0 = true) :
    ((tp_read_tick inp l s).1.long_press0, (tp_read_tick inp l s).1.power_presses) =
      power_channel_step (l.long_press0, l.power_presses) := by
  have e0 : (touch0_poll inp.touch0 l s).1.long_press0 = (l.long_press0 + delay) % 65536 ∧
      (touch0_poll inp.touch0 l s).1.power_presses =
        (if (l.long_press0 + delay) % 65536 < delay * 2 then l.power_presses + 1
          else l.power_presses) := by
    simp only [touch0_poll, h, if_true]
    split_ifs <;> exact ⟨rfl, rfl⟩
  unfold tp_read_tick
  simp only [long_press_check_channels, touch3_poll_channels, touch2_poll_power_channel, e0,
    power_channel_step]

/-- One touched pass acts on the cycle accumulator and press count as
`cycle_channel_step`, whatever the rest of the state. -/
theorem tp_read_tick_cycle_channel (inp : TouchSample) (l : TpLocal) (s : SignState)
    (h : is_touched inp.touch2 = true) :
    ((tp_read_tick inp l s).1.long_press2, (tp_read_tick inp l s).1.cycle_presses) =
      cycle_channel_step (l.long_press2, l.cycle_presses) := by
  have e2 : ∀ l1 s1, (touch2_poll inp.touch2 l1 s1).1.long_press2 =
        (l1.long_press2 + delay) % 65536 ∧
      (touch2_poll inp.touch2 l1 s1).1.cycle_presses =
        (if (l1.long_press2 + delay) % 65536 < delay * 2 then l1.cycle_presses + 1
          else l1.cycle_presses) := by
    intro l1 s1
    simp only [touch2_poll, h, if_true]
    split_ifs <;> exact ⟨rfl, rfl⟩
  unfold tp_read_tick
  simp only [long_press_check_channels, touch3_poll_channels, e2, touch0_poll_cycle_channel,
    cycle_channel_step]

/-- A run of passes with the power pad touched throughout iterates
`power_channel_step`. -/
theorem tp_read_task_power_channel (run : List TouchSample)
    (h : ∀ inp ∈ run, is_touched inp.touch0 = true) :
    ∀ (l : TpLocal) (s : SignState),
      ((tp_read_task run l s).1.long_press0, (tp_read_task run l s).1.power_presses) =
        power_channel_step^[run.length] (l.long_press0, l.power_presses) := by
  induction run with
  | nil => intro l s; rfl
  | cons inp rest ih =>
    intro l s
    rw [tp_read_task, ih (fun i hi => h i (List.mem_cons_of_mem _ hi)),
      tp_read_tick_power_channel inp l s (h inp (List.mem_cons_self _ _))]
    rfl

/-- A run of passes with the cycle pad touched throughout iterates
`cycle_channel_step`. -/
theorem tp_read_task_cycle_channel (run : List TouchSample)
    (h : ∀ inp ∈ run, is_touched inp.touch2 = true) :
    ∀ (l : TpLocal) (s : SignState),
      ((tp_read_task run l s).1.long_press2, (tp_read_task run l s).1.cycle_presses) =
        cycle_channel_step^[run.length] (l.long_press2, l.cycle_presses) := by
  induction run with
  | nil => intro l s; rfl
  | cons inp rest ih =>
    intro l s
    rw [tp_read_task, ih (fun i hi => h i (List.mem_cons_of_mem _ hi)),
      tp_read_tick_cycle_channel inp l s (h inp (List.mem_cons_self _ _))]
    rfl

theorem power_channel_step_plain (a c : Nat) (h1 : 400 ≤ a + 200) (h2 : a + 200 < 65536)
    (h3 : a + 200 ≤ 10000 ∨ 10400 ≤ a + 200) :
    power_channel_step (a, c) = (a + 200, c) := by
  simp only [power_channel_step, delay, LONG_PRESS_THRESHOLD, Nat.mod_eq_of_lt h2]
  rw [if_neg (by omega), if_neg (by omega)]

/-- The first fifty passes of a hold: one press, the accumulator at the held
time. -/
theorem power_channel_first (k : Nat) (hk : k < 50) :
    power_channel_step^[k + 1] (0, 0) = (200 * (k + 1), 1) := by
  induction k with
  | zero => decide
  | succ k ih =>
    rw [Function.iterate_succ_apply', ih (by omega),
      power_channel_step_plain _ _ (by omega) (by omega) (by omega), Prod.mk.injEq]
    exact ⟨by omega, rfl⟩

/-- From pass 51, where the long press fires and parks the accumulator at
10401, to pass 326: still one press. -/
theorem power_channel_parked (j : Nat) (hj : j ≤ 275) :
    power_channel_step^[51 + j] (0, 0) = (10401 + 200 * j, 1) := by
  induction j with
  | zero =>
    have h := power_channel_first 49 (by omega)
    rw [show 51 + 0 = 49 + 1 + 1 from rfl, Function.iterate_succ_apply', h]
    decide
  | succ j ih =>
    rw [← Nat.add_assoc, Function.iterate_succ_apply', ih (by omega),
      power_channel_step_plain _ _ (by omega) (by omega) (by omega), Prod.mk.injEq]
    exact ⟨by omega, rfl⟩

/-- Pass 327 of a hold: the 16-bit accumulator has wrapped to 65 and the
press fires a second time. -/
theorem power_channel_327 : power_channel_step^[327] (0, 0) = (65, 2) := by
  have h := power_channel_parked 275 (by omega)
  rw [show 327 = 51 + 275 + 1 from rfl, Function.iterate_succ_apply', h]
  decide

/-- The first 327 passes of a hold of the cycle pad: one press. -/
theorem cycle_channel_first (k : Nat) (hk : k < 327) :
    cycle_channel_step^[k + 1] (0, 0) = (200 * (k + 1), 1) := by
  induction k with
  | zero => decide
  | succ k ih =>
    rw [Function.iterate_succ_apply', ih (by omega)]
    simp only [cycle_channel_step, delay]
    rw [Nat.mod_eq_of_lt (by omega), if_neg (by omega), Prod.mk.injEq]
    exact ⟨by omega, rfl⟩

/-- Pass 328 of a hold of the cycle pad: the accumulator has wrapped to 64
and the press fires a second time. -/
theorem cycle_channel_328 : cycle_channel_step^[328] (0, 0) = (64, 2) := by
  have h := cycle_channel_first 326 (by omega)
  rw [show 328 = 326 + 1 + 1 from rfl, Function.iterate_succ_apply', h]
  decide

/-- While the 16-bit accumulators have not wrapped, a hold presses once: up
to 326 passes on the power pad and up to 327 on the cycle pad, whatever the
other pads and the state do. -/
theorem debounce_one_press_before_wrap (run : List TouchSample) (s : SignState) :
    ((∀ inp ∈ run, is_touched inp.touch0 = true) → 1 ≤ run.length → run.length ≤ 326 →
      (tp_read_task run tp_entry s).1.power_presses = 1) ∧
    ((∀ inp ∈ run, is_touched inp.touch2 = true) → 1 ≤ run.length → run.length ≤ 327 →
      (tp_read_task run tp_entry s).1.cycle_presses = 1) := by
  constructor
  · intro h h1 h2
    have e := tp_read_task_power_channel run h tp_entry s
    have e2 : (power_channel_step^[run.length] (0, 0)).2 = 1 := by
      by_cases hn : run.length ≤ 50
      · obtain ⟨k, hk⟩ : ∃ k, run.length = k + 1 := ⟨run.length - 1, by omega⟩
        rw [hk, power_channel_first k (by omega)]
      · obtain ⟨j, hj⟩ : ∃ j, run.length = 51 + j := ⟨run.length - 51, by omega⟩
        rw [hj, power_channel_parked j (by omega)]
    exact (congrArg Prod.snd e).trans e2
  · intro h h1 h2
    have e := tp_read_task_cycle_channel run h tp_entry s
    obtain ⟨k, hk⟩ : ∃ k, run.length = k + 1 := ⟨run.length - 1, by omega⟩
    have e2 : (cycle_channel_step^[run.length] (0, 0)).2 = 1 := by
      rw [hk, cycle_channel_first k (by omega)]
    exact (congrArg Prod.snd e).trans e2

/-- C10. The debounce gate reopens when the accumulator wraps. With the
locals at their entry values (accumulators 0), holding the power pad for 327
consecutive passes performs the power press twice, and holding the cycle pad
for 328 consecutive passes performs the cycle press twice, in every state:
the `uint16_t` accumulators, advanced by 200 per pass, wrap to 65 and to 64,
below the gate of 400. -/
theorem held_pad_presses_twice (s : SignState) :
    (tp_read_task (List.replicate 327 ⟨100, 0, 0⟩) tp_entry s).1.power_presses = 2 ∧
    (tp_read_task (List.replicate 328 ⟨0, 100, 0⟩) tp_entry s).1.cycle_presses = 2 := by
  constructor
  · have e := tp_read_task_power_channel (List.replicate 327 ⟨100, 0, 0⟩)
      (fun inp hi => by rw [List.eq_of_mem_replicate hi]; decide) tp_entry s
    have e0 : (tp_entry.long_press0, tp_entry.power_presses) = (0, 0) := rfl
    rw [List.length_replicate, e0, power_channel_327, Prod.mk.injEq] at e
    exact e.2
  · have e := tp_read_task_cycle_channel (List.replicate 328 ⟨0, 100, 0⟩)
      (fun inp hi => by rw [List.eq_of_mem_replicate hi]; decide) tp_entry s
    have e0 : (tp_entry.long_press2, tp_entry.cycle_presses) = (0, 0) := rfl
    rw [List.length_replicate, e0, cycle_channel_328, Prod.mk.injEq] at e
    exact e.2

/-! ## The render task -/

theorem end_running_task_owned (s : SignState) (h : Owned s) :
    (end_running_task s).tasks = [] ∧ (end_running_task s).led_task_handle = none := by
  unfold Owned at h
  cases hh : s.led_task_handle with
  | none =>
    have e : end_running_task s = s := by simp only [end_running_task, hh]
    rw [e, hh]
    rw [hh] at h
    exact ⟨by simpa using h, rfl⟩
  | some k =>
    have e : end_running_task s = { vTaskDelete k s with led_task_handle := none } := by
      simp only [end_running_task, hh]
    rw [e]
    rw [hh] at h
    refine ⟨?_, rfl⟩
    show List.filter (fun t => decide (t.1 ≠ k)) s.tasks = []
    rw [List.filter_eq_nil_iff]
    intro t ht
    have hm : t.1 ∈ s.tasks.map Prod.fst := List.mem_map_of_mem _ ht
    rw [h] at hm
    simpa using hm

/-- From a state without render task `showtime` leaves the task of the
current effect, or none for a value outside the enumeration. -/
theorem showtime_from_idle (s : SignState)
    (h : (end_running_task s).tasks = [] ∧ (end_running_task s).led_task_handle = none) :
    Owned (showtime s) ∧ (showtime s).tasks.length ≤ 1 ∧
      (showtime s).tasks.map Prod.snd = task_function_of s.current_effect := by
  have hf := end_running_task_fields s
  unfold Owned showtime xTaskCreate task_function_of
  simp only [hf.1, h.1, h.2]
  split_ifs <;>
    simp_all [OFF, COLOR, RAINBOW, ENUMERATE, MARQUEE, TWINKLE, RAINBOW_MARQUEE]

theorem showtime_owned (s : SignState) (h : Owned s) :
    Owned (showtime s) ∧ (showtime s).tasks.length ≤ 1 ∧
      (showtime s).tasks.map Prod.snd = task_function_of s.current_effect :=
  showtime_from_idle s (end_running_task_owned s h)

theorem owned_of_same_tasks (s s1 : SignState) (h : Owned s)
    (h1 : s1.tasks = s.tasks ∧ s1.led_task_handle = s.led_task_handle) : Owned s1 := by
  unfold Owned at *
  rw [h1.1, h1.2]
  exact h

theorem owned_length (s : SignState) (h : Owned s) : s.tasks.length ≤ 1 := by
  unfold Owned at h
  have := congrArg List.length h
  rw [List.length_map] at this
  rw [this]
  cases s.led_task_handle <;> simp

theorem store_effect_tasks (s : SignState) :
    (store_effect s).tasks = s.tasks ∧
      (store_effect s).led_task_handle = s.led_task_handle := by
  unfold store_effect
  repeat' split
  all_goals exact ⟨rfl, rfl⟩

theorem store_speed_tasks (s : SignState) :
    (store_speed s).tasks = s.tasks ∧
      (store_speed s).led_task_handle = s.led_task_handle := by
  unfold store_speed
  repeat' split
  all_goals exact ⟨rfl, rfl⟩

theorem store_brightness_tasks (s : SignState) :
    (store_brightness s).tasks = s.tasks ∧
      (store_brightness s).led_task_handle = s.led_task_handle := by
  unfold store_brightness
  repeat' split
  all_goals exact ⟨rfl, rfl⟩

theorem store_palette_tasks (s s1 : SignState) (h : store_palette s = .ok s1) :
    s1.tasks = s.tasks ∧ s1.led_task_handle = s.led_task_handle := by
  unfold store_palette at h
  repeat' split at h
  all_goals first
    | (injection h with h; subst h; exact ⟨rfl, rfl⟩)
    | (exact absurd h (by simp))

theorem strncpy_palette_tasks (d : List Char) (n : Nat) (s s1 : SignState)
    (h : strncpy_palette d n s = .ok s1) :
    s1.tasks = s.tasks ∧ s1.led_task_handle = s.led_task_handle := by
  simp only [strncpy_palette] at h
  split at h
  · exact absurd h (by simp)
  · injection h with h; subst h; exact ⟨rfl, rfl⟩

theorem set_mode_tasks (d : List Char) (s : SignState) :
    (set_mode d s).tasks = s.tasks ∧ (set_mode d s).led_task_handle = s.led_task_handle := by
  unfold set_mode
  repeat' split
  all_goals exact ⟨rfl, rfl⟩

theorem set_control_tasks (d : List Char) (s : SignState) :
    (set_control d s).tasks = s.tasks ∧
      (set_control d s).led_task_handle = s.led_task_handle := by
  unfold set_control
  repeat' split
  all_goals exact ⟨rfl, rfl⟩

theorem set_speed_tasks (d : List Char) (s : SignState) :
    (set_speed d s).tasks = s.tasks ∧ (set_speed d s).led_task_handle = s.led_task_handle := by
  simp only [set_speed]
  split_ifs <;> exact ⟨rfl, rfl⟩

theorem set_brightness_tasks (d : List Char) (s : SignState) :
    (set_brightness d s).tasks = s.tasks ∧
      (set_brightness d s).led_task_handle = s.led_task_handle := by
  simp only [set_brightness]
  split_ifs <;> exact ⟨rfl, rfl⟩

/-- Every event the handler completes leaves a state in which the handle
names the live render task. -/
theorem mqtt_event_handler_owned (cfg : MqttTopics) (ev : esp_mqtt_event_t)
    (s s1 : SignState) (h : Owned s) (hr : mqtt_event_handler cfg ev s = .ok s1) :
    Owned s1 := by
  have same : ∀ a b : SignState, Owned a →
      (b.tasks = a.tasks ∧ b.led_task_handle = a.led_task_handle) → Owned (showtime b) :=
    fun a b ha hab => (showtime_owned b (owned_of_same_tasks a b ha hab)).1
  unfold mqtt_event_handler at hr
  split at hr
  · injection hr with hr; subst hr
    have hi := end_running_task_owned s h
    have ho : Owned (end_running_task s) := by
      unfold Owned
      rw [hi.1, hi.2]
      rfl
    exact (showtime_owned _ ho).1
  · split at hr
    · injection hr with hr; subst hr
      exact same s _ h ⟨(store_effect_tasks _).1.trans (set_mode_tasks _ _).1,
        (store_effect_tasks _).2.trans (set_mode_tasks _ _).2⟩
    · injection hr with hr; subst hr
      exact same s _ h ⟨(store_effect_tasks _).1.trans (set_control_tasks _ _).1,
        (store_effect_tasks _).2.trans (set_control_tasks _ _).2⟩
    · split at hr
      · exact absurd hr (by simp)
      · next sa ha =>
        split at hr
        · exact absurd hr (by simp)
        · next sb hb =>
          injection hr with hr; subst hr
          have h1 := strncpy_palette_tasks _ _ _ _ ha
          have h2 := store_palette_tasks _ _ hb
          exact same s _ h ⟨h2.1.trans h1.1, h2.2.trans h1.2⟩
    · injection hr with hr; subst hr
      exact same s _ h ⟨(store_speed_tasks _).1.trans (set_speed_tasks _ _).1,
        (store_speed_tasks _).2.trans (set_speed_tasks _ _).2⟩
    · split at hr
      · exact absurd hr (by simp)
      · injection hr with hr; subst hr
        exact same s _ h ⟨(store_brightness_tasks _).1.trans (set_brightness_tasks _ _).1,
          (store_brightness_tasks _).2.trans (set_brightness_tasks _ _).2⟩
    · injection hr with hr; subst hr
      exact h
  · injection hr with hr; subst hr
    exact h

/-- C5. Single render task, in the sequential model. From a state in which
`led_task_handle` names the live render task, `showtime` and every MQTT
event the handler completes leave at most one render task alive, again named
by the handle; after `showtime` the live tasks are exactly the task function
of `current_effect` (one task for each of the values 0..6: `led_blank` for
OFF, `led_color`, `led_rainbow`, `led_enumerate`, `led_marquee`,
`led_twinkle`, `led_rainbow_marquee`); and every event other than a colour
or brightness data message is completed. -/
theorem single_render_task (cfg : MqttTopics) (ev : esp_mqtt_event_t) (s : SignState)
    (h : Owned s) :
    ((showtime s).tasks.length ≤ 1 ∧ Owned (showtime s)) ∧
    (showtime s).tasks.map Prod.snd = task_function_of s.current_effect ∧
    (s.current_effect ≤ 6 → (showtime s).tasks.length = 1) ∧
    (∀ s1, mqtt_event_handler cfg ev s = .ok s1 → s1.tasks.length ≤ 1 ∧ Owned s1) ∧
    ((ev.event_id ≠ .MQTT_EVENT_DATA ∨
        (topic_of cfg ev.topic ≠ some .color ∧ topic_of cfg ev.topic ≠ some .brightness)) →
      ∃ s1, mqtt_event_handler cfg ev s = .ok s1) := by
  have hs := showtime_owned s h
  refine ⟨⟨hs.2.1, hs.1⟩, hs.2.2, ?_, ?_, ?_⟩
  · intro he
    have hl := congrArg List.length hs.2.2
    rw [List.length_map] at hl
    rw [hl]
    generalize s.current_effect = e at he
    interval_cases e <;> decide
  · intro s1 hr
    have ho := mqtt_event_handler_owned cfg ev s s1 h hr
    exact ⟨owned_length s1 ho, ho⟩
  · intro hne
    unfold mqtt_event_handler
    cases hid : ev.event_id
    case MQTT_EVENT_DATA =>
      rcases hne with hne | hne
      · exact absurd hid hne
      · cases ht : topic_of cfg ev.topic with
        | none => exact ⟨_, rfl⟩
        | some tp =>
          cases tp
          case color => exact absurd ht hne.1
          case brightness => exact absurd ht hne.2
          all_goals exact ⟨_, rfl⟩
    all_goals exact ⟨_, rfl⟩

theorem single_render_task_witness :
    Owned (boot_state (empty_nvs false true none)) ∧
    (showtime (boot_state (empty_nvs false true none))).tasks.map Prod.snd = [.led_rainbow] :=
  ⟨by unfold Owned; decide,
    (single_render_task sample_topics (data_event "sign/mode" "twinkle")
      (boot_state (empty_nvs false true none)) (by unfold Owned; decide)).2.1⟩

/-! ## Speed and brightness commands -/

theorem mqtt_speed (cfg : MqttTopics) (ev : esp_mqtt_event_t) (s : SignState)
    (h : on_topic cfg .speed ev) :
    mqtt_event_handler cfg ev s = .ok (showtime (store_speed (set_speed ev.data s))) := by
  simp only [mqtt_event_handler, h.1, h.2]

/-- What the speed branch computes from an input in range: 10 for input
255, else 255 minus the input. -/
theorem set_speed_in_range (d : List Char) (s : SignState)
    (h : 0 ≤ atoi d ∧ atoi d ≤ 255) :
    ((set_speed d s).effect_speed_delay : Int) =
      if atoi d = 255 then 10 else 255 - atoi d := by
  simp only [set_speed, h, and_self, if_true]
  by_cases h255 : atoi d = 255
  · simp [h255]
  · rw [if_neg (by omega), if_neg h255]
    simp only []
    omega

theorem set_speed_out_of_range (d : List Char) (s : SignState)
    (h : atoi d < 0 ∨ 255 < atoi d) : set_speed d s = s := by
  simp only [set_speed]
  rw [if_neg (by omega)]

/-- C6. The floor of ten is applied to the input 255 only. The speed
message "250" is handled without fault in every state and leaves
`effect_speed_delay` at 5, which is below 10 and is not `max (255 - 250) 10`. -/
theorem speed_250_sets_delay_5 (s : SignState) :
    ∃ s1, mqtt_event_handler sample_topics (data_event "sign/speed" "250") s = .ok s1 ∧
      s1.effect_speed_delay = 5 ∧ s1.effect_speed_delay < 10 ∧
      s1.effect_speed_delay ≠ max (255 - 250) 10 := by
  refine ⟨_, mqtt_speed sample_topics _ s (by decide), ?_⟩
  have h : (showtime (store_speed (set_speed (data_event "sign/speed" "250").data
      s))).effect_speed_delay = 5 := by
    have e := set_speed_in_range (data_event "sign/speed" "250").data s (by decide)
    rw [show atoi (data_event "sign/speed" "250").data = 250 by decide] at e
    simp only [showtime_effect_speed_delay, store_speed_effect_speed_delay]
    have e5 : ((set_speed (data_event "sign/speed" "250").data s).effect_speed_delay : Int)
        = 5 := by rw [e]; decide
    exact_mod_cast e5
  rw [h]
  decide

/-- C7, as stated, fails. The speed message "0" after boot leaves
`effect_speed_delay` at 255, not at 10. -/
theorem speed_zero_sets_delay_255 :
    ∃ s1, mqtt_event_handler sample_topics (data_event "sign/speed" "0")
        (showtime (boot_state (empty_nvs false true none))) = .ok s1 ∧
      s1.effect_speed_delay = 255 ∧ s1.effect_speed_delay ≠ 10 := by
  refine ⟨_, rfl, ?_⟩
  decide

/-- C7, amended. A speed message with input 0 gives `effect_speed_delay` 255,
input 255 gives 10, input 100 gives 155, in every state and without fault. -/
theorem speed_inversion_examples (cfg : MqttTopics) (ev : esp_mqtt_event_t) (s : SignState)
    (h : on_topic cfg .speed ev) :
    ∃ s1, mqtt_event_handler cfg ev s = .ok s1 ∧
      (atoi ev.data = 0 → s1.effect_speed_delay = 255) ∧
      (atoi ev.data = 255 → s1.effect_speed_delay = 10) ∧
      (atoi ev.data = 100 → s1.effect_speed_delay = 155) := by
  refine ⟨_, mqtt_speed cfg ev s h, ?_, ?_, ?_⟩
  all_goals
    intro hv
    have e := set_speed_in_range ev.data s (by omega)
    rw [hv] at e
    simp only [showtime_effect_speed_delay, store_speed_effect_speed_delay]
    norm_num at e
    exact_mod_cast e

theorem speed_inversion_examples_witness :
    on_topic sample_topics .speed (data_event "sign/speed" "100") ∧
    ∃ s1, mqtt_event_handler sample_topics (data_event "sign/speed" "100")
        (boot_state (empty_nvs false true none)) = .ok s1 ∧
      s1.effect_speed_delay = 155 :=
  ⟨by decide,
    (speed_inversion_examples sample_topics (data_event "sign/speed" "100")
      (boot_state (empty_nvs false true none)) (by decide)).elim
      fun s1 hs => ⟨s1, hs.1, hs.2.2.2 (by decide)⟩⟩

theorem mqtt_brightness (cfg : MqttTopics) (ev : esp_mqtt_event_t) (s : SignState)
    (temp : List Char) (h : on_topic cfg .brightness ev)
    (ht : substring ev.data 0 ev.data_len = some temp) :
    mqtt_event_handler cfg ev s =
      .ok (showtime (store_brightness (set_brightness temp s))) := by
  simp only [mqtt_event_handler, h.1, h.2, ht]

/-- C8. Brightness command. For a brightness message whose payload
`substring` hands to `atoi` (it is not empty and holds no NUL), with parsed
integer `i`: the message is handled without fault; when `1 ≤ i ≤ 255` both
`led_brightness` and `strip.max_cc_val` become `i`; when `i` is 0, negative or
above 255 `led_brightness` keeps its value. -/
theorem brightness_command (cfg : MqttTopics) (ev : esp_mqtt_event_t) (s : SignState)
    (temp : List Char) (h : on_topic cfg .brightness ev)
    (ht : substring ev.data 0 ev.data_len = some temp) :
    ∃ s1, mqtt_event_handler cfg ev s = .ok s1 ∧
      (1 ≤ atoi temp ∧ atoi temp ≤ 255 →
        (s1.led_brightness : Int) = atoi temp ∧ (s1.strip_max_cc_val : Int) = atoi temp) ∧
      (atoi temp ≤ 0 ∨ 255 < atoi temp → s1.led_brightness = s.led_brightness) := by
  refine ⟨_, mqtt_brightness cfg ev s temp h ht, ?_, ?_⟩
  · intro hi
    simp only [showtime_led_brightness, store_brightness_led_brightness,
      showtime_strip_max_cc_val, store_brightness_strip_max_cc_val, set_brightness]
    rw [if_pos ⟨by omega, hi.2⟩]
    simp only []
    exact ⟨Int.toNat_of_nonneg (by omega), Int.toNat_of_nonneg (by omega)⟩
  · intro hi
    simp only [showtime_led_brightness, store_brightness_led_brightness, set_brightness]
    rw [if_neg (by omega)]

theorem brightness_command_witness :
    (on_topic sample_topics .brightness (data_event "sign/brightness" "200") ∧
      substring (data_event "sign/brightness" "200").data 0
        (data_event "sign/brightness" "200").data_len = some "200".toList) ∧
    ∃ s1, mqtt_event_handler sample_topics (data_event "sign/brightness" "200")
        (boot_state (empty_nvs false true none)) = .ok s1 ∧
      (s1.led_brightness : Int) = 200 :=
  ⟨by decide,
    (brightness_command sample_topics (data_event "sign/brightness" "200")
      (boot_state (empty_nvs false true none)) "200".toList (by decide) (by decide)).elim
      fun s1 hs => ⟨s1, hs.1, (hs.2.1 (by decide)).1.trans (by decide)⟩⟩

/-- C9, as stated, fails. The speed message "fast", which holds no number,
after boot changes `effect_speed_delay` from 100 to 255. -/
theorem non_numeric_speed_sets_delay_255 :
    (showtime (boot_state (empty_nvs false true none))).effect_speed_delay = 100 ∧
    ∃ s1, mqtt_event_handler sample_topics (data_event "sign/speed" "fast")
        (showtime (boot_state (empty_nvs false true none))) = .ok s1 ∧
      s1.effect_speed_delay = 255 := by
  refine ⟨by decide, _, rfl, ?_⟩
  decide

/-- C9, amended. A speed message whose `atoi` value is negative or above 255
is handled without fault and leaves `effect_speed_delay` at its value before;
a speed message that `atoi` reads as 0, as it does text without a leading
number, is handled as speed 0 and sets `effect_speed_delay` to 255. -/
theorem out_of_range_speed_ignored (cfg : MqttTopics) (ev : esp_mqtt_event_t)
    (s : SignState) (h : on_topic cfg .speed ev) :
    ∃ s1, mqtt_event_handler cfg ev s = .ok s1 ∧
      (atoi ev.data < 0 ∨ 255 < atoi ev.data →
        s1.effect_speed_delay = s.effect_speed_delay) ∧
      (atoi ev.data = 0 → s1.effect_speed_delay = 255) := by
  refine ⟨_, mqtt_speed cfg ev s h, ?_, ?_⟩
  · intro hv
    simp only [showtime_effect_speed_delay, store_speed_effect_speed_delay,
      set_speed_out_of_range ev.data s hv]
  · intro hv
    have e := set_speed_in_range ev.data s (by omega)
    rw [hv] at e
    simp only [showtime_effect_speed_delay, store_speed_effect_speed_delay]
    norm_num at e
    exact_mod_cast e

theorem out_of_range_speed_ignored_witness :
    on_topic sample_topics .speed (data_event "sign/speed" "300") ∧
    ∃ s1, mqtt_event_handler sample_topics (data_event "sign/speed" "300")
        (boot_state (empty_nvs false true none)) = .ok s1 ∧
      s1.effect_speed_delay = (boot_state (empty_nvs false true none)).effect_speed_delay :=
  ⟨by decide,
    (out_of_range_speed_ignored sample_topics (data_event "sign/speed" "300")
      (boot_state (empty_nvs false true none)) (by decide)).elim
      fun s1 hs => ⟨s1, hs.1, hs.2.1 (by decide)⟩⟩

/-- A pass with the power pad still held and the gate closed (the
accumulator between `delay` and the long-press threshold less `delay`) and
the cycle pad released keeps the effect. -/
theorem tp_read_tick_power_held (inp : TouchSample) (l : TpLocal) (s : SignState)
    (h0 : is_touched inp.touch0 = true) (h2 : is_touched inp.touch2 = false)
    (hl : 200 ≤ l.long_press0 ∧ l.long_press0 ≤ 9800) :
    (tp_read_tick inp l s).2.current_effect = s.current_effect := by
  have e0 : touch0_poll inp.touch0 l s =
      ({ l with long_press0 := l.long_press0 + 200 }, s) := by
    simp only [touch0_poll, h0, delay, if_true]
    rw [Nat.mod_eq_of_lt (by omega), if_neg (by omega)]
  have e2 : ∀ l1 s1, touch2_poll inp.touch2 l1 s1 = ({ l1 with long_press2 := 0 }, s1) := by
    intro l1 s1
    simp [touch2_poll, h2]
  have hc := long_press_check_idle
    (touch3_poll inp.touch3 (touch2_poll inp.touch2 (touch0_poll inp.touch0 l s).1
      (touch0_poll inp.touch0 l s).2).1 (touch2_poll inp.touch2 (touch0_poll inp.touch0 l s).1
      (touch0_poll inp.touch0 l s).2).2).1
    (touch3_poll inp.touch3 (touch2_poll inp.touch2 (touch0_poll inp.touch0 l s).1
      (touch0_poll inp.touch0 l s).2).1 (touch2_poll inp.touch2 (touch0_poll inp.touch0 l s).1
      (touch0_poll inp.touch0 l s).2).2).2
    (by simp [e0, e2, LONG_PRESS_THRESHOLD]; omega)
  unfold tp_read_tick
  simp only [hc.1]
  simp [e0, e2]

/-- C11. Debounce, three ticks. A touch on the power pad that lasts exactly
three passes and starts with `long_press0 = 0` executes the power toggle
once: the press count grows by one, and with the cycle pad released the
effect at the end is that of a single toggle, so the lights are off at the
end exactly when they were on at the start. -/
theorem three_tick_hold_toggles_once (i1 i2 i3 : TouchSample) (l : TpLocal) (s : SignState)
    (h1 : is_touched i1.touch0 = true) (h2 : is_touched i2.touch0 = true)
    (h3 : is_touched i3.touch0 = true) (h0 : l.long_press0 = 0) :
    (tp_read_task [i1, i2, i3] l s).1.power_presses = l.power_presses + 1 ∧
    (is_touched i1.touch2 = false → is_touched i2.touch2 = false →
      is_touched i3.touch2 = false →
      (tp_read_task [i1, i2, i3] l s).2.current_effect = (power_toggle s).current_effect ∧
      ((tp_read_task [i1, i2, i3] l s).2.current_effect = OFF ↔ s.current_effect ≠ OFF)) := by
  have hch : ∀ (i : TouchSample) (l1 : TpLocal) (s1 : SignState), is_touched i.touch0 = true →
      (tp_read_tick i l1 s1).1.long_press0 =
        (power_channel_step (l1.long_press0, l1.power_presses)).1 ∧
      (tp_read_tick i l1 s1).1.power_presses =
        (power_channel_step (l1.long_press0, l1.power_presses)).2 := by
    intro i l1 s1 hi
    have e := tp_read_tick_power_channel i l1 s1 hi
    rw [Prod.mk.injEq] at e
    exact ⟨e.1.trans rfl, e.2.trans rfl⟩
  set r1 := tp_read_tick i1 l s with hr1
  set r2 := tp_read_tick i2 r1.1 r1.2 with hr2
  set r3 := tp_read_tick i3 r2.1 r2.2 with hr3
  have a1 := hch i1 l s h1
  rw [h0, ← hr1] at a1
  have a1' : r1.1.long_press0 = 200 ∧ r1.1.power_presses = l.power_presses + 1 := by
    simpa [power_channel_step, delay, LONG_PRESS_THRESHOLD] using a1
  have a2 := hch i2 r1.1 r1.2 h2
  rw [a1'.1, a1'.2, ← hr2] at a2
  have a2' : r2.1.long_press0 = 400 ∧ r2.1.power_presses = l.power_presses + 1 := by
    simpa [power_channel_step, delay, LONG_PRESS_THRESHOLD] using a2
  have a3 := hch i3 r2.1 r2.2 h3
  rw [a2'.1, a2'.2, ← hr3] at a3
  have et : tp_read_task [i1, i2, i3] l s = r3 := by
    simp only [tp_read_task]
  rw [et]
  refine ⟨by simpa [power_channel_step, delay, LONG_PRESS_THRESHOLD] using a3.2, ?_⟩
  intro g1 g2 g3
  have e1 : r1.2.current_effect = (power_toggle s).current_effect :=
    (tp_read_tick_power_press i1 l s ⟨h1, h0, g1⟩).1
  have e2 : r2.2.current_effect = r1.2.current_effect :=
    tp_read_tick_power_held i2 r1.1 r1.2 h2 g2 (by rw [a1'.1]; omega)
  have e3 : r3.2.current_effect = r2.2.current_effect :=
    tp_read_tick_power_held i3 r2.1 r2.2 h3 g3 (by rw [a2'.1]; omega)
  have e : r3.2.current_effect = (power_toggle s).current_effect := by rw [e3, e2, e1]
  refine ⟨e, ?_⟩
  rw [e]
  unfold power_toggle
  by_cases hce : s.current_effect = OFF
  · by_cases hp : s.prev_effect = OFF
    · simp [hce, hp, OFF, RAINBOW]
    · simp [hce, hp]
  · simp [hce]

theorem three_tick_hold_toggles_once_witness :
    (is_touched (⟨100, 0, 0⟩ : TouchSample).touch0 = true ∧ tp_entry.long_press0 = 0) ∧
    (tp_read_task [⟨100, 0, 0⟩, ⟨100, 0, 0⟩, ⟨100, 0, 0⟩] tp_entry
      (showtime (boot_state (empty_nvs false true none)))).1.power_presses = 1 :=
  ⟨by decide,
    (three_tick_hold_toggles_once ⟨100, 0, 0⟩ ⟨100, 0, 0⟩ ⟨100, 0, 0⟩ tp_entry
      (showtime (boot_state (empty_nvs false true none)))
      (by decide) (by decide) (by decide) (by decide)).1⟩

/-! ## The long press -/

theorem touch0_poll_long_presses (v : Nat) (l : TpLocal) (s : SignState) :
    (touch0_poll v l s).1.long_presses = l.long_presses := by
  simp only [touch0_poll]
  split_ifs <;> rfl

theorem touch2_poll_long_presses (v : Nat) (l : TpLocal) (s : SignState) :
    (touch2_poll v l s).1.long_presses = l.long_presses := by
  simp only [touch2_poll]
  split_ifs <;> rfl

theorem touch3_poll_long_presses (v : Nat) (l : TpLocal) (s : SignState) :
    (touch3_poll v l s).1.long_presses = l.long_presses := by
  simp only [touch3_poll]
  split_ifs <;> rfl

theorem long_press_check_long_channel (l : TpLocal) (s : SignState) :
    ((long_press_check l s).1.long_press0, (long_press_check l s).1.long_presses) =
      (if l.long_press0 > LONG_PRESS_THRESHOLD ∧
          l.long_press0 < LONG_PRESS_THRESHOLD + delay * 2
        then (LONG_PRESS_THRESHOLD + delay * 2 + 1, l.long_presses + 1)
        else (l.long_press0, l.long_presses)) := by
  simp only [long_press_check]
  split_ifs <;> rfl

/-- One touched pass acts on the power accumulator and the long-press count
as `long_press_channel_step`, whatever the rest of the state. -/
theorem tp_read_tick_long_channel (inp : TouchSample) (l : TpLocal) (s : SignState)
    (h : is_touched inp.touch0 = true) :
    ((tp_read_tick inp l s).1.long_press0, (tp_read_tick inp l s).1.long_presses) =
      long_press_channel_step (l.long_press0, l.long_presses) := by
  have e0 : (touch0_poll inp.touch0 l s).1.long_press0 = (l.long_press0 + delay) % 65536 := by
    simp only [touch0_poll, h, if_true]
    split_ifs <;> rfl
  unfold tp_read_tick
  simp only [long_press_check_long_channel, touch3_poll_channels, touch3_poll_long_presses,
    touch2_poll_power_channel, touch2_poll_long_presses, touch0_poll_long_presses, e0,
    long_press_channel_step]

/-- A run of passes with the power pad touched throughout iterates
`long_press_channel_step`. -/
theorem tp_read_task_long_channel (run : List TouchSample)
    (h : ∀ inp ∈ run, is_touched inp.touch0 = true) :
    ∀ (l : TpLocal) (s : SignState),
      ((tp_read_task run l s).1.long_press0, (tp_read_task run l s).1.long_presses) =
        long_press_channel_step^[run.length] (l.long_press0, l.long_presses) := by
  induction run with
  | nil => intro l s; rfl
  | cons inp rest ih =>
    intro l s
    rw [tp_read_task, ih (fun i hi => h i (List.mem_cons_of_mem _ hi)),
      tp_read_tick_long_channel inp l s (h inp (List.mem_cons_self _ _))]
    rfl

theorem long_press_channel_step_plain (a c : Nat) (h2 : a + 200 < 65536)
    (h3 : a + 200 ≤ 10000 ∨ 10400 ≤ a + 200) :
    long_press_channel_step (a, c) = (a + 200, c) := by
  simp only [long_press_channel_step, delay, LONG_PRESS_THRESHOLD, Nat.mod_eq_of_lt h2]
  rw [if_neg (by omega)]

/-- The first fifty passes of a hold: no long press yet. -/
theorem long_channel_first (k : Nat) (hk : k ≤ 50) :
    long_press_channel_step^[k] (0, 0) = (200 * k, 0) := by
  induction k with
  | zero => rfl
  | succ k ih =>
    rw [Function.iterate_succ_apply', ih (by omega),
      long_press_channel_step_plain _ _ (by omega) (by omega), Prod.mk.injEq]
    exact ⟨by omega, rfl⟩

/-- Pass 51 fires the long press and parks the accumulator at 10401; up to
pass 326 it climbs from there without a second long press. -/
theorem long_channel_parked (j : Nat) (hj : j ≤ 275) :
    long_press_channel_step^[51 + j] (0, 0) = (10401 + 200 * j, 1) := by
  induction j with
  | zero =>
    have h := long_channel_first 50 (by omega)
    rw [show 51 + 0 = 50 + 1 from rfl, Function.iterate_succ_apply', h]
    decide
  | succ j ih =>
    rw [← Nat.add_assoc, Function.iterate_succ_apply', ih (by omega),
      long_press_channel_step_plain _ _ (by omega) (by omega), Prod.mk.injEq]
    exact ⟨by omega, rfl⟩

/-- From pass 327, where the accumulator has wrapped to 65, to pass 376 it
climbs towards the long-press window a second time. -/
theorem long_channel_wrapped (k : Nat) (hk : k ≤ 49) :
    long_press_channel_step^[327 + k] (0, 0) = (65 + 200 * k, 1) := by
  induction k with
  | zero =>
    have h := long_channel_parked 275 (by omega)
    rw [show 327 + 0 = 51 + 275 + 1 from rfl, Function.iterate_succ_apply', h]
    decide
  | succ k ih =>
    rw [← Nat.add_assoc, Function.iterate_succ_apply', ih (by omega),
      long_press_channel_step_plain _ _ (by omega) (by omega), Prod.mk.injEq]
    exact ⟨by omega, rfl⟩

/-- Pass 377 of a hold: the accumulator reaches 10065, inside the window,
and the long press fires a second time. -/
theorem long_channel_377 : long_press_channel_step^[377] (0, 0) = (10401, 2) := by
  have h := long_channel_wrapped 49 (by omega)
  rw [show 377 = 327 + 49 + 1 from rfl, Function.iterate_succ_apply', h]
  decide

/-- Up to 376 passes of one hold the long press fires at most once: not in
the first 50 passes, once from pass 51 on. -/
theorem long_press_once_before_wrap (run : List TouchSample) (s : SignState)
    (h : ∀ inp ∈ run, is_touched inp.touch0 = true) (hn : run.length ≤ 376) :
    (tp_read_task run tp_entry s).1.long_presses = if run.length ≤ 50 then 0 else 1 := by
  have e := tp_read_task_long_channel run h tp_entry s
  have e0 : (tp_entry.long_press0, tp_entry.long_presses) = (0, 0) := rfl
  rw [e0] at e
  have e2 : (long_press_channel_step^[run.length] (0, 0)).2 =
      if run.length ≤ 50 then 0 else 1 := by
    by_cases h50 : run.length ≤ 50
    · rw [if_pos h50, long_channel_first _ h50]
    · rw [if_neg h50]
      by_cases h326 : run.length ≤ 326
      · obtain ⟨j, hj⟩ : ∃ j, run.length = 51 + j := ⟨run.length - 51, by omega⟩
        rw [hj, long_channel_parked j (by omega)]
      · obtain ⟨k, hk⟩ : ∃ k, run.length = 327 + k := ⟨run.length - 327, by omega⟩
        rw [hk, long_channel_wrapped k (by omega)]
  exact (congrArg Prod.snd e).trans e2

/-- C12. The long press is not latched. With the locals at their entry
values, holding the power pad for 377 consecutive passes executes the long
press twice, in every state: after it has fired on pass 51 the accumulator
is set to 10401 but keeps growing by 200 per pass, wraps at 65536 and is
back inside the window (10065) on pass 377. A hold of 51 passes fires it
once. -/
theorem long_press_fires_twice (s : SignState) :
    (tp_read_task (List.replicate 51 ⟨100, 0, 0⟩) tp_entry s).1.long_presses = 1 ∧
    (tp_read_task (List.replicate 377 ⟨100, 0, 0⟩) tp_entry s).1.long_presses = 2 := by
  constructor
  · have e := long_press_once_before_wrap (List.replicate 51 ⟨100, 0, 0⟩) s
      (fun inp hi => by rw [List.eq_of_mem_replicate hi]; decide)
      (by rw [List.length_replicate]; omega)
    rw [e, List.length_replicate]
    decide
  · have e := tp_read_task_long_channel (List.replicate 377 ⟨100, 0, 0⟩)
      (fun inp hi => by rw [List.eq_of_mem_replicate hi]; decide) tp_entry s
    have e0 : (tp_entry.long_press0, tp_entry.long_presses) = (0, 0) := rfl
    rw [List.length_replicate, e0, long_channel_377, Prod.mk.injEq] at e
    exact e.2

/-! ## The brightness ramp -/

/-- Where the ramp does what its comment says: up from 1..245 and down from
10..255 it steps by ten or saturates and turns round, and the result lies
in 10..255. -/
theorem ramp_brightness_in_range (s : SignState) (hb : 1 ≤ s.led_brightness)
    (hb2 : s.led_brightness ≤ 255) :
    (s.led_brightness_up = true → s.led_brightness ≤ 245 →
      10 ≤ (ramp_brightness s).led_brightness ∧ (ramp_brightness s).led_brightness ≤ 255 ∧
      (((ramp_brightness s).led_brightness = s.led_brightness + 10 ∧
          (ramp_brightness s).led_brightness_up = true) ∨
        ((ramp_brightness s).led_brightness = 255 ∧
          (ramp_brightness s).led_brightness_up = false))) ∧
    (s.led_brightness_up = false → 10 ≤ s.led_brightness →
      10 ≤ (ramp_brightness s).led_brightness ∧ (ramp_brightness s).led_brightness ≤ 255 ∧
      (((ramp_brightness s).led_brightness = s.led_brightness - 10 ∧
          (ramp_brightness s).led_brightness_up = false) ∨
        ((ramp_brightness s).led_brightness = 10 ∧
          (ramp_brightness s).led_brightness_up = true))) := by
  constructor
  · intro hu h245
    simp only [ramp_brightness, hu, if_true]
    rw [Nat.mod_eq_of_lt (by omega)]
    split_ifs with h
    · dsimp only
      exact ⟨by omega, by omega, Or.inr ⟨rfl, rfl⟩⟩
    · dsimp only
      exact ⟨by omega, by omega, Or.inl ⟨rfl, rfl⟩⟩
  · intro hd h10
    simp only [ramp_brightness, hd, Bool.false_eq_true, if_false]
    have e : (s.led_brightness + 256 - 10) % 256 = s.led_brightness - 10 := by omega
    rw [e]
    split_ifs with h
    · dsimp only
      exact ⟨by omega, by omega, Or.inr ⟨rfl, rfl⟩⟩
    · dsimp only
      exact ⟨by omega, by omega, Or.inl ⟨rfl, rfl⟩⟩

/-- Where the `uint8_t` arithmetic wraps: up from 246..255 the brightness
lands on 0..9, down from 1..9 on 247..255, and the direction stays. -/
theorem ramp_brightness_wraps (s : SignState) :
    (s.led_brightness_up = true → 246 ≤ s.led_brightness → s.led_brightness ≤ 255 →
      (ramp_brightness s).led_brightness = s.led_brightness - 246 ∧
      (ramp_brightness s).led_brightness_up = true) ∧
    (s.led_brightness_up = false → 1 ≤ s.led_brightness → s.led_brightness ≤ 9 →
      (ramp_brightness s).led_brightness = s.led_brightness + 246 ∧
      (ramp_brightness s).led_brightness_up = false) := by
  constructor
  · intro hu h1 h2
    simp only [ramp_brightness, hu, if_true]
    have e : (s.led_brightness + 10) % 256 = s.led_brightness - 246 := by omega
    rw [e, if_neg (by omega)]
    constructor <;> dsimp only
  · intro hd h1 h2
    simp only [ramp_brightness, hd, Bool.false_eq_true, if_false]
    have e : (s.led_brightness + 256 - 10) % 256 = s.led_brightness + 246 := by omega
    rw [e, if_neg (by omega)]
    constructor <;> dsimp only

/-- C13. The ramp wraps instead of saturating. After boot the brightness
message "250" sets `led_brightness` to 250 with the direction still up; one
pass with the brightness pad touched then leaves `led_brightness` at 4, below
10, with the direction still up, where the claim has 255 and a turn to down. -/
theorem ramp_up_from_250_gives_4 :
    ∃ s0 s1,
      app_main (empty_nvs false true none) = .ok s0 ∧
      mqtt_event_handler sample_topics (data_event "sign/brightness" "250") s0 = .ok s1 ∧
      s1.led_brightness = 250 ∧ s1.led_brightness_up = true ∧
      (tp_read_tick ⟨0, 0, 100⟩ tp_entry s1).2.led_brightness = 4 ∧
      (tp_read_tick ⟨0, 0, 100⟩ tp_entry s1).2.led_brightness_up = true := by
  refine ⟨_, _, rfl, rfl, ?_, ?_, ?_, ?_⟩ <;> decide

/-! ## The mode table -/

theorem mqtt_mode (cfg : MqttTopics) (ev : esp_mqtt_event_t) (s : SignState)
    (h : on_topic cfg .mode ev) :
    mqtt_event_handler cfg ev s = .ok (showtime (store_effect (set_mode ev.data s))) := by
  simp only [mqtt_event_handler, h.1, h.2]

/-- A payload that is exactly `kw` puts `kw` at the head of the data. -/
theorem data_of_payload_is (ev : esp_mqtt_event_t) (kw : String) (h : payload_is ev kw) :
    ev.data = kw.toList ++ ev.data.drop ev.data_len := by
  rw [← h.2, List.take_append_drop]

/-- C14. Mode table. A mode message whose payload is exactly "rainbow",
"color", "enumerate", "twinkle", "marquee" or "rmarquee" is handled without
fault and sets `current_effect` to RAINBOW, COLOR, ENUMERATE, TWINKLE,
MARQUEE or RAINBOW_MARQUEE, in every state. -/
theorem mode_table (cfg : MqttTopics) (ev : esp_mqtt_event_t) (s : SignState)
    (h : on_topic cfg .mode ev) :
    ∃ s1, mqtt_event_handler cfg ev s = .ok s1 ∧
      (payload_is ev "rainbow" → s1.current_effect = RAINBOW) ∧
      (payload_is ev "color" → s1.current_effect = COLOR) ∧
      (payload_is ev "enumerate" → s1.current_effect = ENUMERATE) ∧
      (payload_is ev "twinkle" → s1.current_effect = TWINKLE) ∧
      (payload_is ev "marquee" → s1.current_effect = MARQUEE) ∧
      (payload_is ev "rmarquee" → s1.current_effect = RAINBOW_MARQUEE) := by
  refine ⟨_, mqtt_mode cfg ev s h, ?_, ?_, ?_, ?_, ?_, ?_⟩
  all_goals
    intro hp
    rw [showtime_current_effect, store_effect_current_effect, data_of_payload_is ev _ hp]
    simp [set_mode, strncmp_eq, NUL]

theorem mode_table_witness :
    (on_topic sample_topics .mode (data_event "sign/mode" "rmarquee") ∧
      payload_is (data_event "sign/mode" "rmarquee") "rmarquee") ∧
    ∃ s1, mqtt_event_handler sample_topics (data_event "sign/mode" "rmarquee")
        (boot_state (empty_nvs false true none)) = .ok s1 ∧
      s1.current_effect = RAINBOW_MARQUEE :=
  ⟨⟨by decide, by unfold payload_is; decide⟩,
    (mode_table sample_topics (data_event "sign/mode" "rmarquee")
      (boot_state (empty_nvs false true none)) (by decide)).elim
      fun s1 hs => ⟨s1, hs.1, hs.2.2.2.2.2.2 (by unfold payload_is; decide)⟩⟩

/-- A payload that starts with none of the compared texts leaves the effect
alone. The third text is "enum", the first four bytes of "enumerate". -/
theorem set_mode_unmatched (d : List Char) (s : SignState)
    (h1 : strncmp_eq d "rainbow".toList 7 = false) (h2 : strncmp_eq d "color".toList 5 = false)
    (h3 : strncmp_eq d "enum".toList 4 = false) (h4 : strncmp_eq d "twinkle".toList 7 = false)
    (h5 : strncmp_eq d "marquee".toList 7 = false)
    (h6 : strncmp_eq d "rmarquee".toList 8 = false) :
    set_mode d s = s := by
  have h3' : strncmp_eq d "enumerate".toList 4 = false := by
    rw [← h3]
    simp [strncmp_eq, NUL]
  simp only [set_mode, h1, h2, h3', h4, h5, h6, Bool.false_eq_true, if_false]

/-- C19. The keyword "enumerate" is compared on four bytes. The mode message
"enumX", which does not begin with "enumerate", is handled without fault in
every state and sets `current_effect` to ENUMERATE. -/
theorem mode_enum_selects_enumerate (s : SignState) :
    (data_event "sign/mode" "enumX").data.take 9 ≠ "enumerate".toList ∧
    ∃ s1, mqtt_event_handler sample_topics (data_event "sign/mode" "enumX") s = .ok s1 ∧
      s1.current_effect = ENUMERATE := by
  refine ⟨by decide, _, mqtt_mode sample_topics _ s (by decide), ?_⟩
  rw [showtime_current_effect, store_effect_current_effect]
  simp [set_mode, strncmp_eq, NUL, data_event]

/-! ## The colour command -/

theorem hex_value_ne_nul (c : Char) (h : (hex_value c).isSome = true) : c ≠ NUL := by
  intro hc
  rw [hc] at h
  exact absurd h (by decide)

theorem cstr_append_of_no_nul (a b : List Char) (h : ∀ c ∈ a, c ≠ NUL) :
    cstr (a ++ b) = a ++ cstr b := by
  unfold cstr
  exact List.takeWhile_append_of_pos (fun c hc => by simpa using h c hc)

theorem store_palette_led_palette (s s1 : SignState) (h : store_palette s = .ok s1) :
    s1.led_palette = s.led_palette := by
  unfold store_palette at h
  repeat' split at h
  all_goals first
    | (injection h with h; subst h; rfl)
    | (exact absurd h (by simp))

/-- With a terminated palette and a buffer to compare with, `store_palette`
completes. -/
theorem store_palette_completes (s : SignState) (hlen : strlen s.led_palette < 8)
    (hj : s.nvs.palette = .absent → s.nvs.junk ≠ none) :
    ∃ s1, store_palette s = .ok s1 := by
  unfold store_palette
  by_cases hrw : s.nvs.rw_opens = false
  · rw [if_pos hrw]
    exact ⟨_, rfl⟩
  · rw [if_neg hrw]
    cases hpal : s.nvs.palette with
    | unreadable => exact ⟨_, rfl⟩
    | value p =>
      simp only []
      rw [if_neg (by omega)]
      split_ifs <;> exact ⟨_, rfl⟩
    | absent =>
      cases hjj : s.nvs.junk with
      | none => exact absurd hjj (hj hpal)
      | some j =>
        simp only []
        rw [if_neg (by omega)]
        split_ifs <;> exact ⟨_, rfl⟩

/-- The array after `strncpy` of a seven-byte payload without NUL: the
payload, then the last byte of the array as it was. -/
theorem strncpy_palette_seven (ev : esp_mqtt_event_t) (s : SignState) (p : List Char)
    (hp : ev.data_len = 7 ∧ ev.data.take 7 = p) (hl : p.length = 7) (hn : ∀ c ∈ p, c ≠ NUL) :
    strncpy_palette ev.data ev.data_len s =
      .ok { s with led_palette := p ++ s.led_palette.drop 7 } := by
  have hd : ev.data = p ++ ev.data.drop 7 := by rw [← hp.2, List.take_append_drop]
  have hc : cstr ev.data = p ++ cstr (ev.data.drop 7) := by
    rw [hd, cstr_append_of_no_nul p _ hn]
    congr 2
    rw [List.drop_append_of_le_length (by omega), ← hl]
    simp
  simp only [strncpy_palette, hp.1, strlen, hc]
  rw [if_neg (by omega)]
  have e1 : (p ++ cstr (List.drop 7 ev.data)).take 7 = p := by
    rw [List.take_append_of_le_length (by omega), List.take_of_length_le (by omega)]
  have e2 : 7 - (p ++ cstr (List.drop 7 ev.data)).length = 0 := by
    rw [List.length_append]; omega
  rw [e1, e2]
  simp

/-- Reading back a palette that holds '#' and six bytes without NUL gives
`sscanf` those six bytes. -/
theorem decode_palette_hash (ds rest : List Char) (hl : ds.length = 6)
    (hn : ∀ c ∈ ds, c ≠ NUL) :
    decode_palette ('#' :: ds ++ rest) = sscanf_rgb ds := by
  have hc : cstr ('#' :: ds ++ rest) = '#' :: ds ++ cstr rest := by
    have := cstr_append_of_no_nul ('#' :: ds) rest (by
      intro c hc
      rcases List.mem_cons.1 hc with h | h
      · rw [h]; decide
      · exact hn c h)
    simpa using this
  unfold decode_palette substring
  simp only [strlen, hc]
  rw [if_neg (by simp; omega)]
  simp [hl]

/-- C15, as stated, fails. After boot the colour message "ff0000" is handled
without fault and leaves the palette "ff00000"; the effects decode the six
characters after the first, "f00000", as (240, 0, 0), not (255, 0, 0). -/
theorem colour_without_hash_is_shifted :
    ∃ s0 s1,
      app_main (empty_nvs false true (some [])) = .ok s0 ∧
      mqtt_event_handler sample_topics (data_event "sign/color" "ff0000") s0 = .ok s1 ∧
      cstr s1.led_palette = "ff00000".toList ∧
      decode_palette s1.led_palette = some (240, 0, 0) ∧
      decode_palette s1.led_palette ≠ some (255, 0, 0) := by
  refine ⟨_, _, rfl, rfl, ?_, ?_, ?_⟩ <;> decide

/-- C15, amended. A colour message whose payload is '#' followed by exactly
six hexadecimal digits RRGGBB: whenever the handler completes, the colour
the effects decode from `led_palette` is what `sscanf` reads from the six
digits, the three bytes (RR, GG, BB); and the handler completes when the
last byte of the array is NUL and `store_palette` has a buffer to compare
with. -/
theorem colour_command (cfg : MqttTopics) (ev : esp_mqtt_event_t) (s : SignState)
    (ds : List Char) (h : on_topic cfg .color ev)
    (hl : ds.length = 6) (hx : ∀ c ∈ ds, (hex_value c).isSome = true)
    (hp : ev.data_len = 7 ∧ ev.data.take 7 = '#' :: ds) :
    (sscanf_rgb ds).isSome = true ∧
    (∀ s1, mqtt_event_handler cfg ev s = .ok s1 →
      decode_palette s1.led_palette = sscanf_rgb ds) ∧
    (s.led_palette.drop 7 = [NUL] → (s.nvs.palette = .absent → s.nvs.junk ≠ none) →
      ∃ s1, mqtt_event_handler cfg ev s = .ok s1) := by
  have hn : ∀ c ∈ ds, c ≠ NUL := fun c hc => hex_value_ne_nul c (hx c hc)
  have hn' : ∀ c ∈ '#' :: ds, c ≠ NUL := by
    intro c hc
    rcases List.mem_cons.1 hc with h | h
    · rw [h]; decide
    · exact hn c h
  have hcp := strncpy_palette_seven ev s ('#' :: ds) hp (by simp [hl]) hn'
  refine ⟨?_, ?_, ?_⟩
  · match ds, hl, hx with
    | [a, b, c, d, e, f], _, hx =>
      have ha := hx a (by simp)
      have hb := hx b (by simp)
      have hc := hx c (by simp)
      have hd := hx d (by simp)
      have he := hx e (by simp)
      have hf := hx f (by simp)
      obtain ⟨va, ha⟩ := Option.isSome_iff_exists.1 ha
      obtain ⟨vb, hb⟩ := Option.isSome_iff_exists.1 hb
      obtain ⟨vc, hc⟩ := Option.isSome_iff_exists.1 hc
      obtain ⟨vd, hd⟩ := Option.isSome_iff_exists.1 hd
      obtain ⟨ve, he⟩ := Option.isSome_iff_exists.1 he
      obtain ⟨vf, hf⟩ := Option.isSome_iff_exists.1 hf
      simp [sscanf_rgb, ha, hb, hc, hd, he, hf]
  · intro s1 hr
    simp only [mqtt_event_handler, h.1, h.2, hcp] at hr
    split at hr
    · exact absurd hr (by simp)
    · next s2 h2 =>
      injection hr with hr
      subst hr
      rw [showtime_led_palette, store_palette_led_palette _ _ h2]
      exact decode_palette_hash ds _ hl hn
  · intro hlast hjunk
    simp only [mqtt_event_handler, h.1, h.2, hcp]
    have hlen : strlen ('#' :: ds ++ s.led_palette.drop 7) < 8 := by
      rw [hlast]
      have := cstr_append_of_no_nul ('#' :: ds) [NUL] hn'
      unfold strlen
      rw [show '#' :: ds ++ [NUL] = ('#' :: ds) ++ [NUL] from rfl, this]
      simp [cstr, hl]
    obtain ⟨s2, h2⟩ := store_palette_completes
      { s with led_palette := '#' :: ds ++ s.led_palette.drop 7 } hlen hjunk
    rw [h2]
    exact ⟨_, rfl⟩

theorem colour_command_witness :
    (on_topic sample_topics .color (data_event "sign/color" "#00ff00") ∧
      "00ff00".toList.length = 6 ∧
      (∀ c ∈ "00ff00".toList, (hex_value c).isSome = true) ∧
      (data_event "sign/color" "#00ff00").data_len = 7 ∧
      (data_event "sign/color" "#00ff00").data.take 7 = '#' :: "00ff00".toList) ∧
    ∃ s1, mqtt_event_handler sample_topics (data_event "sign/color" "#00ff00")
        (boot_state (empty_nvs false true (some []))) = .ok s1 ∧
      decode_palette s1.led_palette = some (0, 255, 0) :=
  ⟨by decide,
    ((colour_command sample_topics (data_event "sign/color" "#00ff00")
        (boot_state (empty_nvs false true (some []))) "00ff00".toList
        (by decide) (by decide) (by decide) (by decide)).2.2 (by decide) (by decide)).elim
      fun s1 hs => ⟨s1, hs,
        ((colour_command sample_topics (data_event "sign/color" "#00ff00")
          (boot_state (empty_nvs false true (some []))) "00ff00".toList
          (by decide) (by decide) (by decide) (by decide)).2.1 s1 hs).trans (by decide)⟩⟩

/-! ## Write-if-changed -/

/-- When the store opens and the key reads, `store_effect` writes exactly
when a stored byte differs from the effect or when the key is absent and
the effect is not 0; it leaves the store alone otherwise. -/
theorem store_effect_writes_iff (s : SignState) (ho : s.nvs.rw_opens = true) :
    (∀ v, s.nvs.effect = .value v →
      (v ≠ s.current_effect →
        (store_effect s).nvs.effect = .value (s.current_effect % 256) ∧
        (store_effect s).nvs.commits = s.nvs.commits + 1) ∧
      (v = s.current_effect → store_effect s = s)) ∧
    (s.nvs.effect = .absent →
      (s.current_effect ≠ 0 →
        (store_effect s).nvs.effect = .value (s.current_effect % 256) ∧
        (store_effect s).nvs.commits = s.nvs.commits + 1) ∧
      (s.current_effect = 0 → store_effect s = s)) := by
  have ho' : ¬ s.nvs.rw_opens = false := by simp [ho]
  constructor
  · intro v hv
    unfold store_effect
    rw [if_neg ho']
    simp only [hv]
    constructor
    · intro hne
      rw [if_pos hne]
      exact ⟨rfl, rfl⟩
    · intro he
      rw [if_neg (by simpa using he)]
  · intro ha
    unfold store_effect
    rw [if_neg ho']
    simp only [ha]
    constructor
    · intro hne
      rw [if_pos (by simpa using hne.symm)]
      exact ⟨rfl, rfl⟩
    · intro he
      rw [if_neg (by simp [he])]

/-- C16. An absent key is not written when the value is 0. On a device with
an empty store that opens, the control message "OFF" after boot sets
`current_effect` to OFF; `store_effect` then performs no set and no commit
and the key "effect" stays absent, so the next boot starts RAINBOW again. -/
theorem store_effect_skips_absent_zero :
    ∃ s0 s1 s2,
      app_main (empty_nvs true true none) = .ok s0 ∧
      mqtt_event_handler sample_topics (data_event "sign/control" "OFF") s0 = .ok s1 ∧
      s1.current_effect = OFF ∧ s1.nvs.effect = .absent ∧ s1.nvs.commits = 0 ∧
      app_main s1.nvs = .ok s2 ∧ s2.current_effect = RAINBOW := by
  refine ⟨_, _, _, rfl, rfl, ?_, ?_, ?_, rfl, ?_⟩ <;> decide

/-- The cases in which `store_effect` leaves the state alone. -/
theorem store_effect_noop (t : SignState)
    (h : t.nvs.rw_opens = false ∨ t.nvs.effect = .unreadable ∨
      t.nvs.effect = .value t.current_effect ∨
      (t.nvs.effect = .absent ∧ t.current_effect = 0)) :
    store_effect t = t := by
  unfold store_effect
  by_cases hrw : t.nvs.rw_opens = false
  · rw [if_pos hrw]
  · rw [if_neg hrw]
    rcases h with h | h | h | h
    · exact absurd h hrw
    · simp only [h]
    · simp only [h]
      rw [if_neg (by simp)]
    · simp only [h.1]
      rw [if_neg (by simp [h.2])]

/-- Handling again after a store: once `store_effect` has run on a state whose
value fits a byte, running it on a state with the resulting store and the
same value changes nothing. -/
theorem store_effect_stable (u t : SignState) (hb : u.current_effect < 256)
    (hn : t.nvs = (store_effect u).nvs) (hc : t.current_effect = u.current_effect) :
    store_effect t = t := by
  have hm : u.current_effect % 256 = u.current_effect := Nat.mod_eq_of_lt hb
  apply store_effect_noop
  unfold store_effect at hn
  by_cases hrw : u.nvs.rw_opens = false
  · rw [if_pos hrw] at hn
    left
    rw [hn]
    exact hrw
  · rw [if_neg hrw] at hn
    right
    cases he : u.nvs.effect with
    | unreadable =>
      simp only [he] at hn
      left
      rw [hn]
      exact he
    | value v =>
      simp only [he] at hn
      right
      left
      by_cases hv : v ≠ u.current_effect
      · rw [if_pos hv] at hn
        rw [hn, hc, hm]
      · rw [if_neg hv] at hn
        rw [hn, hc, he]
        simpa using hv
    | absent =>
      simp only [he] at hn
      by_cases hv : 0 ≠ u.current_effect
      · rw [if_pos hv] at hn
        right
        left
        rw [hn, hc, hm]
      · rw [if_neg hv] at hn
        right
        right
        rw [hn, hc]
        exact ⟨he, by simpa using (not_not.1 hv).symm⟩

/-- The cases in which `store_speed` leaves the state alone. -/
theorem store_speed_noop (t : SignState)
    (h : t.nvs.rw_opens = false ∨ t.nvs.speed = .unreadable ∨
      t.nvs.speed = .value t.effect_speed_delay ∨
      (t.nvs.speed = .absent ∧ t.effect_speed_delay = 0)) :
    store_speed t = t := by
  unfold store_speed
  by_cases hrw : t.nvs.rw_opens = false
  · rw [if_pos hrw]
  · rw [if_neg hrw]
    rcases h with h | h | h | h
    · exact absurd h hrw
    · simp only [h]
    · simp only [h]
      rw [if_neg (by simp)]
    · simp only [h.1]
      rw [if_neg (by simp [h.2])]

/-- Handling again after a store: once `store_speed` has run on a state whose
value fits a byte, running it on a state with the resulting store and the
same value changes nothing. -/
theorem store_speed_stable (u t : SignState) (hb : u.effect_speed_delay < 256)
    (hn : t.nvs = (store_speed u).nvs) (hc : t.effect_speed_delay = u.effect_speed_delay) :
    store_speed t = t := by
  have hm : u.effect_speed_delay % 256 = u.effect_speed_delay := Nat.mod_eq_of_lt hb
  apply store_speed_noop
  unfold store_speed at hn
  by_cases hrw : u.nvs.rw_opens = false
  · rw [if_pos hrw] at hn
    left
    rw [hn]
    exact hrw
  · rw [if_neg hrw] at hn
    right
    cases he : u.nvs.speed with
    | unreadable =>
      simp only [he] at hn
      left
      rw [hn]
      exact he
    | value v =>
      simp only [he] at hn
      right
      left
      by_cases hv : v ≠ u.effect_speed_delay
      · rw [if_pos hv] at hn
        rw [hn, hc, hm]
      · rw [if_neg hv] at hn
        rw [hn, hc, he]
        simpa using hv
    | absent =>
      simp only [he] at hn
      by_cases hv : 0 ≠ u.effect_speed_delay
      · rw [if_pos hv] at hn
        right
        left
        rw [hn, hc, hm]
      · rw [if_neg hv] at hn
        right
        right
        rw [hn, hc]
        exact ⟨he, by simpa using (not_not.1 hv).symm⟩

/-- The cases in which `store_brightness` leaves the state alone. -/
theorem store_brightness_noop (t : SignState)
    (h : t.nvs.rw_opens = false ∨ t.nvs.brightness = .unreadable ∨
      t.nvs.brightness = .value t.led_brightness ∨
      (t.nvs.brightness = .absent ∧ t.led_brightness = 0)) :
    store_brightness t = t := by
  unfold store_brightness
  by_cases hrw : t.nvs.rw_opens = false
  · rw [if_pos hrw]
  · rw [if_neg hrw]
    rcases h with h | h | h | h
    · exact absurd h hrw
    · simp only [h]
    · simp only [h]
      rw [if_neg (by simp)]
    · simp only [h.1]
      rw [if_neg (by simp [h.2])]

/-- Handling again after a store: once `store_brightness` has run on a state whose
value fits a byte, running it on a state with the resulting store and the
same value changes nothing. -/
theorem store_brightness_stable (u t : SignState) (hb : u.led_brightness < 256)
    (hn : t.nvs = (store_brightness u).nvs) (hc : t.led_brightness = u.led_brightness) :
    store_brightness t = t := by
  have hm : u.led_brightness % 256 = u.led_brightness := Nat.mod_eq_of_lt hb
  apply store_brightness_noop
  unfold store_brightness at hn
  by_cases hrw : u.nvs.rw_opens = false
  · rw [if_pos hrw] at hn
    left
    rw [hn]
    exact hrw
  · rw [if_neg hrw] at hn
    right
    cases he : u.nvs.brightness with
    | unreadable =>
      simp only [he] at hn
      left
      rw [hn]
      exact he
    | value v =>
      simp only [he] at hn
      right
      left
      by_cases hv : v ≠ u.led_brightness
      · rw [if_pos hv] at hn
        rw [hn, hc, hm]
      · rw [if_neg hv] at hn
        rw [hn, hc, he]
        simpa using hv
    | absent =>
      simp only [he] at hn
      by_cases hv : 0 ≠ u.led_brightness
      · rw [if_pos hv] at hn
        right
        left
        rw [hn, hc, hm]
      · rw [if_neg hv] at hn
        right
        right
        rw [hn, hc]
        exact ⟨he, by simpa using (not_not.1 hv).symm⟩

/-! ## Handling the same message twice -/

theorem cstr_cstr (m : List Char) : cstr (cstr m) = cstr m := by
  unfold cstr
  induction m with
  | nil => rfl
  | cons c r ih =>
    by_cases h : decide (c ≠ NUL) = true
    · simp only [List.takeWhile_cons, h, if_true, ih]
    · simp only [List.takeWhile_cons, h, Bool.false_eq_true, if_false, List.takeWhile_nil]

/-- Handling again after a store of the palette: once `store_palette` has
completed, running it on a state with the resulting store and the same
palette completes and changes nothing. -/
theorem store_palette_stable (u t s1 : SignState) (h : store_palette u = .ok s1)
    (hn : t.nvs = s1.nvs) (hp : t.led_palette = u.led_palette) :
    store_palette t = .ok t := by
  have hcc : strcmp_eq u.led_palette (cstr u.led_palette) = true := by
    unfold strcmp_eq
    rw [cstr_cstr]
    simp
  unfold store_palette at h
  unfold store_palette
  by_cases hrw : u.nvs.rw_opens = false
  · rw [if_pos hrw] at h
    injection h with h
    rw [if_pos (by rw [hn, ← h]; exact hrw)]
  · rw [if_neg hrw] at h
    cases he : u.nvs.palette with
    | unreadable =>
      simp only [he] at h
      injection h with h
      rw [if_neg (by rw [hn, ← h]; exact hrw)]
      have : t.nvs.palette = .unreadable := by rw [hn, ← h]; exact he
      simp only [this]
    | value p =>
      simp only [he] at h
      by_cases hlen : strlen u.led_palette ≥ 8
      · rw [if_pos hlen] at h
        exact absurd h (by simp)
      · rw [if_neg hlen] at h
        by_cases hq : strcmp_eq u.led_palette p = true
        · rw [if_pos hq] at h
          injection h with h
          rw [if_neg (by rw [hn, ← h]; exact hrw)]
          have : t.nvs.palette = .value p := by rw [hn, ← h]; exact he
          simp only [this, hp]
          rw [if_neg hlen, if_pos hq]
        · rw [if_neg hq] at h
          injection h with h
          rw [if_neg (by rw [hn, ← h]; exact hrw)]
          have : t.nvs.palette = .value (cstr u.led_palette) := by rw [hn, ← h]
          simp only [this, hp]
          rw [if_neg hlen, if_pos hcc]
    | absent =>
      simp only [he] at h
      cases hj : u.nvs.junk with
      | none =>
        simp only [hj] at h
        exact absurd h (by simp)
      | some j =>
        simp only [hj] at h
        by_cases hlen : strlen u.led_palette ≥ 8
        · rw [if_pos hlen] at h
          exact absurd h (by simp)
        · rw [if_neg hlen] at h
          by_cases hq : strcmp_eq u.led_palette j = true
          · rw [if_pos hq] at h
            injection h with h
            rw [if_neg (by rw [hn, ← h]; exact hrw)]
            have h1 : t.nvs.palette = .absent := by rw [hn, ← h]; exact he
            have h2 : t.nvs.junk = some j := by rw [hn, ← h]; exact hj
            simp only [h1, h2, hp]
            rw [if_neg hlen, if_pos hq]
          · rw [if_neg hq] at h
            injection h with h
            rw [if_neg (by rw [hn, ← h]; exact hrw)]
            have : t.nvs.palette = .value (cstr u.led_palette) := by rw [hn, ← h]
            simp only [this, hp]
            rw [if_neg hlen, if_pos hcc]

/-- `strncpy` of the same bytes a second time leaves the array as the first
copy left it. -/
theorem strncpy_palette_twice (d : List Char) (n : Nat) (s s1 : SignState)
    (h : strncpy_palette d n s = .ok s1) (t : SignState) (ht : t.led_palette = s1.led_palette) :
    strncpy_palette d n t = .ok t := by
  simp only [strncpy_palette] at h ⊢
  by_cases hn : 8 < n
  · rw [if_pos hn] at h
    exact absurd h (by simp)
  · rw [if_neg hn] at h
    rw [if_neg hn]
    injection h with h
    have hl : ((cstr d).take n ++ List.replicate (n - strlen d) NUL).length = n := by
      rw [List.length_append, List.length_take, List.length_replicate]
      unfold strlen
      omega
    have hp : t.led_palette =
        (cstr d).take n ++ List.replicate (n - strlen d) NUL ++ s.led_palette.drop n := by
      rw [ht, ← h]
    have hd : t.led_palette.drop n = s.led_palette.drop n := by
      rw [hp, List.drop_append_of_le_length (by omega), List.drop_of_length_le (by omega)]
      rfl
    rw [hd, ← hp]

theorem end_running_task_next_handle (s : SignState) :
    (end_running_task s).next_handle = s.next_handle := by
  unfold end_running_task vTaskDelete
  cases s.led_task_handle <;> rfl

/-- For an effect of the enumeration `showtime` starts a task under the next
free handle. -/
theorem showtime_starts_task (s : SignState) (h : s.current_effect ≤ 6) :
    (showtime s).led_task_handle = some s.next_handle ∧
      (showtime s).next_handle = s.next_handle + 1 := by
  have hf := end_running_task_fields s
  have hn := end_running_task_next_handle s
  unfold showtime xTaskCreate
  simp only [hf.1, hn]
  generalize s.current_effect = e at h
  interval_cases e <;> simp [OFF, COLOR, RAINBOW, ENUMERATE, MARQUEE, TWINKLE, RAINBOW_MARQUEE]

theorem set_mode_frame (d : List Char) (s : SignState) :
    (set_mode d s).nvs = s.nvs ∧ (set_mode d s).next_handle = s.next_handle ∧
      (set_mode d s).prev_effect = s.prev_effect := by
  unfold set_mode
  repeat' split
  all_goals exact ⟨rfl, rfl, rfl⟩

theorem set_mode_bytes (d : List Char) (s : SignState) (h : s.current_effect < 256) :
    (set_mode d s).current_effect < 256 := by
  unfold set_mode
  repeat' split
  all_goals first
    | exact h
    | (dsimp only; decide)

theorem set_mode_again (d : List Char) (a b : SignState)
    (h : b.current_effect = (set_mode d a).current_effect) :
    (set_mode d b).current_effect = b.current_effect := by
  unfold set_mode at h ⊢
  repeat' split
  all_goals simp_all

theorem set_control_frame (d : List Char) (s : SignState) :
    (set_control d s).nvs = s.nvs ∧ (set_control d s).next_handle = s.next_handle ∧
      (set_control d s).prev_effect = s.prev_effect := by
  unfold set_control
  repeat' split
  all_goals exact ⟨rfl, rfl, rfl⟩

theorem set_control_bytes (d : List Char) (s : SignState)
    (h : s.current_effect < 256 ∧ s.prev_effect < 256) :
    (set_control d s).current_effect < 256 := by
  unfold set_control
  repeat' split
  all_goals first
    | exact h.1
    | exact h.2
    | (dsimp only; decide)

theorem set_speed_frame (d : List Char) (s : SignState) :
    (set_speed d s).nvs = s.nvs ∧ (set_speed d s).next_handle = s.next_handle ∧
      (set_speed d s).prev_effect = s.prev_effect ∧
      (set_speed d s).current_effect = s.current_effect := by
  simp only [set_speed]
  split_ifs <;> exact ⟨rfl, rfl, rfl, rfl⟩

theorem set_speed_bytes (d : List Char) (s : SignState) (h : s.effect_speed_delay < 256) :
    (set_speed d s).effect_speed_delay < 256 := by
  simp only [set_speed]
  split_ifs with h1 h2
  · show 10 < 256
    omega
  · show (255 - atoi d).toNat < 256
    omega
  · exact h

theorem set_speed_again (d : List Char) (a b : SignState)
    (h : b.effect_speed_delay = (set_speed d a).effect_speed_delay) :
    (set_speed d b).effect_speed_delay = b.effect_speed_delay := by
  simp only [set_speed] at h ⊢
  split_ifs at h ⊢ <;> simp_all

theorem set_brightness_frame (d : List Char) (s : SignState) :
    (set_brightness d s).nvs = s.nvs ∧ (set_brightness d s).next_handle = s.next_handle ∧
      (set_brightness d s).prev_effect = s.prev_effect ∧
      (set_brightness d s).current_effect = s.current_effect := by
  simp only [set_brightness]
  split_ifs <;> exact ⟨rfl, rfl, rfl, rfl⟩

theorem set_brightness_bytes (d : List Char) (s : SignState) (h : s.led_brightness < 256) :
    (set_brightness d s).led_brightness < 256 := by
  simp only [set_brightness]
  split_ifs with h1
  · show (atoi d).toNat < 256
    omega
  · exact h

theorem set_brightness_again (d : List Char) (a b : SignState)
    (h : b.led_brightness = (set_brightness d a).led_brightness) :
    (set_brightness d b).led_brightness = b.led_brightness := by
  simp only [set_brightness] at h ⊢
  split_ifs at h ⊢ <;> simp_all

/-- After a control message the same control message asks for the effect
that is already set. -/
theorem set_control_again (d : List Char) (a : SignState) :
    (set_control d (showtime (store_effect (set_control d a)))).current_effect =
      (set_control d a).current_effect := by
  unfold set_control
  by_cases h1 : strncmp_eq d "OFF".toList 3 = true
  · simp only [h1, if_true]
  · by_cases h2 : strncmp_eq d "ON".toList 2 = true
    · simp only [h1, h2, if_true, if_false, Bool.false_eq_true]
      show (showtime _).prev_effect = a.prev_effect
      rw [showtime_prev_effect, store_effect_current_effect, store_effect_prev_effect]
      split_ifs <;> rfl
    · simp only [h1, h2, if_false, Bool.false_eq_true]
      rw [showtime_current_effect, store_effect_current_effect]

theorem strncpy_palette_frame (d : List Char) (n : Nat) (s s1 : SignState)
    (h : strncpy_palette d n s = .ok s1) :
    s1.nvs = s.nvs ∧ s1.next_handle = s.next_handle ∧ s1.prev_effect = s.prev_effect ∧
      s1.current_effect = s.current_effect := by
  simp only [strncpy_palette] at h
  split at h
  · exact absurd h (by simp)
  · injection h with h; subst h; exact ⟨rfl, rfl, rfl, rfl⟩

/-- C17, as stated, fails. After boot the mode message "twinkle" handled
twice: the second handling writes nothing to the store, but it deletes the
twinkle task of the first handling (handle 1) and starts a new one (handle
2). -/
theorem second_handling_restarts_task :
    ∃ s0 s1 s2,
      app_main (empty_nvs false true none) = .ok s0 ∧
      mqtt_event_handler sample_topics (data_event "sign/mode" "twinkle") s0 = .ok s1 ∧
      mqtt_event_handler sample_topics (data_event "sign/mode" "twinkle") s1 = .ok s2 ∧
      s1.tasks = [(1, .led_twinkle)] ∧ s2.tasks = [(2, .led_twinkle)] ∧
      s2.led_task_handle ≠ s1.led_task_handle ∧ s2.nvs = s1.nvs := by
  refine ⟨_, _, _, rfl, rfl, rfl, ?_, ?_, ?_, ?_⟩ <;> decide

/-- Handling the same message again on the state that the first handling
left, with the same buffer for `store_palette`: it completes, the store is
left as it was, and for an effect of the enumeration a render task is
started under the next free handle. -/
theorem second_handling_same_buffer (cfg : MqttTopics) (ev : esp_mqtt_event_t)
    (s s1 : SignState) (hb : Bytes s) (hd : ev.event_id = .MQTT_EVENT_DATA)
    (h1 : mqtt_event_handler cfg ev s = .ok s1) :
    ∃ s2, mqtt_event_handler cfg ev s1 = .ok s2 ∧ s2.nvs = s1.nvs ∧
      ((topic_of cfg ev.topic).isSome = true → s2.current_effect ≤ 6 →
        s2.led_task_handle = some s1.next_handle ∧
        s2.next_handle = s1.next_handle + 1) := by
  obtain ⟨hb1, hb2, hb3, hb4⟩ := hb
  unfold mqtt_event_handler at h1 ⊢
  simp only [hd] at h1 ⊢
  cases ht : topic_of cfg ev.topic with
  | none =>
    simp only [ht] at h1 ⊢
    exact ⟨s1, rfl, rfl, fun h => absurd h (by simp)⟩
  | some tp =>
    cases tp with
    | mode =>
      simp only [ht] at h1 ⊢
      injection h1 with h1
      have hst : store_effect (set_mode ev.data s1) = set_mode ev.data s1 :=
        store_effect_stable (set_mode ev.data s) (set_mode ev.data s1)
          (set_mode_bytes _ _ hb1)
          (by rw [(set_mode_frame _ _).1, ← h1, showtime_nvs])
          (by
            have e : s1.current_effect = (set_mode ev.data s).current_effect := by
              rw [← h1, showtime_current_effect, store_effect_current_effect]
            rw [set_mode_again ev.data s s1 e, e])
      refine ⟨_, rfl, ?_, ?_⟩
      · rw [hst, showtime_nvs, (set_mode_frame _ _).1]
      · intro _ h6
        rw [hst] at h6 ⊢
        rw [showtime_current_effect] at h6
        have := showtime_starts_task _ h6
        rw [(set_mode_frame _ _).2.1] at this
        exact this
    | control =>
      simp only [ht] at h1 ⊢
      injection h1 with h1
      have hst : store_effect (set_control ev.data s1) = set_control ev.data s1 :=
        store_effect_stable (set_control ev.data s) (set_control ev.data s1)
          (set_control_bytes _ _ ⟨hb1, hb2⟩)
          (by rw [(set_control_frame _ _).1, ← h1, showtime_nvs])
          (by rw [← h1, set_control_again])
      refine ⟨_, rfl, ?_, ?_⟩
      · rw [hst, showtime_nvs, (set_control_frame _ _).1]
      · intro _ h6
        rw [hst] at h6 ⊢
        rw [showtime_current_effect] at h6
        have := showtime_starts_task _ h6
        rw [(set_control_frame _ _).2.1] at this
        exact this
    | color =>
      simp only [ht] at h1 ⊢
      split at h1
      · exact absurd h1 (by simp)
      · next sa ha =>
        split at h1
        · exact absurd h1 (by simp)
        · next sb hsb =>
          injection h1 with h1
          have hpal : s1.led_palette = sa.led_palette := by
            rw [← h1, showtime_led_palette, store_palette_led_palette _ _ hsb]
          have e1 := strncpy_palette_twice ev.data ev.data_len s sa ha s1 hpal
          have e2 : store_palette s1 = .ok s1 :=
            store_palette_stable sa s1 sb hsb (by rw [← h1, showtime_nvs]) hpal
          rw [e1]
          simp only [e2]
          refine ⟨_, rfl, showtime_nvs _, ?_⟩
          intro _ h6
          rw [showtime_current_effect] at h6
          exact showtime_starts_task _ h6
    | speed =>
      simp only [ht] at h1 ⊢
      injection h1 with h1
      have hst : store_speed (set_speed ev.data s1) = set_speed ev.data s1 :=
        store_speed_stable (set_speed ev.data s) (set_speed ev.data s1)
          (set_speed_bytes _ _ hb3)
          (by rw [(set_speed_frame _ _).1, ← h1, showtime_nvs])
          (by
            have e : s1.effect_speed_delay = (set_speed ev.data s).effect_speed_delay := by
              rw [← h1, showtime_effect_speed_delay, store_speed_effect_speed_delay]
            rw [set_speed_again ev.data s s1 e, e])
      refine ⟨_, rfl, ?_, ?_⟩
      · rw [hst, showtime_nvs, (set_speed_frame _ _).1]
      · intro _ h6
        rw [hst] at h6 ⊢
        rw [showtime_current_effect] at h6
        have := showtime_starts_task _ h6
        rw [(set_speed_frame _ _).2.1] at this
        exact this
    | brightness =>
      simp only [ht] at h1 ⊢
      cases hsub : substring ev.data 0 ev.data_len with
      | none =>
        simp only [hsub] at h1
        exact absurd h1 (by simp)
      | some temp =>
        simp only [hsub] at h1 ⊢
        injection h1 with h1
        have hst : store_brightness (set_brightness temp s1) = set_brightness temp s1 :=
          store_brightness_stable (set_brightness temp s) (set_brightness temp s1)
            (set_brightness_bytes _ _ hb4)
            (by rw [(set_brightness_frame _ _).1, ← h1, showtime_nvs])
            (by
              have e : s1.led_brightness = (set_brightness temp s).led_brightness := by
                rw [← h1, showtime_led_brightness, store_brightness_led_brightness]
              rw [set_brightness_again temp s s1 e, e])
        refine ⟨_, rfl, ?_, ?_⟩
        · rw [hst, showtime_nvs, (set_brightness_frame _ _).1]
        · intro _ h6
          rw [hst] at h6 ⊢
          rw [showtime_current_effect] at h6
          have := showtime_starts_task _ h6
          rw [(set_brightness_frame _ _).2.1] at this
          exact this

/-! ## The previous effect -/

@[simp] theorem store_speed_prev_effect (s : SignState) :
    (store_speed s).prev_effect = s.prev_effect := by
  unfold store_speed
  repeat' split
  all_goals rfl

@[simp] theorem store_speed_current_effect (s : SignState) :
    (store_speed s).current_effect = s.current_effect := by
  unfold store_speed
  repeat' split
  all_goals rfl

theorem store_palette_effects (s s1 : SignState) (h : store_palette s = .ok s1) :
    s1.prev_effect = s.prev_effect ∧ s1.current_effect = s.current_effect := by
  unfold store_palette at h
  repeat' split at h
  all_goals first
    | (injection h with h; subst h; exact ⟨rfl, rfl⟩)
    | (exact absurd h (by simp))

/-- What one step needs to show: a previous effect other than OFF stays
other than OFF, and a settled state stays settled. -/
theorem showtime_keeps (s x : SignState) (hp : x.prev_effect = s.prev_effect) :
    (s.prev_effect ≠ OFF → (showtime x).prev_effect ≠ OFF) ∧ Settled (showtime x) := by
  refine ⟨?_, showtime_settled x⟩
  intro h
  rw [showtime_prev_effect]
  split_ifs with h0
  · rw [hp]; exact h
  · exact h0

/-- The handler either leaves the state alone or ends in `showtime` of a
state with the previous effect it started from. -/
theorem mqtt_event_handler_shape (cfg : MqttTopics) (ev : esp_mqtt_event_t)
    (s s1 : SignState) (h : mqtt_event_handler cfg ev s = .ok s1) :
    s1 = s ∨ ∃ x, s1 = showtime x ∧ x.prev_effect = s.prev_effect := by
  unfold mqtt_event_handler at h
  split at h
  · injection h with h
    exact Or.inr ⟨_, h.symm, (end_running_task_fields s).2.1⟩
  · split at h
    · injection h with h
      exact Or.inr ⟨_, h.symm, by rw [store_effect_prev_effect, (set_mode_frame _ _).2.2]⟩
    · injection h with h
      exact Or.inr ⟨_, h.symm, by rw [store_effect_prev_effect, (set_control_frame _ _).2.2]⟩
    · split at h
      · exact absurd h (by simp)
      · next sa ha =>
        split at h
        · exact absurd h (by simp)
        · next sb hsb =>
          injection h with h
          exact Or.inr ⟨_, h.symm, by
            rw [(store_palette_effects _ _ hsb).1, (strncpy_palette_frame _ _ _ _ ha).2.2.1]⟩
    · injection h with h
      exact Or.inr ⟨_, h.symm, by rw [store_speed_prev_effect, (set_speed_frame _ _).2.2.1]⟩
    · split at h
      · exact absurd h (by simp)
      · injection h with h
        exact Or.inr ⟨_, h.symm, by
          rw [store_brightness_prev_effect, (set_brightness_frame _ _).2.2.1]⟩
    · injection h with h
      exact Or.inl h.symm
  · injection h with h
    exact Or.inl h.symm

theorem power_toggle_not_both_off (x : SignState) :
    (power_toggle x).current_effect ≠ OFF ∨ (power_toggle x).prev_effect ≠ OFF := by
  unfold power_toggle
  by_cases h : x.current_effect = OFF
  · left
    rw [if_pos h]
    show (if x.prev_effect = OFF then RAINBOW else x.prev_effect) ≠ OFF
    split_ifs with hp
    · decide
    · exact hp
  · right
    rw [if_neg h]
    exact h

theorem cycle_effect_ne_off (e : Nat) : cycle_effect e ≠ OFF := by
  show ((if (if e + 1 = 3 then e + 1 + 1 else e + 1) > 6 then 1
    else (if e + 1 = 3 then e + 1 + 1 else e + 1)) : Nat) ≠ 0
  split_ifs <;> omega

theorem touch0_poll_inv (s : SignState) (v : Nat) (l : TpLocal) (x : SignState)
    (h : PassInv s l x) : PassInv s (touch0_poll v l x).1 (touch0_poll v l x).2 := by
  simp only [touch0_poll]
  split_ifs
  · left
    refine ⟨rfl, fun _ => ?_⟩
    show (store_effect (power_toggle x)).current_effect ≠ OFF ∨
      (store_effect (power_toggle x)).prev_effect ≠ OFF
    rw [store_effect_current_effect, store_effect_prev_effect]
    exact power_toggle_not_both_off x
  · exact h
  · exact h

theorem touch2_poll_inv (s : SignState) (v : Nat) (l : TpLocal) (x : SignState)
    (h : PassInv s l x) : PassInv s (touch2_poll v l x).1 (touch2_poll v l x).2 := by
  simp only [touch2_poll]
  split_ifs
  · left
    refine ⟨rfl, fun _ => Or.inl ?_⟩
    show (store_effect { x with current_effect := cycle_effect x.current_effect }).current_effect
      ≠ OFF
    rw [store_effect_current_effect]
    exact cycle_effect_ne_off _
  · exact h
  · exact h

theorem touch3_poll_inv (s : SignState) (v : Nat) (l : TpLocal) (x : SignState)
    (h : PassInv s l x) : PassInv s (touch3_poll v l x).1 (touch3_poll v l x).2 := by
  unfold PassInv at h ⊢
  rw [touch3_poll_current_effect, touch3_poll_prev_effect]
  rcases h with ⟨ht, hg⟩ | h
  · exact Or.inl ⟨touch3_poll_touched v l x ht, hg⟩
  · exact Or.inr h

theorem long_press_check_keeps (s : SignState) (l : TpLocal) (x : SignState)
    (h : PassInv s l x) :
    (s.prev_effect ≠ OFF → (long_press_check l x).2.prev_effect ≠ OFF) ∧
      (Settled s → Settled (long_press_check l x).2) := by
  unfold long_press_check
  split_ifs with hw ht
  · refine ⟨fun _ => ?_, fun _ => showtime_settled _⟩
    show (showtime _).prev_effect ≠ OFF
    rw [showtime_prev_effect]
    rw [if_neg (by show ENUMERATE ≠ OFF; decide)]
    show ENUMERATE ≠ OFF
    decide
  · refine ⟨fun hs => ?_, fun _ => showtime_settled _⟩
    show (showtime x).prev_effect ≠ OFF
    rw [showtime_prev_effect]
    rcases h with ⟨_, hg⟩ | h
    · split_ifs with h0
      · rcases hg hs with h1 | h1
        · exact absurd h0 h1
        · exact h1
      · exact h0
    · split_ifs with h0
      · rw [h.2]; exact hs
      · exact h0
  · rcases h with ⟨ht', _⟩ | h
    · exact absurd ht' ht
    · refine ⟨fun hs => ?_, fun hs => ?_⟩
      · show x.prev_effect ≠ OFF
        rw [h.2]; exact hs
      · show Settled x
        unfold Settled at hs ⊢
        rw [h.1, h.2]
        exact hs

/-- One pass of the touch loop, whatever the samples and the locals. -/
theorem tp_read_tick_keeps (inp : TouchSample) (l : TpLocal) (s : SignState) :
    (s.prev_effect ≠ OFF → (tp_read_tick inp l s).2.prev_effect ≠ OFF) ∧
      (Settled s → Settled (tp_read_tick inp l s).2) := by
  unfold tp_read_tick
  exact long_press_check_keeps s _ _
    (touch3_poll_inv s _ _ _ (touch2_poll_inv s _ _ _ (touch0_poll_inv s _ l s
      (Or.inr ⟨rfl, rfl⟩))))

/-- One step, an MQTT event or a touch pass. -/
theorem command_keeps (cfg : MqttTopics) (c : Command) (s s1 : SignState)
    (h : c.apply cfg s = .ok s1) :
    (s.prev_effect ≠ OFF → s1.prev_effect ≠ OFF) ∧ (Settled s → Settled s1) := by
  cases c with
  | mqtt ev =>
    rcases mqtt_event_handler_shape cfg ev s s1 h with h1 | ⟨x, h1, hx⟩
    · rw [h1]; exact ⟨id, id⟩
    · rw [h1]
      exact ⟨(showtime_keeps s x hx).1, fun _ => (showtime_keeps s x hx).2⟩
  | touch inp l =>
    have e : (tp_read_tick inp l s).2 = s1 := by
      have h' : (Except.ok (tp_read_tick inp l s).2 : Except Fault SignState) = .ok s1 := h
      injection h'
    rw [← e]
    exact tp_read_tick_keeps inp l s

theorem run_commands_keeps (cfg : MqttTopics) (cs : List Command) :
    ∀ s s1 : SignState, run_commands cfg cs s = .ok s1 →
      (s.prev_effect ≠ OFF → s1.prev_effect ≠ OFF) ∧ (Settled s → Settled s1) := by
  induction cs with
  | nil =>
    intro s s1 h
    have h' : (Except.ok s : Except Fault SignState) = .ok s1 := h
    injection h' with h'
    rw [← h']
    exact ⟨id, id⟩
  | cons c cs ih =>
    intro s s1 h
    rw [run_commands] at h
    split at h
    · next sm hm =>
      have k1 := command_keeps cfg c s sm hm
      have k2 := ih sm s1 h
      exact ⟨fun hp => k2.1 (k1.1 hp), fun hp => k2.2 (k1.2 hp)⟩
    · exact absurd h (by simp)

/-- C18. The previous effect. Every state `s` reached from boot (`app_main`,
which ends in `showtime`) by any sequence of handled MQTT events and touch
passes has `prev_effect = current_effect` whenever `current_effect` is not
OFF; and if `prev_effect` is not OFF in `s`, it is not OFF in any state
reached from `s` by further events and passes. -/
theorem prev_effect_invariant (cfg : MqttTopics) (nvs : Nvs) (cs : List Command)
    (s0 s : SignState) (hboot : app_main nvs = .ok s0)
    (hrun : run_commands cfg cs s0 = .ok s) :
    (s.current_effect ≠ OFF → s.prev_effect = s.current_effect) ∧
    (∀ (later : List Command) (s1 : SignState), run_commands cfg later s = .ok s1 →
      s.prev_effect ≠ OFF → s1.prev_effect ≠ OFF) := by
  have h0 : Settled s0 := by
    unfold app_main at hboot
    cases hr : read_flash_settings (boot_state nvs) with
    | error f =>
      rw [hr] at hboot
      exact absurd hboot (by simp [Except.map])
    | ok x =>
      rw [hr] at hboot
      have e : showtime (initialize_leds x) = s0 := by
        have h' : (Except.ok (showtime (initialize_leds x)) : Except Fault SignState) =
            .ok s0 := hboot
        injection h'
      rw [← e]
      exact showtime_settled _
  exact ⟨(run_commands_keeps cfg cs s0 s hrun).2 h0,
    fun later s1 hl => (run_commands_keeps cfg later s s1 hl).1⟩

theorem prev_effect_invariant_witness :
    app_main (empty_nvs false true none) =
        .ok (showtime (boot_state (empty_nvs false true none))) ∧
    ∃ s, run_commands sample_topics
        [.mqtt (data_event "sign/control" "OFF"), .touch ⟨100, 0, 0⟩ tp_entry]
        (showtime (boot_state (empty_nvs false true none))) = .ok s ∧
      (s.current_effect ≠ OFF → s.prev_effect = s.current_effect) :=
  ⟨rfl, _, rfl,
    (prev_effect_invariant sample_topics (empty_nvs false true none)
      [.mqtt (data_event "sign/control" "OFF"), .touch ⟨100, 0, 0⟩ tp_entry]
      _ _ rfl rfl).1⟩

/-! ## Brightness scaling -/

theorem rounds_zero (f : ℚ → ℚ) (u : ℚ)
    (h : ∀ x : ℚ, x = 0 ∨ (1 / 512 ≤ x ∧ x ≤ 512) → |f x - x| ≤ x / u) : f 0 = 0 := by
  have := h 0 (Or.inl rfl)
  simp only [sub_zero, zero_div] at this
  exact abs_nonpos_iff.1 this

/-- The exact value `c * b / 255 + 1/2` keeps a distance of 1/510 from every
integer: it lies between `k + 1/510` and `k + 509/510` for `k` the rounded
value. -/
theorem round_scaled_margin (c b : Nat) :
    (round_scaled c b : ℚ) + 1 / 510 ≤ (c : ℚ) * b / 255 + 1 / 2 ∧
      (c : ℚ) * b / 255 + 1 / 2 ≤ (round_scaled c b : ℚ) + 509 / 510 := by
  unfold round_scaled
  have hd := Nat.div_add_mod (2 * (c * b) + 255) 510
  have hm : (2 * (c * b) + 255) % 510 < 510 := Nat.mod_lt _ (by norm_num)
  have hodd : (2 * (c * b) + 255) % 510 % 2 = 1 := by omega
  have h1 : 1 ≤ (2 * (c * b) + 255) % 510 := by omega
  have h2 : (2 * (c * b) + 255) % 510 ≤ 509 := by omega
  set k := (2 * (c * b) + 255) / 510 with hk
  set r := (2 * (c * b) + 255) % 510 with hr
  have hq : ((2 * (c * b) + 255 : Nat) : ℚ) = 510 * (k : ℚ) + (r : ℚ) := by
    rw [← hd]
    push_cast
    ring
  have h1q : (1 : ℚ) ≤ r := by exact_mod_cast h1
  have h2q : (r : ℚ) ≤ 509 := by exact_mod_cast h2
  push_cast at hq
  constructor <;> linarith

/-- The rounded sum handed to `(int)`, for a channel and a brightness that
are not 0: it stays within 1/1000 of the exact `c * b / 255 + 1/2`, and the
product before it is positive. -/
theorem scaled_sum_close (fa : FloatArith) (h : fa.rounds_to_nearest) (c b : Nat)
    (hc1 : 1 ≤ c) (hc : c ≤ 255) (hb1 : 1 ≤ b) (hb : b ≤ 255) :
    0 ≤ fa.f32 ((c : ℚ) * fa.f32 (fa.f64 ((b : ℚ) / 255))) ∧
    |fa.f64 (fa.f32 ((c : ℚ) * fa.f32 (fa.f64 ((b : ℚ) / 255))) + 1 / 2) -
        ((c : ℚ) * b / 255 + 1 / 2)| ≤ 1 / 1000 := by
  obtain ⟨h32, h64⟩ := h
  have hcq1 : (1 : ℚ) ≤ c := by exact_mod_cast hc1
  have hcq : (c : ℚ) ≤ 255 := by exact_mod_cast hc
  have hbq1 : (1 : ℚ) ≤ b := by exact_mod_cast hb1
  have hbq : (b : ℚ) ≤ 255 := by exact_mod_cast hb
  have u24 : (1 : ℚ) / 2 ^ 24 ≤ 1 / 10000000 := by norm_num
  have u53 : (1 : ℚ) / 2 ^ 53 ≤ 1 / 10000000 := by norm_num
  have p24 : (0 : ℚ) ≤ 1 / 2 ^ 24 := by positivity
  have p53 : (0 : ℚ) ≤ 1 / 2 ^ 53 := by positivity
  have rel : ∀ (t e bound : ℚ), 0 ≤ t → t ≤ bound → 0 ≤ e → e ≤ 1 / 10000000 →
      t * e ≤ bound / 10000000 := by
    intro t e bound ht htb he heb
    have h1 : t * e ≤ bound * e := mul_le_mul_of_nonneg_right htb he
    have h2 : bound * e ≤ bound * (1 / 10000000) :=
      mul_le_mul_of_nonneg_left heb (le_trans ht htb)
    linarith
  -- the quotient b / 255
  obtain ⟨q, hq⟩ : ∃ q : ℚ, q = (b : ℚ) / 255 := ⟨_, rfl⟩
  have hq1 : 1 / 255 ≤ q := by
    rw [hq]
    exact div_le_div_of_nonneg_right hbq1 (by norm_num)
  have hq2 : q ≤ 1 := by
    rw [hq, div_le_one (by norm_num)]
    exact hbq
  have hcq0 : (c : ℚ) * b / 255 = (c : ℚ) * q := by rw [hq]; ring
  rw [hcq0, ← hq]
  -- a = f64 q
  obtain ⟨a, ha⟩ : ∃ a : ℚ, a = fa.f64 q := ⟨_, rfl⟩
  have ea := abs_le.1 (h64 q (Or.inr ⟨by linarith, by linarith⟩))
  rw [← ha, div_eq_mul_one_div] at ea
  have ea1 := rel q (1 / 2 ^ 53) 1 (by linarith) hq2 p53 u53
  rw [← ha]
  -- p = f32 a
  have ha1 : 1 / 512 ≤ a := by linarith [ea.1]
  have ha2 : a ≤ 2 := by linarith [ea.2]
  obtain ⟨p, hp⟩ : ∃ p : ℚ, p = fa.f32 a := ⟨_, rfl⟩
  have ep := abs_le.1 (h32 a (Or.inr ⟨ha1, by linarith⟩))
  rw [← hp, div_eq_mul_one_div] at ep
  have ep1 := rel a (1 / 2 ^ 24) 2 (by linarith) ha2 p24 u24
  rw [← hp]
  have hpq1 : p - q ≤ 3 / 10000000 := by linarith [ea.2, ep.2]
  have hpq2 : -(3 / 10000000) ≤ p - q := by linarith [ea.1, ep.1]
  -- m = c * p
  have hcp1 : (c : ℚ) * (p - q) ≤ 255 * (3 / 10000000) := by
    have h1 : (c : ℚ) * (p - q) ≤ c * (3 / 10000000) :=
      mul_le_mul_of_nonneg_left hpq1 (by linarith)
    have h2 : (c : ℚ) * (3 / 10000000) ≤ 255 * (3 / 10000000) :=
      mul_le_mul_of_nonneg_right hcq (by norm_num)
    linarith
  have hcp2 : -(255 * (3 / 10000000)) ≤ (c : ℚ) * (p - q) := by
    have h1 : (c : ℚ) * (-(3 / 10000000)) ≤ c * (p - q) :=
      mul_le_mul_of_nonneg_left hpq2 (by linarith)
    have h2 : (c : ℚ) * (3 / 10000000) ≤ 255 * (3 / 10000000) :=
      mul_le_mul_of_nonneg_right hcq (by norm_num)
    linarith
  have hcq_lo : 1 / 255 ≤ (c : ℚ) * q := by
    have h1 : 1 * q ≤ (c : ℚ) * q := mul_le_mul_of_nonneg_right hcq1 (by linarith)
    linarith
  have hcq_hi : (c : ℚ) * q ≤ 255 := by
    have h1 : (c : ℚ) * q ≤ 255 * q := mul_le_mul_of_nonneg_right hcq (by linarith)
    linarith
  obtain ⟨m, hm⟩ : ∃ m : ℚ, m = (c : ℚ) * p := ⟨_, rfl⟩
  have hm_eq : m = (c : ℚ) * q + (c : ℚ) * (p - q) := by rw [hm]; ring
  rw [← hm]
  have hm1 : 1 / 512 ≤ m := by linarith
  have hm2 : m ≤ 256 := by linarith
  -- x = f32 m
  obtain ⟨x, hx⟩ : ∃ x : ℚ, x = fa.f32 m := ⟨_, rfl⟩
  have ex := abs_le.1 (h32 m (Or.inr ⟨hm1, by linarith⟩))
  rw [← hx, div_eq_mul_one_div] at ex
  have ex1 := rel m (1 / 2 ^ 24) 256 (by linarith) hm2 p24 u24
  rw [← hx]
  have hx0 : 0 ≤ x := by linarith [ex.1]
  have hx2 : x ≤ 257 := by linarith [ex.2]
  -- y = f64 (x + 1/2)
  have ey := abs_le.1 (h64 (x + 1 / 2) (Or.inr ⟨by linarith, by linarith⟩))
  rw [div_eq_mul_one_div] at ey
  have ey1 := rel (x + 1 / 2) (1 / 2 ^ 53) 258 (by linarith) (by linarith) p53 u53
  refine ⟨hx0, abs_le.2 ⟨?_, ?_⟩⟩
  · linarith [ey.1, ex.1]
  · linarith [ey.2, ex.2]

/-- `FLOAT_TO_INT` of a value that is not negative and whose rounded sum
with 1/2 lies strictly between `k` and `k + 1` is `k`. -/
theorem FLOAT_TO_INT_eq (fa : FloatArith) (x : ℚ) (k : Nat) (hx : 0 ≤ x)
    (h1 : (k : ℚ) < fa.f64 (x + 1 / 2)) (h2 : fa.f64 (x + 1 / 2) < (k : ℚ) + 1) :
    FLOAT_TO_INT fa x = (k : Int) := by
  have hk : (0 : ℚ) ≤ k := Nat.cast_nonneg k
  unfold FLOAT_TO_INT int_of_float
  rw [if_pos hx, if_pos (by linarith)]
  rw [Int.floor_eq_iff]
  push_cast
  exact ⟨le_of_lt h1, h2⟩

theorem round_scaled_le (c b : Nat) (hb : b ≤ 255) : round_scaled c b ≤ c := by
  unfold round_scaled
  have h : c * b ≤ c * 255 := Nat.mul_le_mul_left c hb
  omega

/-- One channel: the byte that `led_set_brightness` stores is the exactly
rounded product. -/
theorem scale_channel_eq (fa : FloatArith) (h : fa.rounds_to_nearest) (c b : Nat)
    (hc : c ≤ 255) (hb : b ≤ 255) :
    scale_channel fa c (fa.f32 (fa.f64 ((b : ℚ) / 255))) = round_scaled c b := by
  have hle : round_scaled c b ≤ 255 := le_trans (round_scaled_le c b hb) hc
  have hmar := round_scaled_margin c b
  have key : FLOAT_TO_INT fa (fa.f32 ((c : ℚ) * fa.f32 (fa.f64 ((b : ℚ) / 255)))) =
      (round_scaled c b : Int) := by
    by_cases hz : c = 0 ∨ b = 0
    · have h320 := rounds_zero fa.f32 _ h.1
      have h640 := rounds_zero fa.f64 _ h.2
      have hx : fa.f32 ((c : ℚ) * fa.f32 (fa.f64 ((b : ℚ) / 255))) = 0 := by
        rcases hz with hz | hz
        · rw [hz]
          simp [h320]
        · rw [hz]
          simp [h320, h640]
      have hprod : (c : ℚ) * b = 0 := by
        rcases hz with hz | hz <;> simp [hz]
      rw [hx]
      have ey := abs_le.1 (h.2 (0 + 1 / 2) (Or.inr ⟨by norm_num, by norm_num⟩))
      have e53 : ((0 : ℚ) + 1 / 2) / 2 ^ 53 ≤ 1 / 1000 := by norm_num
      rw [hprod] at hmar
      apply FLOAT_TO_INT_eq fa 0 _ (le_refl 0)
      · linarith [ey.1, hmar.2]
      · linarith [ey.2, hmar.1]
    · have hc1 : 1 ≤ c := by omega
      have hb1 : 1 ≤ b := by omega
      obtain ⟨hx0, hy⟩ := scaled_sum_close fa h c b hc1 hc hb1 hb
      have hy' := abs_le.1 hy
      apply FLOAT_TO_INT_eq fa _ _ hx0
      · linarith [hy'.1, hmar.1]
      · linarith [hy'.2, hmar.2]
  unfold scale_channel
  rw [key]
  omega

/-- C20. Brightness scaling. For channels and a brightness in 0..255, under
any `float` and `double` arithmetic that rounds to nearest (exact arithmetic
included), `led_set_brightness` replaces each of the channels r, g and b by
`c * b / 255` rounded to the nearest integer, halves away from zero; the
result never exceeds the channel, is the channel itself for brightness 255
and is 0 for brightness 0. -/
theorem led_set_brightness_rounds (fa : FloatArith) (h : fa.rounds_to_nearest)
    (p : pixel_t) (b : Nat) (hr : p.r ≤ 255) (hg : p.g ≤ 255) (hbl : p.b ≤ 255)
    (hb : b ≤ 255) :
    led_set_brightness fa p (b : Int) =
        { r := round_scaled p.r b, g := round_scaled p.g b, b := round_scaled p.b b } ∧
    ((led_set_brightness fa p (b : Int)).r ≤ p.r ∧
      (led_set_brightness fa p (b : Int)).g ≤ p.g ∧
      (led_set_brightness fa p (b : Int)).b ≤ p.b) ∧
    (b = 255 → led_set_brightness fa p (b : Int) = p) ∧
    (b = 0 → led_set_brightness fa p (b : Int) = { r := 0, g := 0, b := 0 }) := by
  have e : led_set_brightness fa p (b : Int) =
      { r := round_scaled p.r b, g := round_scaled p.g b, b := round_scaled p.b b } := by
    unfold led_set_brightness
    simp only [Int.cast_natCast]
    rw [scale_channel_eq fa h p.r b hr hb, scale_channel_eq fa h p.g b hg hb,
      scale_channel_eq fa h p.b b hbl hb]
  rw [e]
  refine ⟨rfl, ⟨round_scaled_le _ _ hb, round_scaled_le _ _ hb, round_scaled_le _ _ hb⟩, ?_, ?_⟩
  · intro h255
    have k : ∀ c : Nat, round_scaled c 255 = c := fun c => by
      unfold round_scaled
      omega
    rw [h255, k, k, k]
  · intro h0
    have k : ∀ c : Nat, round_scaled c 0 = 0 := fun c => by
      unfold round_scaled
      simp
    rw [h0, k, k, k]

theorem exact_arith_rounds : exact_arith.rounds_to_nearest := by
  constructor <;>
  · intro x hx
    have h0 : 0 ≤ x := by
      rcases hx with hx | hx
      · rw [hx]
      · linarith [hx.1]
    show |x - x| ≤ _
    rw [sub_self, abs_zero]
    positivity

theorem led_set_brightness_rounds_witness :
    (exact_arith.rounds_to_nearest ∧ (255 : Nat) ≤ 255 ∧ (130 : Nat) ≤ 255 ∧
      (0 : Nat) ≤ 255 ∧ (64 : Nat) ≤ 255) ∧
    led_set_brightness exact_arith { r := 255, g := 130, b := 0 } ((64 : Nat) : Int) =
      { r := 64, g := 33, b := 0 } :=
  ⟨⟨exact_arith_rounds, by decide, by decide, by decide, by decide⟩,
    (led_set_brightness_rounds exact_arith exact_arith_rounds { r := 255, g := 130, b := 0 } 64
      (by decide) (by decide) (by decide) (by decide)).1.trans (by decide)⟩

/-- `random(1, 100)` is one of 1..100 whenever `esp_random()` delivers a value
of at most `RAND_MAX`. -/
theorem random_in_range (rand_max esp : Nat) (h : esp ≤ rand_max) :
    1 ≤ random rand_max esp 1 100 ∧ random rand_max esp 1 100 ≤ 100 := by
  simp only [random, show (100 - 1 + 1 : Nat) = 100 from rfl]
  have hd : esp / (rand_max / 100 + 1) < 100 := by
    rw [Nat.div_lt_iff_lt_mul (Nat.succ_pos _)]
    omega
  obtain ⟨q, hq⟩ : ∃ q, q = esp / (rand_max / 100 + 1) := ⟨_, rfl⟩
  rw [← hq] at hd ⊢
  omega

/-- Every value 1..100 is delivered by `random(1, 100)` for some value of
`esp_random()` of at most `RAND_MAX`, here for `RAND_MAX` = 2147483647. -/
theorem random_reaches_all (v : Nat) (h1 : 1 ≤ v) (h100 : v ≤ 100) :
    ∃ esp, esp ≤ 2147483647 ∧ random 2147483647 esp 1 100 = v := by
  refine ⟨(v - 1) * 21474837, by omega, ?_⟩
  unfold random
  have : (v - 1) * 21474837 / (2147483647 / (100 - 1 + 1) + 1) = v - 1 := by
    norm_num
  omega

/-- The draws that light a pixel are the values 1..twinkly-1: there are
`twinkly - 1` of them, and all 100 from the threshold 101 on. -/
theorem lit_draws_eq (twinkly : Nat) : lit_draws twinkly = min (twinkly - 1) 100 := by
  by_cases h : twinkly < 102
  · have : ∀ t, t < 102 → lit_draws t = min (t - 1) 100 := by decide
    exact this twinkly h
  · have hall : twinkle_draws.filter (twinkle_lit twinkly) = twinkle_draws := by
      rw [List.filter_eq_self]
      intro v hv
      simp only [twinkle_draws, List.mem_map, List.mem_range] at hv
      obtain ⟨k, hk, rfl⟩ := hv
      simp only [twinkle_lit, decide_eq_true_eq]
      omega
    have hlen : twinkle_draws.length = 100 := by decide
    rw [lit_draws, hall, hlen]
    omega

/-- C21: with the default threshold 25 the pixel is lit for 24 of the 100
draws 1..100, one fewer than the threshold, since the draw 25 itself turns
the pixel off; the same holds for every threshold in 1..100, where the lit
draws number `twinkly - 1`. -/
theorem default_twinkly_lights_24 :
    lit_draws twinkly_default = 24 ∧ twinkle_lit twinkly_default 25 = false ∧
      ∀ t : Fin 100, lit_draws (t.val + 1) = t.val := by
  refine ⟨by decide, by decide, ?_⟩
  intro t
  rw [lit_draws_eq]
  have := t.isLt
  omega

theorem shift_right_length (i : Nat) (pixels : List pixel_t) :
    (shift_right i pixels).length = pixels.length := by
  induction i generalizing pixels with
  | zero => rfl
  | succ i ih => simp [shift_right, ih]

theorem shift_right_get (i : Nat) (pixels : List pixel_t) (hi : i < pixels.length)
    (j : Nat) :
    (shift_right i pixels)[j]? = if 1 ≤ j ∧ j ≤ i then pixels[j - 1]? else pixels[j]? := by
  induction i generalizing pixels with
  | zero =>
      have : ¬ (1 ≤ j ∧ j ≤ 0) := by omega
      rw [shift_right, if_neg this]
  | succ i ih =>
      have hlen : (pixels.set (i + 1) ((pixels[i]?).getD black)).length = pixels.length := by
        simp
      rw [shift_right, ih _ (by rw [hlen]; omega)]
      have hi2 : i < pixels.length := by omega
      by_cases h1 : 1 ≤ j ∧ j ≤ i
      · have h2 : 1 ≤ j ∧ j ≤ i + 1 := by omega
        rw [if_pos h1, if_pos h2, List.getElem?_set]
        have : ¬ (i + 1 = j - 1) := by omega
        rw [if_neg this]
      · rw [if_neg h1]
        by_cases h3 : j = i + 1
        · subst h3
          have h2 : 1 ≤ i + 1 ∧ i + 1 ≤ i + 1 := by omega
          rw [if_pos h2, List.getElem?_set]
          simp [hi, hi2]
        · have h2 : ¬ (1 ≤ j ∧ j ≤ i + 1) := by omega
          rw [if_neg h2, List.getElem?_set]
          have : ¬ (i + 1 = j) := by omega
          rw [if_neg this]

theorem shift_left_length (i count : Nat) (pixels : List pixel_t) :
    (shift_left i count pixels).length = pixels.length := by
  induction count generalizing i pixels with
  | zero => rfl
  | succ c ih => simp [shift_left, ih]

theorem shift_left_get (i count : Nat) (pixels : List pixel_t)
    (hi : i + count < pixels.length) (j : Nat) :
    (shift_left i count pixels)[j]? =
      if i ≤ j ∧ j < i + count then pixels[j + 1]? else pixels[j]? := by
  induction count generalizing i pixels with
  | zero =>
      have : ¬ (i ≤ j ∧ j < i + 0) := by omega
      rw [shift_left, if_neg this]
  | succ c ih =>
      have hlen : (pixels.set i ((pixels[i + 1]?).getD black)).length = pixels.length := by
        simp
      rw [shift_left, ih _ _ (by rw [hlen]; omega)]
      have hi1 : i < pixels.length := by omega
      have hi2 : i + 1 < pixels.length := by omega
      by_cases h1 : i + 1 ≤ j ∧ j < i + 1 + c
      · have h2 : i ≤ j ∧ j < i + (c + 1) := by omega
        rw [if_pos h1, if_pos h2, List.getElem?_set]
        have : ¬ (i = j + 1) := by omega
        rw [if_neg this]
      · rw [if_neg h1]
        by_cases h3 : j = i
        · subst h3
          have h2 : j ≤ j ∧ j < j + (c + 1) := by omega
          rw [if_pos h2, List.getElem?_set]
          simp [hi1, hi2]
        · have h2 : ¬ (i ≤ j ∧ j < i + (c + 1)) := by omega
          rw [if_neg h2, List.getElem?_set]
          have : ¬ (i = j) := by omega
          rw [if_neg this]

/-- On a buffer of `length` >= 1 pixels `rotate_pixels` moves the last pixel
to the front: a rotation by one place to the right. -/
theorem rotate_pixels_eq (pixels : List pixel_t) (h : 1 ≤ pixels.length) :
    rotate_pixels pixels pixels.length = some (pixels.rotate (pixels.length - 1)) := by
  have hn : ¬ (pixels.length = 0 ∨ pixels.length < pixels.length) := by omega
  simp only [rotate_pixels, if_neg hn]
  congr 1
  apply List.ext_getElem?
  intro j
  by_cases hj : j < pixels.length
  · rw [List.getElem?_rotate hj, List.getElem?_set]
    by_cases h0 : j = 0
    · subst h0
      have hlt : 0 < (shift_right (pixels.length - 1) pixels).length := by
        rw [shift_right_length]; omega
      have hm : (0 + (pixels.length - 1)) % pixels.length = pixels.length - 1 := by
        rw [Nat.zero_add]; exact Nat.mod_eq_of_lt (by omega)
      have hl : pixels.length - 1 < pixels.length := by omega
      simp [hlt, hm, hl]
    · have hne : ¬ (0 = j) := by omega
      rw [if_neg hne, shift_right_get _ _ (by omega)]
      have h1 : 1 ≤ j ∧ j ≤ pixels.length - 1 := by omega
      rw [if_pos h1]
      have hm : (j + (pixels.length - 1)) % pixels.length = j - 1 := by
        have : j + (pixels.length - 1) = (j - 1) + pixels.length := by omega
        rw [this, Nat.add_mod_right]
        exact Nat.mod_eq_of_lt (by omega)
      rw [hm]
  · have h1 : pixels.length ≤ j := by omega
    rw [List.getElem?_eq_none (by simpa [shift_right_length] using h1),
      List.getElem?_eq_none (by simpa using h1)]

/-- On a buffer of `length` >= 1 pixels `rotate_pixels_reverse` moves the
first pixel to the back: a rotation by one place to the left. -/
theorem rotate_pixels_reverse_eq (pixels : List pixel_t) (h : 1 ≤ pixels.length) :
    rotate_pixels_reverse pixels pixels.length = some (pixels.rotate 1) := by
  have hn : ¬ (pixels.length = 0 ∨ pixels.length < pixels.length) := by omega
  simp only [rotate_pixels_reverse, if_neg hn]
  congr 1
  apply List.ext_getElem?
  intro j
  by_cases hj : j < pixels.length
  · rw [List.getElem?_rotate hj, List.getElem?_set]
    by_cases h0 : j = pixels.length - 1
    · have hlt : j < (shift_left 0 (pixels.length - 1) pixels).length := by
        rw [shift_left_length]; exact hj
      have hm : (j + 1) % pixels.length = 0 := by
        have : j + 1 = pixels.length := by omega
        rw [this, Nat.mod_self]
      have hl : 0 < pixels.length := by omega
      rw [if_pos h0.symm, hm]
      simp [shift_left_length, hl]
    · have hne : ¬ (pixels.length - 1 = j) := by omega
      rw [if_neg hne, shift_left_get _ _ _ (by omega)]
      have h1 : 0 ≤ j ∧ j < 0 + (pixels.length - 1) := by omega
      rw [if_pos h1, Nat.mod_eq_of_lt (by omega)]
  · have h1 : pixels.length ≤ j := by omega
    rw [List.getElem?_eq_none (by simpa [shift_left_length] using h1),
      List.getElem?_eq_none (by simpa using h1)]

/-- A run of `frames` rotations on a buffer of `length` >= 1 pixels rotates
it by `frames` places: to the left when `step_reverse` holds, to the right
otherwise. -/
theorem sweep_eq (step_reverse : Bool) (frames : Nat) (pixels : List pixel_t)
    (h : 1 ≤ pixels.length) :
    sweep step_reverse pixels.length frames pixels =
      some (pixels.rotate
        (if step_reverse = true then frames else frames * (pixels.length - 1))) := by
  induction frames generalizing pixels with
  | zero => cases step_reverse <;> simp [sweep]
  | succ k ih =>
      cases step_reverse
      · have hl : (pixels.rotate (pixels.length - 1)).length = pixels.length :=
          List.length_rotate _ _
        have hk := ih (pixels.rotate (pixels.length - 1)) (by rw [hl]; exact h)
        rw [hl] at hk
        simp only [sweep, Bool.false_eq_true, if_false, rotate_pixels_eq pixels h] at hk ⊢
        rw [hk, List.rotate_rotate]
        congr 2
        rw [Nat.succ_mul, Nat.add_comm]
      · have hl : (pixels.rotate 1).length = pixels.length := List.length_rotate _ _
        have hk := ih (pixels.rotate 1) (by rw [hl]; exact h)
        rw [hl] at hk
        simp only [sweep, if_true, rotate_pixels_reverse_eq pixels h] at hk ⊢
        rw [hk, List.rotate_rotate]
        congr 2
        rw [Nat.add_comm]

/-- C22: on a pixel buffer of n >= 1 pixels, n applications of
`rotate_pixels` give back the buffer, and so do n applications of
`rotate_pixels_reverse`; `rotate_pixels_reverse` after `rotate_pixels` gives
back the buffer as well. The two runs of n rotations are the full sweeps of
`led_marquee` and `led_enumerate` over `strip.length` frames, so the pattern
stands where it started after each of them. -/
theorem rotation_periodicity (pixels : List pixel_t) (h : 1 ≤ pixels.length) :
    sweep false pixels.length pixels.length pixels = some pixels ∧
    sweep true pixels.length pixels.length pixels = some pixels ∧
    (∃ rotated, rotate_pixels pixels pixels.length = some rotated ∧
      rotate_pixels_reverse rotated pixels.length = some pixels) := by
  refine ⟨?_, ?_, ?_⟩
  · rw [sweep_eq false _ _ h]
    simp only [Bool.false_eq_true, if_false]
    rw [← List.rotate_mod, Nat.mul_mod_right, List.rotate_zero]
  · rw [sweep_eq true _ _ h]
    simp only [if_true]
    rw [List.rotate_length]
  · refine ⟨_, rotate_pixels_eq pixels h, ?_⟩
    have hl : (pixels.rotate (pixels.length - 1)).length = pixels.length :=
      List.length_rotate _ _
    have hr := rotate_pixels_reverse_eq (pixels.rotate (pixels.length - 1)) (by rw [hl]; exact h)
    rw [hl] at hr
    rw [hr, List.rotate_rotate]
    have : pixels.length - 1 + 1 = pixels.length := by omega
    rw [this, List.rotate_length]

theorem rotation_periodicity_witness :
    1 ≤ [pixel_t.mk 255 0 0, black, black].length ∧
    sweep false 3 3 [pixel_t.mk 255 0 0, black, black]
      = some [pixel_t.mk 255 0 0, black, black] ∧
    sweep true 3 3 [pixel_t.mk 255 0 0, black, black]
      = some [pixel_t.mk 255 0 0, black, black] ∧
    (∃ rotated, rotate_pixels [pixel_t.mk 255 0 0, black, black] 3 = some rotated ∧
      rotate_pixels_reverse rotated 3 = some [pixel_t.mk 255 0 0, black, black]) :=
  ⟨by decide, rotation_periodicity [pixel_t.mk 255 0 0, black, black] (by decide)⟩

/-! ## Handling the same message twice -/

theorem set_mode_fresh (d j : List Char) (s : SignState) :
    set_mode d (fresh_buffer j s) = fresh_buffer j (set_mode d s) := by
  unfold set_mode
  split_ifs <;> rfl

theorem set_control_fresh (d j : List Char) (s : SignState) :
    set_control d (fresh_buffer j s) = fresh_buffer j (set_control d s) := by
  unfold set_control
  split_ifs <;> rfl

theorem set_speed_fresh (d j : List Char) (s : SignState) :
    set_speed d (fresh_buffer j s) = fresh_buffer j (set_speed d s) := by
  simp only [set_speed]
  split_ifs <;> rfl

theorem set_brightness_fresh (d j : List Char) (s : SignState) :
    set_brightness d (fresh_buffer j s) = fresh_buffer j (set_brightness d s) := by
  simp only [set_brightness]
  split_ifs <;> rfl

theorem store_effect_fresh (j : List Char) (s : SignState) :
    store_effect (fresh_buffer j s) = fresh_buffer j (store_effect s) := by
  unfold store_effect
  by_cases hrw : s.nvs.rw_opens = false
  · have : (fresh_buffer j s).nvs.rw_opens = false := hrw
    rw [if_pos hrw, if_pos this]
  · have : ¬ (fresh_buffer j s).nvs.rw_opens = false := hrw
    rw [if_neg hrw, if_neg this]
    have he : (fresh_buffer j s).nvs.effect = s.nvs.effect := rfl
    have hc : (fresh_buffer j s).current_effect = s.current_effect := rfl
    rw [he, hc]
    cases s.nvs.effect with
    | absent => dsimp only; split_ifs <;> rfl
    | value v => dsimp only; split_ifs <;> rfl
    | unreadable => rfl

theorem store_speed_fresh (j : List Char) (s : SignState) :
    store_speed (fresh_buffer j s) = fresh_buffer j (store_speed s) := by
  unfold store_speed
  by_cases hrw : s.nvs.rw_opens = false
  · have : (fresh_buffer j s).nvs.rw_opens = false := hrw
    rw [if_pos hrw, if_pos this]
  · have : ¬ (fresh_buffer j s).nvs.rw_opens = false := hrw
    rw [if_neg hrw, if_neg this]
    have he : (fresh_buffer j s).nvs.speed = s.nvs.speed := rfl
    have hc : (fresh_buffer j s).effect_speed_delay = s.effect_speed_delay := rfl
    rw [he, hc]
    cases s.nvs.speed with
    | absent => dsimp only; split_ifs <;> rfl
    | value v => dsimp only; split_ifs <;> rfl
    | unreadable => rfl

theorem store_brightness_fresh (j : List Char) (s : SignState) :
    store_brightness (fresh_buffer j s) = fresh_buffer j (store_brightness s) := by
  unfold store_brightness
  by_cases hrw : s.nvs.rw_opens = false
  · have : (fresh_buffer j s).nvs.rw_opens = false := hrw
    rw [if_pos hrw, if_pos this]
  · have : ¬ (fresh_buffer j s).nvs.rw_opens = false := hrw
    rw [if_neg hrw, if_neg this]
    have he : (fresh_buffer j s).nvs.brightness = s.nvs.brightness := rfl
    have hc : (fresh_buffer j s).led_brightness = s.led_brightness := rfl
    rw [he, hc]
    cases s.nvs.brightness with
    | absent => dsimp only; split_ifs <;> rfl
    | value v => dsimp only; split_ifs <;> rfl
    | unreadable => rfl

theorem end_running_task_fresh (j : List Char) (s : SignState) :
    end_running_task (fresh_buffer j s) = fresh_buffer j (end_running_task s) := by
  unfold end_running_task
  cases h : s.led_task_handle with
  | none =>
    have : (fresh_buffer j s).led_task_handle = none := h
    simp only [this]
  | some k =>
    have : (fresh_buffer j s).led_task_handle = some k := h
    simp only [this]
    rfl

theorem xTaskCreate_fresh (f : TaskFn) (j : List Char) (s : SignState) :
    xTaskCreate f (fresh_buffer j s) = fresh_buffer j (xTaskCreate f s) := rfl

theorem showtime_fresh (j : List Char) (s : SignState) :
    showtime (fresh_buffer j s) = fresh_buffer j (showtime s) := by
  unfold showtime
  simp only [end_running_task_fresh]
  obtain ⟨e, he⟩ : ∃ e, e = end_running_task s := ⟨_, rfl⟩
  rw [← he]
  have hc : (fresh_buffer j e).current_effect = e.current_effect := rfl
  have hx : ∀ f, (xTaskCreate f (fresh_buffer j e)).current_effect = e.current_effect :=
    fun _ => rfl
  have hy : ∀ f, (xTaskCreate f e).current_effect = e.current_effect := fun _ => rfl
  rw [hc]
  by_cases h0 : e.current_effect = OFF
  · simp only [h0, if_true, hx, hy, ne_eq, not_true_eq_false, if_false]
    rfl
  · split_ifs <;> first | rfl | (exfalso; simp_all [hx, hy])

/-- On the four topics other than the colour topic the handler does not
look at the buffer of `store_palette`. -/
theorem mqtt_event_handler_fresh (cfg : MqttTopics) (ev : esp_mqtt_event_t) (j : List Char)
    (s : SignState) (hd : ev.event_id = .MQTT_EVENT_DATA)
    (hc : topic_of cfg ev.topic ≠ some .color) :
    mqtt_event_handler cfg ev (fresh_buffer j s) =
      (mqtt_event_handler cfg ev s).map (fresh_buffer j) := by
  unfold mqtt_event_handler
  simp only [hd]
  cases ht : topic_of cfg ev.topic with
  | none => rfl
  | some tp =>
    cases tp with
    | mode =>
      simp only [set_mode_fresh, store_effect_fresh, showtime_fresh]
      rfl
    | control =>
      simp only [set_control_fresh, store_effect_fresh, showtime_fresh]
      rfl
    | color => exact absurd ht hc
    | speed =>
      simp only [set_speed_fresh, store_speed_fresh, showtime_fresh]
      rfl
    | brightness =>
      cases substring ev.data 0 ev.data_len with
      | none => rfl
      | some temp =>
        simp only [set_brightness_fresh, store_brightness_fresh, showtime_fresh]
        rfl

/-- Storing the palette again with a buffer of its own: once `store_palette`
has completed and has left the key in the store (or the store does not
open), running it on the same palette completes and changes nothing,
whatever the new buffer holds. -/
theorem store_palette_again (u t sb : SignState) (j : List Char)
    (h : store_palette u = .ok sb)
    (hn : t.nvs = { sb.nvs with junk := some j }) (hp : t.led_palette = u.led_palette)
    (hk : sb.nvs.rw_opens = true → sb.nvs.palette ≠ .absent) :
    store_palette t = .ok t := by
  have hcc : strcmp_eq u.led_palette (cstr u.led_palette) = true := by
    unfold strcmp_eq
    rw [cstr_cstr]
    simp
  have hrwt : t.nvs.rw_opens = sb.nvs.rw_opens := by rw [hn]
  have hpt : t.nvs.palette = sb.nvs.palette := by rw [hn]
  unfold store_palette at h
  unfold store_palette
  by_cases hrw : u.nvs.rw_opens = false
  · rw [if_pos hrw] at h
    injection h with h
    rw [if_pos (by rw [hrwt, ← h]; exact hrw)]
  · rw [if_neg hrw] at h
    cases he : u.nvs.palette with
    | unreadable =>
      simp only [he] at h
      injection h with h
      rw [if_neg (by rw [hrwt, ← h]; exact hrw)]
      have : t.nvs.palette = .unreadable := by rw [hpt, ← h]; exact he
      simp only [this]
    | value p =>
      simp only [he] at h
      by_cases hlen : strlen u.led_palette ≥ 8
      · rw [if_pos hlen] at h
        exact absurd h (by simp)
      · rw [if_neg hlen] at h
        by_cases hq : strcmp_eq u.led_palette p = true
        · rw [if_pos hq] at h
          injection h with h
          rw [if_neg (by rw [hrwt, ← h]; exact hrw)]
          have : t.nvs.palette = .value p := by rw [hpt, ← h]; exact he
          simp only [this, hp]
          rw [if_neg hlen, if_pos hq]
        · rw [if_neg hq] at h
          injection h with h
          rw [if_neg (by rw [hrwt, ← h]; exact hrw)]
          have : t.nvs.palette = .value (cstr u.led_palette) := by rw [hpt, ← h]
          simp only [this, hp]
          rw [if_neg hlen, if_pos hcc]
    | absent =>
      simp only [he] at h
      cases hj : u.nvs.junk with
      | none =>
        simp only [hj] at h
        exact absurd h (by simp)
      | some j0 =>
        simp only [hj] at h
        by_cases hlen : strlen u.led_palette ≥ 8
        · rw [if_pos hlen] at h
          exact absurd h (by simp)
        · rw [if_neg hlen] at h
          by_cases hq : strcmp_eq u.led_palette j0 = true
          · rw [if_pos hq] at h
            injection h with h
            exact absurd (by rw [← h]; exact he)
              (hk (by rw [← h]; simpa using hrw))
          · rw [if_neg hq] at h
            injection h with h
            rw [if_neg (by rw [hrwt, ← h]; exact hrw)]
            have : t.nvs.palette = .value (cstr u.led_palette) := by rw [hpt, ← h]
            simp only [this, hp]
            rw [if_neg hlen, if_pos hcc]

/-- From a state whose handle names the live render task `showtime`, for an
effect of the enumeration, leaves exactly one render task: that of the
effect, under the next free handle. The task that ran before is gone. -/
theorem showtime_tasks (x : SignState) (ho : Owned x) (h6 : x.current_effect ≤ 6) :
    ∃ f, task_function_of x.current_effect = [f] ∧
      (showtime x).tasks = [(x.next_handle, f)] ∧
      (showtime x).led_task_handle = some x.next_handle ∧
      (showtime x).next_handle = x.next_handle + 1 := by
  have hi := end_running_task_owned x ho
  have hf := end_running_task_fields x
  have hn := end_running_task_next_handle x
  have hs := showtime_starts_task x h6
  have ht : (showtime x).tasks =
      (task_function_of x.current_effect).map fun f => (x.next_handle, f) := by
    unfold showtime xTaskCreate task_function_of
    simp only [hf.1, hi.1, hn]
    generalize x.current_effect = e at h6
    interval_cases e <;>
      simp [OFF, COLOR, RAINBOW, ENUMERATE, MARQUEE, TWINKLE, RAINBOW_MARQUEE]
  have hfn : ∃ f, task_function_of x.current_effect = [f] := by
    unfold task_function_of
    generalize x.current_effect = e at h6
    interval_cases e <;>
      simp [OFF, COLOR, RAINBOW, ENUMERATE, MARQUEE, TWINKLE, RAINBOW_MARQUEE]
  obtain ⟨f, hf1⟩ := hfn
  refine ⟨f, hf1, ?_, hs.1, hs.2⟩
  rw [ht, hf1]
  rfl

theorem store_effect_next_handle (s : SignState) :
    (store_effect s).next_handle = s.next_handle := by
  unfold store_effect
  repeat' split
  all_goals rfl

theorem store_speed_next_handle (s : SignState) :
    (store_speed s).next_handle = s.next_handle := by
  unfold store_speed
  repeat' split
  all_goals rfl

theorem store_brightness_next_handle (s : SignState) :
    (store_brightness s).next_handle = s.next_handle := by
  unfold store_brightness
  repeat' split
  all_goals rfl

theorem store_palette_next_handle (s s1 : SignState) (h : store_palette s = .ok s1) :
    s1.next_handle = s.next_handle := by
  unfold store_palette at h
  repeat' split at h
  all_goals first
    | (injection h with h; subst h; rfl)
    | (exact absurd h (by simp))

/-- A data message on one of the five topics that the handler completes ends
in `showtime` of a state with the render tasks, the handle and the next free
handle it started from. -/
theorem data_handler_showtime (cfg : MqttTopics) (ev : esp_mqtt_event_t)
    (s s1 : SignState) (hd : ev.event_id = .MQTT_EVENT_DATA)
    (ht : (topic_of cfg ev.topic).isSome = true)
    (h : mqtt_event_handler cfg ev s = .ok s1) :
    ∃ x, s1 = showtime x ∧ x.tasks = s.tasks ∧ x.led_task_handle = s.led_task_handle ∧
      x.next_handle = s.next_handle := by
  unfold mqtt_event_handler at h
  simp only [hd] at h
  cases htp : topic_of cfg ev.topic with
  | none => rw [htp] at ht; exact absurd ht (by simp)
  | some tp =>
    cases tp with
    | mode =>
      simp only [htp] at h
      injection h with h
      exact ⟨_, h.symm, (store_effect_tasks _).1.trans (set_mode_tasks _ _).1,
        (store_effect_tasks _).2.trans (set_mode_tasks _ _).2,
        (store_effect_next_handle _).trans (set_mode_frame _ _).2.1⟩
    | control =>
      simp only [htp] at h
      injection h with h
      exact ⟨_, h.symm, (store_effect_tasks _).1.trans (set_control_tasks _ _).1,
        (store_effect_tasks _).2.trans (set_control_tasks _ _).2,
        (store_effect_next_handle _).trans (set_control_frame _ _).2.1⟩
    | color =>
      simp only [htp] at h
      split at h
      · exact absurd h (by simp)
      · next sa ha =>
        split at h
        · exact absurd h (by simp)
        · next sb hsb =>
          injection h with h
          exact ⟨_, h.symm,
            (store_palette_tasks _ _ hsb).1.trans (strncpy_palette_tasks _ _ _ _ ha).1,
            (store_palette_tasks _ _ hsb).2.trans (strncpy_palette_tasks _ _ _ _ ha).2,
            (store_palette_next_handle _ _ hsb).trans (strncpy_palette_frame _ _ _ _ ha).2.1⟩
    | speed =>
      simp only [htp] at h
      injection h with h
      exact ⟨_, h.symm, (store_speed_tasks _).1.trans (set_speed_tasks _ _).1,
        (store_speed_tasks _).2.trans (set_speed_tasks _ _).2,
        (store_speed_next_handle _).trans (set_speed_frame _ _).2.1⟩
    | brightness =>
      simp only [htp] at h
      cases hsub : substring ev.data 0 ev.data_len with
      | none =>
        simp only [hsub] at h
        exact absurd h (by simp)
      | some temp =>
        simp only [hsub] at h
        injection h with h
        exact ⟨_, h.symm, (store_brightness_tasks _).1.trans (set_brightness_tasks _ _).1,
          (store_brightness_tasks _).2.trans (set_brightness_tasks _ _).2,
          (store_brightness_next_handle _).trans (set_brightness_frame _ _).2.1⟩

theorem set_control_effect_congr (d : List Char) (a b : SignState)
    (h1 : a.current_effect = b.current_effect) (h2 : a.prev_effect = b.prev_effect) :
    (set_control d a).current_effect = (set_control d b).current_effect := by
  unfold set_control
  split_ifs
  · rfl
  · exact h2
  · exact h1

/-- The same data message handled on a state with the effect and the
previous effect that its first handling left asks for the effect that is
already set. -/
theorem second_handling_effect (cfg : MqttTopics) (ev : esp_mqtt_event_t)
    (s s1 t s2 : SignState) (hd : ev.event_id = .MQTT_EVENT_DATA)
    (h1 : mqtt_event_handler cfg ev s = .ok s1)
    (hce : t.current_effect = s1.current_effect) (hpe : t.prev_effect = s1.prev_effect)
    (h2 : mqtt_event_handler cfg ev t = .ok s2) :
    s2.current_effect = s1.current_effect := by
  unfold mqtt_event_handler at h1 h2
  simp only [hd] at h1 h2
  cases htp : topic_of cfg ev.topic with
  | none =>
    simp only [htp] at h1 h2
    injection h2 with h2
    rw [← h2, hce]
  | some tp =>
    cases tp with
    | mode =>
      simp only [htp] at h1 h2
      injection h1 with h1
      injection h2 with h2
      have e : t.current_effect = (set_mode ev.data s).current_effect := by
        rw [hce, ← h1, showtime_current_effect, store_effect_current_effect]
      rw [← h2, showtime_current_effect, store_effect_current_effect,
        set_mode_again ev.data s t e, hce]
    | control =>
      simp only [htp] at h1 h2
      injection h1 with h1
      injection h2 with h2
      rw [← h2, showtime_current_effect, store_effect_current_effect,
        set_control_effect_congr ev.data t s1 hce hpe, ← h1, set_control_again,
        showtime_current_effect, store_effect_current_effect]
    | color =>
      simp only [htp] at h2
      split at h2
      · exact absurd h2 (by simp)
      · next sa ha =>
        split at h2
        · exact absurd h2 (by simp)
        · next sb hsb =>
          injection h2 with h2
          rw [← h2, showtime_current_effect, (store_palette_effects _ _ hsb).2,
            (strncpy_palette_frame _ _ _ _ ha).2.2.2, hce]
    | speed =>
      simp only [htp] at h2
      injection h2 with h2
      rw [← h2, showtime_current_effect, store_speed_current_effect,
        (set_speed_frame _ _).2.2.2, hce]
    | brightness =>
      simp only [htp] at h2
      cases hsub : substring ev.data 0 ev.data_len with
      | none =>
        simp only [hsub] at h2
        exact absurd h2 (by simp)
      | some temp =>
        simp only [hsub] at h2
        injection h2 with h2
        rw [← h2, showtime_current_effect, store_brightness_current_effect,
          (set_brightness_frame _ _).2.2.2, hce]

/-- The render tasks over two handlings of the same data message on one of
the five topics, for an effect of the enumeration: the first handling leaves
exactly the task of the effect under the handle that was free, the second
leaves exactly one task of the same effect under the handle after it. -/
theorem second_handling_tasks (cfg : MqttTopics) (ev : esp_mqtt_event_t)
    (s s1 t s2 : SignState) (ho : Owned s) (hd : ev.event_id = .MQTT_EVENT_DATA)
    (ht : (topic_of cfg ev.topic).isSome = true)
    (h1 : mqtt_event_handler cfg ev s = .ok s1)
    (htt : t.tasks = s1.tasks ∧ t.led_task_handle = s1.led_task_handle ∧
      t.next_handle = s1.next_handle ∧ t.current_effect = s1.current_effect ∧
      t.prev_effect = s1.prev_effect)
    (h2 : mqtt_event_handler cfg ev t = .ok s2) (h6 : s1.current_effect ≤ 6) :
    s2.current_effect = s1.current_effect ∧
    ∃ f, task_function_of s1.current_effect = [f] ∧
      s1.tasks = [(s.next_handle, f)] ∧ s1.led_task_handle = some s.next_handle ∧
      s2.tasks = [(s.next_handle + 1, f)] ∧
      s2.led_task_handle = some (s.next_handle + 1) ∧
      s2.next_handle = s.next_handle + 2 := by
  have hce := second_handling_effect cfg ev s s1 t s2 hd h1 htt.2.2.2.1 htt.2.2.2.2 h2
  obtain ⟨x, hx, hxt, hxh, hxn⟩ := data_handler_showtime cfg ev s s1 hd ht h1
  obtain ⟨y, hy, hyt, hyh, hyn⟩ := data_handler_showtime cfg ev t s2 hd ht h2
  have hox : Owned x := owned_of_same_tasks s x ho ⟨hxt, hxh⟩
  have hxe : x.current_effect = s1.current_effect := by rw [hx, showtime_current_effect]
  have hye : y.current_effect = s1.current_effect := by
    rw [← hce, hy, showtime_current_effect]
  obtain ⟨f, hf, hft, hfh, hfn⟩ := showtime_tasks x hox (by rw [hxe]; exact h6)
  have ho1 : Owned s1 := by rw [hx]; exact (showtime_owned x hox).1
  have hoy : Owned y :=
    owned_of_same_tasks s1 y ho1 ⟨hyt.trans htt.1, hyh.trans htt.2.1⟩
  obtain ⟨g, hg, hgt, hgh, hgn⟩ := showtime_tasks y hoy (by rw [hye]; exact h6)
  have hfg : g = f := by
    rw [hye, ← hxe, hf] at hg
    injection hg with hg
    exact hg.symm
  have hyn1 : y.next_handle = s.next_handle + 1 := by
    rw [hyn, htt.2.2.1, hx, hfn, hxn]
  refine ⟨hce, f, by rw [← hxe]; exact hf, ?_, ?_, ?_, ?_, ?_⟩
  · rw [hx, hft, hxn]
  · rw [hx, hfh, hxn]
  · rw [hy, hgt, hyn1, hfg]
  · rw [hy, hgh, hyn1]
  · rw [hy, hgn, hyn1]

/-- C17, amended. For every state whose byte variables hold bytes and whose
handle names the live render task, and every MQTT data message that the
handler completes, handling the same message again (`store_palette` getting
a buffer of its own, with any content) completes and performs no persistence
set or commit: the store is left as it was. For a colour message this needs
the palette key to be in the store after the first handling whenever the
store opens. The second handling is not a no-op for the render task: on each
of the five topics, for an effect of the enumeration, the first handling
leaves exactly the task of the effect under the handle that was free, and
the second handling deletes that task and leaves exactly one new task of the
same effect under the next handle. -/
theorem second_handling_writes_nothing (cfg : MqttTopics) (ev : esp_mqtt_event_t)
    (s s1 : SignState) (j : List Char) (hb : Bytes s) (ho : Owned s)
    (hd : ev.event_id = .MQTT_EVENT_DATA)
    (h1 : mqtt_event_handler cfg ev s = .ok s1)
    (hk : topic_of cfg ev.topic = some .color → s1.nvs.rw_opens = true →
      s1.nvs.palette ≠ .absent) :
    ∃ s2, mqtt_event_handler cfg ev (fresh_buffer j s1) = .ok s2 ∧
      s2.nvs = (fresh_buffer j s1).nvs ∧
      ((topic_of cfg ev.topic).isSome = true → s1.current_effect ≤ 6 →
        s2.current_effect = s1.current_effect ∧
        ∃ f, task_function_of s1.current_effect = [f] ∧
          s1.tasks = [(s.next_handle, f)] ∧ s1.led_task_handle = some s.next_handle ∧
          s2.tasks = [(s.next_handle + 1, f)] ∧
          s2.led_task_handle = some (s.next_handle + 1) ∧
          s2.next_handle = s.next_handle + 2) := by
  have key : ∃ s2, mqtt_event_handler cfg ev (fresh_buffer j s1) = .ok s2 ∧
      s2.nvs = (fresh_buffer j s1).nvs := by
    by_cases hc : topic_of cfg ev.topic = some .color
    · have hk1 := hk hc
      unfold mqtt_event_handler at h1 ⊢
      simp only [hd, hc] at h1 ⊢
      split at h1
      · exact absurd h1 (by simp)
      · next sa ha =>
        split at h1
        · exact absurd h1 (by simp)
        · next sb hsb =>
          injection h1 with h1
          have hnv : s1.nvs = sb.nvs := by rw [← h1, showtime_nvs]
          have hpal : (fresh_buffer j s1).led_palette = sa.led_palette := by
            show s1.led_palette = sa.led_palette
            rw [← h1, showtime_led_palette, store_palette_led_palette _ _ hsb]
          have e1 := strncpy_palette_twice ev.data ev.data_len s sa ha (fresh_buffer j s1) hpal
          have hn2 : (fresh_buffer j s1).nvs = { sb.nvs with junk := some j } := by
            rw [← hnv]
            rfl
          have e2 : store_palette (fresh_buffer j s1) = .ok (fresh_buffer j s1) :=
            store_palette_again sa (fresh_buffer j s1) sb j hsb hn2 hpal
              (by rw [← hnv]; exact hk1)
          rw [e1]
          simp only [e2]
          exact ⟨_, rfl, showtime_nvs _⟩
    · obtain ⟨s2, h2, hn, _⟩ := second_handling_same_buffer cfg ev s s1 hb hd h1
      rw [mqtt_event_handler_fresh cfg ev j s1 hd hc, h2]
      refine ⟨fresh_buffer j s2, rfl, ?_⟩
      show ({ s2.nvs with junk := some j } : Nvs) = { s1.nvs with junk := some j }
      rw [hn]
  obtain ⟨s2, h2, hn⟩ := key
  exact ⟨s2, h2, hn, fun ht h6 =>
    second_handling_tasks cfg ev s s1 (fresh_buffer j s1) s2 ho hd ht h1
      ⟨rfl, rfl, rfl, rfl, rfl⟩ h2 h6⟩

theorem second_handling_writes_nothing_witness :
    ∃ s1,
      (Bytes (showtime (boot_state (empty_nvs false true (some [])))) ∧
        Owned (showtime (boot_state (empty_nvs false true (some [])))) ∧
        (data_event "sign/color" "#ff0000").event_id = .MQTT_EVENT_DATA ∧
        mqtt_event_handler sample_topics (data_event "sign/color" "#ff0000")
          (showtime (boot_state (empty_nvs false true (some [])))) = .ok s1 ∧
        (topic_of sample_topics (data_event "sign/color" "#ff0000").topic = some .color →
          s1.nvs.rw_opens = true → s1.nvs.palette ≠ .absent)) ∧
      ∃ s2, mqtt_event_handler sample_topics (data_event "sign/color" "#ff0000")
          (fresh_buffer ['x'] s1) = .ok s2 ∧
        s2.nvs = (fresh_buffer ['x'] s1).nvs ∧
        s1.tasks = [(1, .led_rainbow)] ∧ s2.tasks = [(2, .led_rainbow)] :=
  ⟨_, ⟨by unfold Bytes; decide, by unfold Owned; decide, rfl, rfl, fun _ _ => by decide⟩,
    (second_handling_writes_nothing sample_topics (data_event "sign/color" "#ff0000")
      (showtime (boot_state (empty_nvs false true (some [])))) _ ['x']
      (by unfold Bytes; decide) (by unfold Owned; decide) rfl rfl
      (fun _ _ => by decide)).elim
      fun s2 hs => ⟨s2, hs.1, hs.2.1,
        ((hs.2.2 (by decide) (by decide)).2.elim fun f hf =>
          ⟨hf.2.1.trans (congrArg (fun g => [(1, g)])
              (List.head_eq_of_cons_eq (hf.1.symm.trans
                (show task_function_of _ = [TaskFn.led_rainbow] from by decide)))),
            hf.2.2.2.1.trans (congrArg (fun g => [(2, g)])
              (List.head_eq_of_cons_eq (hf.1.symm.trans
                (show task_function_of _ = [TaskFn.led_rainbow] from by decide))))⟩)⟩⟩

end BroadwaySign
